import Mathlib

/-!
# Telemetry daemon (Lab_5) and file logger (Lab_4): embedding and properties

The C++ sources are embedded as pure Lean functions.

* A `std::string` is a list of characters (`Str`); a character stands for one byte.
* A `double` is an exact rational: no rounding is modelled.
* An `int` / `time_t` is an unbounded integer.
* The clock, the serial port, the socket and the file system are inputs of the step functions.
-/

set_option autoImplicit false

namespace OperatingSystems

/-! ## Strings -/

/-- Text of a `std::string`. -/
abbrev Str := List Char

/-- The terminator of a C string. -/
def NUL : Char := Char.ofNat 0

/-- The single quote, delimiter of SQL string literals. -/
def QUOTE : Char := Char.ofNat 39

/-- The double quote. -/
def DQUOTE : Char := Char.ofNat 34

/-- What a `const char*` reader sees of `s.c_str()`: the text up to the first NUL. -/
def c_str (s : Str) : Str := s.takeWhile (fun c => c != NUL)

/-- A text with neither a single quote nor a NUL: it passes through an SQL string literal
unchanged. -/
def plain (s : Str) : Prop := QUOTE ∉ s ∧ NUL ∉ s

instance (s : Str) : Decidable (plain s) := by unfold plain; infer_instance

/-- Scan for `pat` in the suffix `s`, whose first character has index `i`. -/
def find_at (pat : Str) : Str → ℕ → Option ℕ
  | [], i => if pat.isPrefixOf [] then some i else none
  | c :: t, i => if pat.isPrefixOf (c :: t) then some i else find_at pat t (i + 1)

/-- Embedding of `std::string::find(pat, pos)`; `none` is `npos`. -/
def find_from (s pat : Str) (pos : ℕ) : Option ℕ :=
  if pos ≤ s.length then find_at pat (s.drop pos) pos else none

/-- Embedding of `std::string::find(pat)`. -/
def find (s pat : Str) : Option ℕ := find_from s pat 0

/-- Embedding of `std::string::substr(pos, len)`. -/
def substr (s : Str) (pos len : ℕ) : Str := (s.drop pos).take len

/-- Embedding of `std::string::substr(pos)`. -/
def substr_from (s : Str) (pos : ℕ) : Str := s.drop pos

/-- Embedding of `std::string::replace(pos, len, r)`. -/
def replace (s : Str) (pos len : ℕ) (r : Str) : Str :=
  s.take pos ++ r ++ s.drop (pos + min len (s.length - pos))

/-- Index of the first character of `s` (first index `i`) that is not in `set`. -/
def first_not_of_at (set : Str) : Str → ℕ → Option ℕ
  | [], _ => none
  | c :: t, i => if set.contains c then first_not_of_at set t (i + 1) else some i

/-- Embedding of `std::string::find_first_not_of(set)`. -/
def find_first_not_of (s set : Str) : Option ℕ := first_not_of_at set s 0

/-- Embedding of `std::string::find_last_not_of(set)`. -/
def find_last_not_of (s set : Str) : Option ℕ :=
  match first_not_of_at set s.reverse 0 with
  | some k => some (s.length - 1 - k)
  | none => none

/-- Byte-wise comparison of two texts (`memcmp`, then the shorter first): the order SQLite uses
for TEXT values under the default BINARY collation. -/
def str_le : Str → Str → Bool
  | [], _ => true
  | _ :: _, [] => false
  | a :: as, b :: bs =>
    if a.toNat < b.toNat then true
    else if b.toNat < a.toNat then false
    else str_le as bs

/-! ## Numbers as text -/

/-- Embedding of `std::to_string(unsigned)`: decimal digits. -/
def to_string_nat (n : ℕ) : Str := Nat.toDigits 10 n

/-- Embedding of `std::to_string(int)`. -/
def to_string_int (z : ℤ) : Str :=
  if z < 0 then '-' :: to_string_nat z.natAbs else to_string_nat z.toNat

/-- Round a non-negative rational to the nearest natural number, ties to even. -/
def round_half_even (x : ℚ) : ℕ :=
  let n := (Rat.floor x).toNat
  let r := x - n
  if r < 1 / 2 then n
  else if 1 / 2 < r then n + 1
  else if n % 2 = 0 then n else n + 1

/-- Left-pad `s` with `0` to width `w` (`setfill('0')`, `setw(w)`). -/
def pad_zero (w : ℕ) (s : Str) : Str := List.replicate (w - s.length) '0' ++ s

/-- Embedding of `std::to_string(double)`, i.e. `%f`: six decimals. -/
def to_string_double (v : ℚ) : Str :=
  let scaled := round_half_even (|v| * 1000000)
  (if v < 0 then ['-'] else []) ++ to_string_nat (scaled / 1000000) ++ ['.'] ++
    pad_zero 6 (to_string_nat (scaled % 1000000))

/-! ## Parsing a sample: `std::stod` -/

/-- The exceptions `std::stod` throws. -/
inductive StodError
  | invalid_argument
  | out_of_range
deriving DecidableEq

/-- Outcome of `std::stod` on a text. `value v`: it returns `v`, kept exact. `thrown e`: it throws
`e`. `not_rational`: the C library accepts the text, but the result is outside this rational model
(infinity, NaN and hexadecimal spellings, and underflow, whose error report is
implementation-defined). -/
inductive StodResult
  | value (v : ℚ)
  | thrown (e : StodError)
  | not_rational
deriving DecidableEq

/-- The C `isspace` in the "C" locale. -/
def isspace (c : Char) : Bool :=
  c = ' ' || c = '\t' || c = '\n' || c = Char.ofNat 11 || c = Char.ofNat 12 || c = '\r'

/-- The C `isdigit`. -/
def isdigit (c : Char) : Bool := decide (48 ≤ c.toNat) && decide (c.toNat ≤ 57)

/-- Value of a run of decimal digits. -/
def digits_value (ds : Str) : ℕ := ds.foldl (fun n c => 10 * n + (c.toNat - 48)) 0

/-- Split an optional sign off the front of a text: (is negative, rest). -/
def split_sign : Str → Bool × Str
  | '-' :: t => (true, t)
  | '+' :: t => (false, t)
  | s => (false, s)

/-- A decimal floating literal as `strtod` reads it: sign, all digits of the mantissa with the
point removed, and the power of ten that scales it. -/
structure DecimalLiteral where
  negative : Bool
  mantissa : ℕ
  exponent : ℤ
deriving DecidableEq

/-- The exponent part of a decimal literal: `e` or `E`, an optional sign and at least one digit;
anything else is not part of the number and counts as exponent 0. -/
def scan_exponent : Str → ℤ
  | [] => 0
  | c :: t =>
    if c = 'e' ∨ c = 'E' then
      let (eneg, t2) := split_sign t
      let ed := t2.takeWhile isdigit
      if ed = [] then 0 else if eneg then - (digits_value ed : ℤ) else (digits_value ed : ℤ)
    else 0

/-- The longest decimal floating literal at the front of `s` (after the sign): digits with an
optional point, at least one digit in all, then an optional exponent. `none`: no conversion. -/
def scan_decimal (negative : Bool) (s : Str) : Option DecimalLiteral :=
  let ip := s.takeWhile isdigit
  let s3 := s.dropWhile isdigit
  let (fp, s4) :=
    match s3 with
    | '.' :: t => (t.takeWhile isdigit, t.dropWhile isdigit)
    | _ => ([], s3)
  if ip = [] ∧ fp = [] then none
  else some ⟨negative, digits_value (ip ++ fp), scan_exponent s4 - fp.length⟩

/-- The magnitude a decimal literal denotes. -/
def DecimalLiteral.magnitude (d : DecimalLiteral) : ℚ := (d.mantissa : ℚ) * (10 : ℚ) ^ d.exponent

/-- The rational a decimal literal denotes. -/
def DecimalLiteral.toRat (d : DecimalLiteral) : ℚ :=
  if d.negative then - d.magnitude else d.magnitude

/-- Least magnitude that rounds to infinity in binary64: `2^1024 - 2^970`. -/
def DBL_OVERFLOW : ℚ := 2 ^ 1024 - 2 ^ 970

/-- Least positive normal binary64 number: `2^-1022`. -/
def DBL_MIN : ℚ := 1 / 2 ^ 1022

/-- Does `s` start with `p`, letter case ignored? -/
def starts_with_nocase (s p : Str) : Bool := p.isPrefixOf (s.map Char.toLower)

/-- Model of `std::stod(str)` (the C++ library, through `strtod`): skip leading white space, read
the longest literal; no conversion throws `invalid_argument`; a magnitude that overflows the
`double` range makes `strtod` report `ERANGE`, and `stod` throws `out_of_range`. -/
def stod (str : Str) : StodResult :=
  let (negative, s) := split_sign ((c_str str).dropWhile isspace)
  if starts_with_nocase s "inf".toList ∨ starts_with_nocase s "nan".toList
      ∨ starts_with_nocase s "0x".toList then .not_rational
  else
    match scan_decimal negative s with
    | none => .thrown .invalid_argument
    | some d =>
      if DBL_OVERFLOW ≤ d.magnitude then .thrown .out_of_range
      else if 0 < d.magnitude ∧ d.magnitude < DBL_MIN then .not_rational
      else .value d.toRat

/-- The trimming of lines 885-890: cut leading and trailing space, tab, LF and CR. -/
def trim_chunk (tempStr : Str) : Str :=
  match find_first_not_of tempStr " \t\n\r".toList, find_last_not_of tempStr " \t\n\r".toList with
  | some first, some last => substr tempStr first (last - first + 1)
  | _, _ => []

/-- Result of the `try`/`catch` of lines 891-897: the sample value, or the exception that the
handler for `std::invalid_argument` does not catch. -/
inductive Parsed
  | sample (currentTemperature : ℚ)
  | uncaught (e : StodError)
  | not_rational
deriving DecidableEq

/-- Lines 891-897: `try { v = std::stod(tempStr); } catch (const std::invalid_argument&) { v = 0.0; }`. -/
def parse_sample (tempStr : Str) : Parsed :=
  match stod tempStr with
  | .value v => .sample v
  | .thrown .invalid_argument => .sample 0
  | .thrown .out_of_range => .uncaught .out_of_range
  | .not_rational => .not_rational

/-! ## The clock -/

/-- One reading of the system clock: the fields `localtime` yields (year already offset by 1900,
month counted from 1), and the milliseconds since the epoch. -/
structure ClockReading where
  year : ℕ
  month : ℕ
  day : ℕ
  hour : ℕ
  minute : ℕ
  second : ℕ
  since_epoch_ms : ℕ
deriving DecidableEq

/-- Embedding of `get_current_time` (Lab_5/src/main.cpp 832-847) at the clock reading `now`:
`%Y-%m-%d %H:%M:%S`, a point, and the milliseconds in three digits. -/
def get_current_time (now : ClockReading) : Str :=
  to_string_nat now.year ++ ['-'] ++ pad_zero 2 (to_string_nat now.month) ++ ['-'] ++
    pad_zero 2 (to_string_nat now.day) ++ [' '] ++ pad_zero 2 (to_string_nat now.hour) ++ [':'] ++
    pad_zero 2 (to_string_nat now.minute) ++ [':'] ++ pad_zero 2 (to_string_nat now.second) ++
    ['.'] ++ pad_zero 3 (to_string_nat (now.since_epoch_ms % 1000))

/-! ## The store: table `logs` behind the SQLite interface -/

/-- One row of table `logs` (the `id` column is the position in the list). -/
structure Row where
  timestamp : Str
  temperature : Str
deriving DecidableEq

/-- Content of table `logs`, in insertion order. -/
abbrev Database := List Row

/-- The two statement shapes the daemon sends to SQLite. -/
inductive Statement
  | insert (timestamp temperature : Str)
  | select_between (lo hi : Str)
deriving DecidableEq

/-- What the SQL engine makes of a statement text. `error`: a certain syntax error (a string
literal that never closes). `other`: a text outside the two shapes, not covered by this model. -/
inductive Prepared
  | ok (st : Statement)
  | error
  | other
deriving DecidableEq

/-- Read an SQL string literal after its opening quote: up to the closing quote, a doubled quote
standing for one quote character. Result: (content, text after the literal); `none` when the
literal is not closed. -/
def lex_literal : Str → Option (Str × Str)
  | [] => none
  | [c] => if c = QUOTE then some ([], []) else none
  | c :: c2 :: t =>
    if c = QUOTE then
      if c2 = QUOTE then (lex_literal t).map (fun p => (QUOTE :: p.1, p.2))
      else some ([], c2 :: t)
    else (lex_literal (c2 :: t)).map (fun p => (c :: p.1, p.2))

/-- Remove the leading text `p` from `s`, if `s` starts with it. -/
def strip_front : Str → Str → Option Str
  | [], s => some s
  | _ :: _, [] => none
  | a :: p, b :: s => if a = b then strip_front p s else none

/-- Read `'lit1' sep 'lit2' close` and nothing more; `mk` builds the statement. -/
def parse_two_literals (sep close : Str) (mk : Str → Str → Statement) (s : Str) : Prepared :=
  match s with
  | [] => .other
  | q :: body =>
    if q ≠ QUOTE then .other
    else
      match lex_literal body with
      | none => .error
      | some (lit1, r1) =>
        match strip_front (sep ++ [QUOTE]) r1 with
        | none => .other
        | some body2 =>
          match lex_literal body2 with
          | none => .error
          | some (lit2, r2) => if r2 = close then .ok (mk lit1 lit2) else .other

/-- The SQL engine on a statement text (the `const char*` handed to `sqlite3_exec` or
`sqlite3_prepare_v2`), for the two statements the daemon builds. -/
def sqlite_parse (sql : Str) : Prepared :=
  match strip_front "INSERT INTO logs (timestamp, temperature) VALUES (".toList sql with
  | some rest => parse_two_literals ", ".toList ");".toList Statement.insert rest
  | none =>
    match strip_front
        "SELECT timestamp, temperature FROM logs WHERE timestamp BETWEEN ".toList sql with
    | some rest => parse_two_literals " AND ".toList ";".toList Statement.select_between rest
    | none => .other

/-- Embedding of `write_log_to_db` (Lab_5/src/main.cpp 849-858) at the clock reading `now`: the
store afterwards. A failed statement is reported on `std::cerr` and leaves the store as it was;
`none` when the statement text is outside the modelled SQL. -/
def write_log_to_db (db : Database) (now : ClockReading) (record : Str) : Option Database :=
  let query := "INSERT INTO logs (timestamp, temperature) VALUES ('".toList ++
    get_current_time now ++ "', '".toList ++ record ++ "');".toList
  match sqlite_parse (c_str query) with
  | .ok (.insert timestamp temperature) => some (db ++ [⟨timestamp, temperature⟩])
  | .ok (.select_between _ _) => none
  | .error => some db
  | .other => none

/-- One turn of the `while (sqlite3_step(stmt) == SQLITE_ROW)` loop of `get_stats_from_db`
(lines 377-382) on the loop state `(response, first)`. -/
def append_row (acc : Str × Bool) (row : Row) : Str × Bool :=
  let response := if !acc.2 then acc.1 ++ ",".toList else acc.1
  let response := response ++ ("\x7b\"timestamp\":\"".toList ++ c_str row.timestamp ++ "\",".toList)
  let response := response ++ ("\"temperature\":\"".toList ++ c_str row.temperature ++ "\"\x7d".toList)
  (response, false)

/-- Rows that `timestamp BETWEEN lo AND hi` selects, in table order. -/
def select_between (db : Database) (lo hi : Str) : List Row :=
  db.filter (fun row => str_le lo row.timestamp && str_le row.timestamp hi)

/-- Embedding of `get_stats_from_db` (Lab_5/src/main.cpp 365-391). `none` when the statement text
is outside the modelled SQL. -/
def get_stats_from_db (db : Database) (start_time end_time : Str) : Option Str :=
  let query := "SELECT timestamp, temperature FROM logs WHERE timestamp BETWEEN '".toList ++
    start_time ++ "' AND '".toList ++ end_time ++ "';".toList
  match sqlite_parse (c_str query) with
  | .error => some "\x7b\"error\":\"Database error.\"\x7d".toList
  | .ok (.select_between lo hi) =>
    let out := (select_between db lo hi).foldl append_row ("[".toList, true)
    some (out.1 ++ "]".toList)
  | .ok (.insert _ _) => none
  | .other => none

/-! ## Fixed-length records -/

/-- Source constant `RECORD_LENGTH`. -/
def RECORD_LENGTH : ℕ := 30

namespace Lab_4

/-- Embedding of `make_fixed_length_record` of Lab_4/src/main.cpp (352-357); the result is the
final value of `fixed_record`. -/
def make_fixed_length_record (record : Str) : Str :=
  let fixed_record := List.replicate (RECORD_LENGTH - 1) ' '
  let fixed_record := fixed_record ++ ['\n']
  let copy_len := min record.length (RECORD_LENGTH - 1)
  replace fixed_record 0 copy_len (substr record 0 copy_len)

end Lab_4

namespace Lab_5

/-- Embedding of `make_fixed_length_record` of Lab_5/src/main.cpp (341-345); the result is the
final value of `fixed_record`. -/
def make_fixed_length_record (record : Str) : Str :=
  let fixed_record := List.replicate (RECORD_LENGTH - 1) ' '
  let copy_len := min record.length (RECORD_LENGTH - 1)
  replace fixed_record 0 copy_len (substr record 0 copy_len)

end Lab_5

/-! ## The daemon: shared variables and worker threads (Lab_5) -/

/-- Source constant `SEC_IN_HOUR`. -/
def SEC_IN_HOUR : ℤ := 3600

/-- Source macro `SEC_IN_DAY`, `24 * SEC_IN_HOUR`. -/
def SEC_IN_DAY : ℤ := 24 * SEC_IN_HOUR

/-- Source constant `BUFFER_SIZE`. -/
def BUFFER_SIZE : ℕ := 1024

/-- The `time_t` variables of `main` a `ThreadData` can point at. -/
inductive TimeVar
  | nextHourLogTime
  | nextDayLogTime
deriving DecidableEq

/-- The `double` variables of `main` a `ThreadData` can point at. -/
inductive AverageVar
  | hourlyAverageValue
  | dailyAverageValue
deriving DecidableEq

/-- The `int` variables of `main` a `ThreadData` can point at. -/
inductive CounterVar
  | hourlyRecordCounter
  | dailyRecordCounter
deriving DecidableEq

/-- The pointer fields of `struct ThreadData` (lines 56-76); `db` and `portData` are the same
objects in every instance and live in `Memory`. -/
structure ThreadData where
  nextLogTime : TimeVar
  averageValue : AverageVar
  recordCounter : CounterVar
deriving DecidableEq

/-- The variables of `main` (lines 161, 214-221) that the threads share. -/
structure Memory where
  db : Database
  hourlyRecordCounter : ℤ
  dailyRecordCounter : ℤ
  hourlyAverageValue : ℚ
  dailyAverageValue : ℚ
  portData : Str
  nextHourLogTime : ℤ
  nextDayLogTime : ℤ
deriving DecidableEq

/-- Read through a `time_t*`. -/
def Memory.time (m : Memory) : TimeVar → ℤ
  | .nextHourLogTime => m.nextHourLogTime
  | .nextDayLogTime => m.nextDayLogTime

/-- Write through a `time_t*`. -/
def Memory.setTime (m : Memory) (p : TimeVar) (t : ℤ) : Memory :=
  match p with
  | .nextHourLogTime => { m with nextHourLogTime := t }
  | .nextDayLogTime => { m with nextDayLogTime := t }

/-- Read through a `double*`. -/
def Memory.average (m : Memory) : AverageVar → ℚ
  | .hourlyAverageValue => m.hourlyAverageValue
  | .dailyAverageValue => m.dailyAverageValue

/-- Write through a `double*`. -/
def Memory.setAverage (m : Memory) (p : AverageVar) (v : ℚ) : Memory :=
  match p with
  | .hourlyAverageValue => { m with hourlyAverageValue := v }
  | .dailyAverageValue => { m with dailyAverageValue := v }

/-- Read through an `int*`. -/
def Memory.counter (m : Memory) : CounterVar → ℤ
  | .hourlyRecordCounter => m.hourlyRecordCounter
  | .dailyRecordCounter => m.dailyRecordCounter

/-- Write through an `int*`. -/
def Memory.setCounter (m : Memory) (p : CounterVar) (n : ℤ) : Memory :=
  match p with
  | .hourlyRecordCounter => { m with hourlyRecordCounter := n }
  | .dailyRecordCounter => { m with dailyRecordCounter := n }

/-- The value `params_hour` of `main` (line 233). -/
def params_hour : ThreadData := ⟨.nextHourLogTime, .hourlyAverageValue, .hourlyRecordCounter⟩

/-- The value `params_day` of `main` (line 252). -/
def params_day : ThreadData := ⟨.nextDayLogTime, .dailyAverageValue, .dailyRecordCounter⟩

/-- The value `params_data` of `main` (line 272), handed to `data_processing_thread`. -/
def params_data : ThreadData := ⟨.nextDayLogTime, .dailyAverageValue, .dailyRecordCounter⟩

/-- The value `params_web` of `main` (line 294), handed to `web_server_thread`. -/
def params_web : ThreadData := ⟨.nextDayLogTime, .dailyAverageValue, .dailyRecordCounter⟩

/-- The shared variables as `main` initialises them (lines 214-221), over the opened store `db`
and with `startTime = time(NULL)`. -/
def initial_memory (db : Database) (startTime : ℤ) : Memory :=
  { db := db
    hourlyRecordCounter := 0
    dailyRecordCounter := 0
    hourlyAverageValue := 0
    dailyAverageValue := 0
    portData := []
    nextHourLogTime := startTime + SEC_IN_HOUR
    nextDayLogTime := startTime + SEC_IN_DAY }

/-- One aggregation bucket: a running mean and the number of samples in it. -/
structure Bucket where
  averageValue : ℚ
  recordCounter : ℤ
deriving DecidableEq

/-- The accumulate step, lines 907-908 of Lab_5/src/main.cpp (and 311-312, 315-316 of
Lab_4/src/main.cpp): `counter = counter + 1; average += (value - average) / counter`. -/
def accumulate (b : Bucket) (value : ℚ) : Bucket :=
  let recordCounter := b.recordCounter + 1
  { recordCounter := recordCounter
    averageValue := b.averageValue + (value - b.averageValue) / (recordCounter : ℚ) }

/-- The bucket a `ThreadData` points at. -/
def Memory.bucket (m : Memory) (params : ThreadData) : Bucket :=
  ⟨m.average params.averageValue, m.counter params.recordCounter⟩

/-- Store a bucket through the pointers of a `ThreadData`. -/
def Memory.setBucket (m : Memory) (params : ThreadData) (b : Bucket) : Memory :=
  (m.setCounter params.recordCounter b.recordCounter).setAverage params.averageValue b.averageValue

/-- How one turn of a thread loop ends. `next m`: the turn completes and the loop goes on from
`m`. `terminate e`: exception `e` leaves the thread function, which ends the process
(`std::terminate`). `outside_model`: the turn leaves the modelled fragment (`stod` result that
is not a rational, SQL text that is not one of the two statements). -/
inductive Turn
  | next (m : Memory)
  | terminate (e : StodError)
  | outside_model
deriving DecidableEq

/-- One turn of the loop of `data_processing_thread` (Lab_5/src/main.cpp 881-912) in which `read`
returned the bytes `chunk`; `now` is the clock reading inside `write_log_to_db` (the value
`currentTime` of line 899 is never used). -/
def data_processing_turn (params : ThreadData) (now : ClockReading) (chunk : Str) (m : Memory) :
    Turn :=
  if 0 < chunk.length then
    match parse_sample (trim_chunk chunk) with
    | .uncaught e => .terminate e
    | .not_rational => .outside_model
    | .sample currentTemperature =>
      let logRecord := to_string_double currentTemperature
      let fixed_record := Lab_5.make_fixed_length_record logRecord
      match write_log_to_db m.db now fixed_record with
      | none => .outside_model
      | some db =>
        let m := { m with db := db, portData := to_string_double currentTemperature }
        .next (m.setBucket params (accumulate (m.bucket params) currentTemperature))
  else .next m

/-- The ingestion worker over a sequence of reads, each with the clock reading of its insert. -/
def data_processing_run (params : ThreadData) : List (ClockReading × Str) → Memory → Turn
  | [], m => .next m
  | (now, chunk) :: rest, m =>
    match data_processing_turn params now chunk m with
    | .next m1 => data_processing_run params rest m1
    | t => t

/-- The record a flusher writes for the mean `avg` at the clock reading `now` (lines 932-936):
`logRecord = currentTime + " " + std::to_string(avg)`, made fixed-length. -/
def flush_record (now : ClockReading) (avg : ℚ) : Str :=
  let logRecord := get_current_time now ++ " ".toList ++ to_string_double avg
  Lab_5.make_fixed_length_record logRecord

/-- The body of a window flusher when it fires (lines 924-945 and 960-981): advance the boundary
by `window`, read the mean, write the record, reset mean and counter. `now1` is the clock reading
for the record text, `now2` the one inside `write_log_to_db`. -/
def flush (window : ℤ) (params : ThreadData) (now1 now2 : ClockReading) (m : Memory) :
    Option Memory :=
  let m := m.setTime params.nextLogTime (m.time params.nextLogTime + window)
  let avg := m.average params.averageValue
  let fixed_record := flush_record now1 avg
  match write_log_to_db m.db now2 fixed_record with
  | none => none
  | some db =>
    let m := { m with db := db }
    let m := m.setAverage params.averageValue 0
    some (m.setCounter params.recordCounter 0)

/-- One turn of the loop of `hourly_log_thread` (lines 920-948) with `time(NULL) = current_time`. -/
def hourly_log_turn (params : ThreadData) (current_time : ℤ) (now1 now2 : ClockReading)
    (m : Memory) : Option Memory :=
  if current_time ≥ m.time params.nextLogTime then flush SEC_IN_HOUR params now1 now2 m
  else some m

/-- One turn of the loop of `daily_log_thread` (lines 956-984) with `time(NULL) = current_time`. -/
def daily_log_turn (params : ThreadData) (current_time : ℤ) (now1 now2 : ClockReading)
    (m : Memory) : Option Memory :=
  if current_time ≥ m.time params.nextLogTime then flush SEC_IN_DAY params now1 now2 m
  else some m

/-! ## The query server (Lab_5) -/

/-- Embedding of `http_response` (lines 347-363). -/
def http_response (body : Str) (status_code : ℤ) (content_type : Str) : Str :=
  let status_line := "HTTP/1.1 ".toList ++ to_string_int status_code ++ " ".toList
  let status_line :=
    if status_code = 200 then status_line ++ "OK\r\n".toList
    else if status_code = 404 then status_line ++ "Not Found\r\n".toList
    else status_line ++ "Internal Server Error\r\n".toList
  let headers := "Content-Type: ".toList ++ content_type ++ "\r\n".toList ++
    "Content-Length: ".toList ++ to_string_nat body.length ++ "\r\n".toList ++
    "Connection: close\r\n".toList ++
    "Cache-Control: no-cache, no-store, must-revalidate\r\n".toList ++
    "Pragma: no-cache\r\n".toList ++
    "Expires: 0\r\n\r\n".toList
  status_line ++ headers ++ body

/-- Lines 738-743 of `handle_client`: the zero-filled `buffer[BUFFER_SIZE]` receives the bytes
`received`, `buffer[bytesRead] = '0'` stores the digit zero after them, and `request` is the C
string in the buffer. `none`: the array holds no NUL, so the read runs past its end. -/
def request_text (received : Str) : Option Str :=
  let buffer := received ++ ['0'] ++ List.replicate (BUFFER_SIZE - 1 - received.length) NUL
  if NUL ∈ buffer then some (c_str buffer) else none

/-- Lines 751-772 of `handle_client`: the range `(start_time, end_time)` of a `/stats` request. -/
def stats_range (request : Str) (program_start_time : Str) (now : ClockReading) : Str × Str :=
  match find request "start=".toList, find request "end=".toList with
  | some start_pos, some end_pos =>
    let start_pos := start_pos + 6
    let end_pos := end_pos + 4
    let start_time :=
      match find_from request "&".toList start_pos with
      | none => substr_from request start_pos
      | some next_amp => substr request start_pos (next_amp - start_pos)
    let end_time :=
      match find_from request "&".toList end_pos with
      | none => substr_from request end_pos
      | some next_amp => substr request end_pos (next_amp - end_pos)
    (start_time, end_time)
  | _, _ => (program_start_time, get_current_time now)

/-- The files the server can open: name to content, `none` when the open fails. -/
abbrev Files := Str → Option Str

/-- Lines 774-819 of `handle_client`: the response to a request that starts with `GET /`. -/
def static_response (request : Str) (files : Files) : Str :=
  let response :=
    match files "index.html".toList with
    | some content => http_response content 200 "text/html".toList
    | none =>
      http_response "<html><body><h1>Error: index.html not found</h1></body></html>".toList 404
        "text/html".toList
  let response :=
    if find request "GET /style.css".toList = some 0 then
      match files "style.css".toList with
      | some content => http_response content 200 "text/css".toList
      | none => http_response "Error 404: style.css not found".toList 404 "text/plain".toList
    else response
  if find request "GET /script.js".toList = some 0 then
    match files "script.js".toList with
    | some content => http_response content 200 "application/javascript".toList
    | none => http_response "Error 404: script.js not found".toList 404 "text/plain".toList
  else response

/-- What `handle_client` does with a connection. `sent r`: it sends `r`. `silent`: it sends
nothing. `outside_model`: the run leaves the modelled fragment (read past the buffer, SQL text
that is not one of the two statements). -/
inductive Handled
  | sent (response : Str)
  | silent
  | outside_model
deriving DecidableEq

/-- Embedding of `handle_client` (Lab_5/src/main.cpp 737-825). `received` holds the bytes `recv`
stored (`bytesRead` is its length), `program_start_time` the global of that name, `now` the
clock reading of the call of `get_current_time` in line 771. -/
def handle_client (received : Str) (files : Files) (db : Database) (currentTemperatureStr : Str)
    (program_start_time : Str) (now : ClockReading) : Handled :=
  if 0 < received.length then
    match request_text received with
    | none => .outside_model
    | some request =>
      if find request "GET /current".toList = some 0 then
        .sent (http_response
          ("\x7b\"temperature\":\"".toList ++ currentTemperatureStr ++ "\"\x7d".toList) 200
          "application/json".toList)
      else if find request "GET /stats".toList = some 0 then
        let range := stats_range request program_start_time now
        match get_stats_from_db db range.1 range.2 with
        | some body => .sent (http_response body 200 "application/json".toList)
        | none => .outside_model
      else if find request "GET /".toList = some 0 then .sent (static_response request files)
      else
        .sent (http_response "<html><body><h1>Hello, World!</h1></body></html>".toList 200
          "text/html".toList)
  else .silent

/-! ## The `/stats` array and the round trip, in the words of the specification -/

/-- One element of the `/stats` array: an object with the timestamp and the temperature of a
row, both as they are stored. -/
def json_object (row : Row) : Str :=
  "\x7b\"timestamp\":\"".toList ++ row.timestamp ++ "\",\"temperature\":\"".toList ++
    row.temperature ++ "\"\x7d".toList

/-- A row as the reader of `sqlite3_column_text` sees it: each text up to its first NUL. -/
def as_c_text (row : Row) : Row := ⟨c_str row.timestamp, c_str row.temperature⟩

/-- Texts in a row, separated by single commas. -/
def comma_separated : List Str → Str
  | [] => []
  | [x] => x
  | x :: y :: rest => x ++ ",".toList ++ comma_separated (y :: rest)

/-- The array of the objects of `rows`: an opening bracket, the objects separated by single
commas, a closing bracket. -/
def stats_array (rows : List Row) : Str :=
  "[".toList ++ comma_separated (rows.map json_object) ++ "]".toList

/-- The rows with `start <= timestamp <= end` under string comparison, in insertion order. -/
def rows_in_range (db : Database) (start_time end_time : Str) : List Row :=
  db.filter (fun row => str_le start_time row.timestamp && str_le row.timestamp end_time)

/-- Insert a sequence of readings with `write_log_to_db`, each at its clock reading. -/
def insert_all (db : Database) : List (ClockReading × Str) → Option Database
  | [] => some db
  | (now, record) :: rest =>
    match write_log_to_db db now record with
    | some db1 => insert_all db1 rest
    | none => none

/-- The lesser of two texts under string comparison. -/
def str_min (a b : Str) : Str := if str_le a b then a else b

/-- The greater of two texts under string comparison. -/
def str_max (a b : Str) : Str := if str_le a b then b else a

/-- The least of a list of timestamps (the empty text for the empty list). -/
def t_min : List Str → Str
  | [] => []
  | t :: rest => rest.foldl str_min t

/-- The greatest of a list of timestamps (the empty text for the empty list). -/
def t_max : List Str → Str
  | [] => []
  | t :: rest => rest.foldl str_max t

/-- The row `write_log_to_db` is to store for a reading. -/
def reading_row (p : ClockReading × Str) : Row := ⟨get_current_time p.1, p.2⟩

/-- One turn of the accept loop of `web_server_thread` (lines 1015-1028) on a connection whose
`recv` stored the bytes `received`: the current value is copied from `portData` and the client is
handled. -/
def web_server_turn (received : Str) (files : Files) (program_start_time : Str)
    (now : ClockReading) (m : Memory) : Handled :=
  let currentTemperatureStr := m.portData
  handle_client received files m.db currentTemperatureStr program_start_time now

/-! ## The response framing, in the words of the specification -/

/-- The reason phrase of a status line: OK for 200, Not Found for 404, Internal Server Error for
every other code. -/
def reason_phrase (status_code : ℤ) : Str :=
  if status_code = 200 then "OK".toList
  else if status_code = 404 then "Not Found".toList
  else "Internal Server Error".toList

/-- The status line `HTTP/1.1 <code> <reason>`, without its line end. -/
def status_line (status_code : ℤ) : Str :=
  "HTTP/1.1 ".toList ++ to_string_int status_code ++ " ".toList ++ reason_phrase status_code

/-! ## The checkpoint file (Lab_5) -/

/-- Greatest value of an `int`. -/
def INT_MAX : ℤ := 2147483647

/-- Least value of an `int`. -/
def INT_MIN : ℤ := -2147483648

/-- Source constant `EXIT_FAILURE`. -/
def EXIT_FAILURE : ℤ := 1

/-- Outcome of `stream >> int`. `ok v rest`: the value and the unread text. `fail v`: the stream
is in the fail state and `v` was stored (0 when there is no number, the nearest bound when the
number does not fit an `int`). -/
inductive Extracted
  | ok (value : ℤ) (rest : Str)
  | fail (value : ℤ)
deriving DecidableEq

/-- Model of `std::istream::operator>>(int&)` on the unread text `s`: skip white space, read an
optional sign and the decimal digits that follow. -/
def extract_int (s : Str) : Extracted :=
  let (negative, s2) := split_sign (s.dropWhile isspace)
  let ds := s2.takeWhile isdigit
  if ds = [] then .fail 0
  else
    let v : ℤ := if negative then - (digits_value ds : ℤ) else (digits_value ds : ℤ)
    if INT_MAX < v then .fail INT_MAX
    else if v < INT_MIN then .fail INT_MIN
    else .ok v (s2.dropWhile isdigit)

/-- Lines 150-159 of Lab_5/src/main.cpp (Linux branch) on the content of the checkpoint file:
`lastRecordPosition` starts as `{0, 0}`; a file that is not empty is read with two `>>`, the
second of which does nothing once the stream has failed. -/
def read_last_positions (content : Str) : ℤ × ℤ :=
  if content = [] then (0, 0)
  else
    match extract_int content with
    | .fail v => (v, 0)
    | .ok a rest =>
      match extract_int rest with
      | .fail v => (a, v)
      | .ok b _ => (a, b)

/-- Lines 326-327 of Lab_5/src/main.cpp: the text `main` writes at shutdown for the positions
`a` and `b`. -/
def checkpoint_text (a b : ℤ) : Str :=
  to_string_int a ++ "\n".toList ++ (to_string_int b ++ "\n".toList)

/-- How the start of `main` ends as far as the checkpoint is concerned. `proceeds file p`: `main`
goes on with the positions `p`, the checkpoint file holding `file`. `exits code`: `main` calls
`exit(code)`. -/
inductive CheckpointStart
  | proceeds (file : Str) (positions : ℤ × ℤ)
  | exits (code : ℤ)
deriving DecidableEq

/-- Lines 142-159 of Lab_5/src/main.cpp (Linux branch) on the checkpoint file as it is on disk
(`none`: there is no such file). `std::fstream` with `std::ios::in | std::ios::out` opens like
`fopen` with `"r+"`: it does not create a missing file. -/
def open_checkpoint_linux (on_disk : Option Str) : CheckpointStart :=
  match on_disk with
  | none => .exits EXIT_FAILURE
  | some content => .proceeds content (read_last_positions content)

/-- Model of `sscanf(buffer, "%d %d", value1, value2)`: the number of values assigned and the
values (a number that does not fit an `int` counts as not assigned). -/
def sscanf_two_ints (buffer : Str) : ℕ × ℤ × ℤ :=
  match extract_int (c_str buffer) with
  | .fail _ => (0, 0, 0)
  | .ok a rest =>
    match extract_int rest with
    | .fail _ => (1, a, 0)
    | .ok b _ => (2, a, b)

/-- Lines 135-140 and 151-153 of Lab_5/src/main.cpp (Windows branch) on the checkpoint file as
it is on disk: `CreateFileW` with `OPEN_ALWAYS` creates a missing file, `read_last_records`
(lines 528-541) reads at most 255 bytes and exits unless `sscanf` assigns two values. -/
def open_checkpoint_windows (on_disk : Option Str) : CheckpointStart :=
  let content := on_disk.getD []
  if content = [] then .proceeds content (0, 0)
  else
    match sscanf_two_ints (content.take 255) with
    | (2, a, b) => .proceeds content (a, b)
    | _ => .exits EXIT_FAILURE

/-! ## The circular log files (Lab_4, exploration.cpp) -/

namespace Exploration

/-- Source constant `HOURS_IN_MONTH` of Lab_4/src/exploration.cpp (line 47). -/
def HOURS_IN_MONTH : ℤ := 720

/-- A `std::ofstream` on a log file: the bytes of the file (with what the stream still buffers),
the put position, whether the stream was opened with `std::ios::app`, and the fail state. -/
structure OFStream where
  content : Str
  put : ℕ
  app : Bool
  fail : Bool
deriving DecidableEq

/-- Writing `bytes` over `content` from byte `offset` on; a gap past the end reads as NUL. -/
def overwrite (content : Str) (offset : ℕ) (bytes : Str) : Str :=
  let padded := content ++ List.replicate (offset - content.length) NUL
  padded.take offset ++ bytes ++ padded.drop (offset + bytes.length)

/-- Member `seekp(offset, std::ios::beg)`: nothing on a failed stream, a negative offset sets
the fail state, otherwise the put position moves. -/
def OFStream.seekp (file : OFStream) (offset : ℤ) : OFStream :=
  if file.fail then file
  else if offset < 0 then { file with fail := true }
  else { file with put := offset.toNat }

/-- Member `tellp()`: the put position, -1 on a failed stream. -/
def OFStream.tellp (file : OFStream) : ℤ := if file.fail then -1 else (file.put : ℤ)

/-- Member `write(bytes, size)`: nothing on a failed stream; a stream opened with
`std::ios::app` places every write at the end of the file, whatever the put position; any other
stream writes at the put position. -/
def OFStream.write (file : OFStream) (bytes : Str) : OFStream :=
  if file.fail then file
  else if file.app then
    { file with content := file.content ++ bytes, put := file.content.length + bytes.length }
  else { file with content := overwrite file.content file.put bytes, put := file.put + bytes.length }

/-- The stream `log_file_hour` as `main` opens it (line 598, `std::ios::out | std::ios::app`) on
a file holding `on_disk`; `log_file` (line 587) is opened with the same mode. -/
def log_file_hour (on_disk : Str) : OFStream := ⟨on_disk, 0, true, false⟩

/-- Embedding of `get_offset` (lines 122-130): the value returned and the stream after it. -/
def get_offset (file : OFStream) (line_number : ℤ) : ℤ × OFStream :=
  if line_number = 0 then (0, file)
  else
    let offset := (line_number - 1) * (RECORD_LENGTH : ℤ)
    let file := file.seekp offset
    (file.tellp, file)

/-- Embedding of `write_log` (lines 154-174): the stream and the value of
`last_record_pos[index]` after the call. -/
def write_log (file : OFStream) (record : Str) (first_opened : Bool) (last_record_pos : ℤ)
    (CYCLE : ℤ) : OFStream × ℤ :=
  let seeked : OFStream × ℤ :=
    if first_opened = true ∧ last_record_pos < CYCLE then
      let offset := get_offset file (last_record_pos + 1)
      (offset.2.seekp offset.1, last_record_pos)
    else if last_record_pos ≥ CYCLE ∨ last_record_pos = 0 then
      (file.seekp 0, 0)
    else (file, last_record_pos)
  (seeked.1.write record, seeked.2 + 1)

/-- A sequence of `write_log` calls on one log, each with its record and its `first_opened`
flag: the stream and the stored position after every call. -/
def write_log_run (CYCLE : ℤ) : List (Str × Bool) → OFStream × ℤ → List (OFStream × ℤ)
  | [], _ => []
  | call :: rest, state =>
    let after := write_log state.1 call.1 call.2 state.2 CYCLE
    after :: write_log_run CYCLE rest after

/-- The byte offset the specification gives for a write at stored position `p`. -/
def slot_offset (p : ℤ) (CYCLE : ℤ) : ℕ :=
  if p ≥ CYCLE ∨ p = 0 then 0 else (p * (RECORD_LENGTH : ℤ)).toNat

end Exploration

/-! ## Startup of the daemon (Lab_5, Linux branch) -/

/-- The resources `main` acquires before the threads start. -/
inductive Resource
  | checkpoint_file
  | store
  | semaphore
  | port
deriving DecidableEq

/-- What happens to a resource during startup; `sem_unlink` removes the name of the semaphore. -/
inductive StartupEvent
  | acquired (r : Resource)
  | released (r : Resource)
  | sem_unlink
deriving DecidableEq

/-- How startup ends: the threads are started, `exit(status)` is called, or an exception leaves
`main` uncaught (`std::terminate`), with the text of the exception. -/
inductive StartupEnd
  | threads_start
  | exit (status : ℤ)
  | terminate (what : Str)
deriving DecidableEq

/-- What the environment answers during startup: the content of the checkpoint file if it
exists, the return values of `sigaction`, `sqlite3_open`, `sqlite3_exec`, of `open` on the port
and of `tcflush`, and the exception `configure_port` throws, if any. -/
structure StartupEnvironment where
  sigaction_result : ℤ
  checkpoint_on_disk : Option Str
  sqlite3_open_rc : ℤ
  sqlite3_exec_rc : ℤ
  open_result : ℤ
  configure_port_throws : Option Str
  tcflush_result : ℤ

/-- Result of `open_and_configure_port`: the descriptor returned, or the `std::runtime_error`
thrown, with whether a descriptor was left open. -/
inductive PortOpening
  | returned (fd : ℤ)
  | thrown (what : Str) (descriptor_open : Bool)
deriving DecidableEq

/-- Embedding of `open_and_configure_port` of Lab_5/src/serial_port.h (135-142). -/
def open_and_configure_port (open_result : ℤ) (configure_port_throws : Option Str) :
    PortOpening :=
  let fd := open_result
  if fd = -1 then .thrown "open port failed.".toList false
  else
    match configure_port_throws with
    | some what => .thrown what true
    | none => .returned fd

/-- Embedding of `close_port` (serial_port.h 128-132) inside `free_resources` of
Lab_5/src/main.cpp (860-865), called with non-null pointers: the checkpoint file is closed, then
the port if `*fd` is not -1, then the store, then the semaphore name is removed. -/
def free_resources (fd : ℤ) : List StartupEvent :=
  [.released .checkpoint_file] ++ (if fd ≠ -1 then [.released .port] else []) ++
    [.released .store, .sem_unlink]

/-- Embedding of the start of `main` (Lab_5/src/main.cpp 112-212, Linux branch): the events on
the resources in order, and how startup ends. -/
def main_startup (env : StartupEnvironment) : List StartupEvent × StartupEnd :=
  if env.sigaction_result = -1 then ([], .exit EXIT_FAILURE)
  else
    match open_checkpoint_linux env.checkpoint_on_disk with
    | .exits code => ([], .exit code)
    | .proceeds _ _ =>
      let events := [StartupEvent.acquired .checkpoint_file]
      if env.sqlite3_open_rc ≠ 0 then
        (events ++ [.acquired .store, .released .store], .exit EXIT_FAILURE)
      else
        let events := events ++ [.acquired .store]
        if env.sqlite3_exec_rc ≠ 0 then (events ++ [.released .store], .exit EXIT_FAILURE)
        else
          let events := events ++ [.acquired .semaphore]
          match open_and_configure_port env.open_result env.configure_port_throws with
          | .thrown what descriptor_open =>
            (events ++ (if descriptor_open then [.acquired .port] else []), .terminate what)
          | .returned serialPort =>
            if serialPort = -1 then (events ++ free_resources serialPort, .exit EXIT_FAILURE)
            else
              let events := events ++ [.acquired .port]
              if env.tcflush_result = -1 then
                (events ++ free_resources serialPort, .exit EXIT_FAILURE)
              else (events, .threads_start)

/-- An environment in which everything before the port succeeds: the checkpoint file exists and
is empty, the store opens and the table is created. -/
def port_environment (open_result : ℤ) (configure_port_throws : Option Str)
    (tcflush_result : ℤ) : StartupEnvironment :=
  { sigaction_result := 0
    checkpoint_on_disk := some []
    sqlite3_open_rc := 0
    sqlite3_exec_rc := 0
    open_result := open_result
    configure_port_throws := configure_port_throws
    tcflush_result := tcflush_result }

/-! ## Reads from the transport (Lab_5) -/

/-- What a read from the serial port gives: the bytes stored in the buffer (none for a count of
0), or an error (`read` returns -1, `ReadFile` returns FALSE). -/
inductive ReadResult
  | bytes (chunk : Str)
  | error
deriving DecidableEq

/-- One iteration of the loop of `data_processing_thread`, Linux branch (lines 881-912), on the
result of `read`: with `bytesRead = -1` the test `bytesRead > 0` fails and the iteration only
sleeps. -/
def data_processing_iteration (params : ThreadData) (now : ClockReading) (r : ReadResult)
    (m : Memory) : Turn :=
  match r with
  | .bytes chunk => data_processing_turn params now chunk m
  | .error => .next m

/-- The loop of `data_processing_thread`, Linux branch, over the results of successive reads,
while `need_exit` stays 0. -/
def data_processing_loop (params : ThreadData) : List (ClockReading × ReadResult) → Memory → Turn
  | [], m => .next m
  | (now, r) :: rest, m =>
    match data_processing_iteration params now r m with
    | .next m1 => data_processing_loop params rest m1
    | t => t

/-- How an iteration of the Windows loop ends: the loop goes on with the turn, or `break`
leaves it. -/
inductive Iteration
  | goes_on (t : Turn)
  | breaks (m : Memory)
deriving DecidableEq

/-- One iteration of the loop of `data_processing_thread`, Windows branch (lines 559-598), on the
result of `ReadFile`: a failed read is reported and leaves the loop. -/
def data_processing_iteration_windows (params : ThreadData) (now : ClockReading) (r : ReadResult)
    (m : Memory) : Iteration :=
  match r with
  | .bytes chunk => .goes_on (data_processing_turn params now chunk m)
  | .error => .breaks m

/-! ## Locks (Lab_5, Linux branch) -/

/-- The four `ThreadData` objects of `main` (lines 233, 252, 272, 294). -/
inductive ThreadDataObject
  | params_hour
  | params_day
  | params_data
  | params_web
deriving DecidableEq

/-- The lock objects: the one semaphore of `main` (line 189), which the field `threadSemaphore`
of every `ThreadData` points at, and the member `dataMutex` (line 74), of which every
`ThreadData` object holds its own. -/
inductive Lock
  | threadSemaphore
  | dataMutex (owner : ThreadDataObject)
deriving DecidableEq

/-- What a thread does to the shared variables between taking and releasing a lock. -/
inductive BucketStep
  | accumulate (value : ℚ)
  | advance (window : ℤ)
  | read_average
  | reset_average
  | reset_counter
deriving DecidableEq

/-- A critical section: the lock held and the step done under it. -/
structure CriticalSection where
  lock : Lock
  step : BucketStep
deriving DecidableEq

/-- The critical section of `data_processing_thread` (lines 905-909), run on the `ThreadData`
object `self`: `params->dataMutex.lock()` takes the mutex inside that object. -/
def data_processing_section (self : ThreadDataObject) (value : ℚ) : CriticalSection :=
  ⟨.dataMutex self, .accumulate value⟩

/-- The critical sections of a firing flusher in program order (lines 924-945 and 960-981), each
between `SemaphoreWait(params->threadSemaphore)` and `SemaphorePost`; the record is written
between the second and the third, under no lock. -/
def log_thread_sections (window : ℤ) : List CriticalSection :=
  [⟨.threadSemaphore, .advance window⟩, ⟨.threadSemaphore, .read_average⟩,
    ⟨.threadSemaphore, .reset_average⟩, ⟨.threadSemaphore, .reset_counter⟩]

/-- Effect of a step through the pointers of `params`, on the shared variables and on the local
`avg` of the flusher. -/
def BucketStep.run (params : ThreadData) (s : BucketStep) (state : Memory × ℚ) : Memory × ℚ :=
  match s with
  | .accumulate value =>
    let m := { state.1 with portData := to_string_double value }
    (m.setBucket params (OperatingSystems.accumulate (m.bucket params) value), state.2)
  | .advance window =>
    (state.1.setTime params.nextLogTime (state.1.time params.nextLogTime + window), state.2)
  | .read_average => (state.1, state.1.average params.averageValue)
  | .reset_average => (state.1.setAverage params.averageValue 0, state.2)
  | .reset_counter => (state.1.setCounter params.recordCounter 0, state.2)

/-- The two threads that touch the daily bucket. -/
inductive Thread
  | data_processing
  | daily_log
deriving DecidableEq

/-- The `ThreadData` a thread received from `main` (lines 254 and 274). -/
def Thread.params : Thread → ThreadData
  | .data_processing => params_data
  | .daily_log => params_day

/-- An execution: critical sections in the order in which they run, each entirely before the
next, with the thread that runs it. -/
def run_schedule : List (Thread × CriticalSection) → Memory × ℚ → Memory × ℚ
  | [], state => state
  | (t, s) :: rest, state => run_schedule rest (s.step.run t.params state)

/-- The sections of one thread in a schedule, in order. -/
def sections_of (t : Thread) (schedule : List (Thread × CriticalSection)) :
    List CriticalSection :=
  (schedule.filter (fun e => decide (e.1 = t))).map (fun e => e.2)

/-- A schedule in which the ingestion worker accumulates the sample 22 after the daily flusher
has read the mean and before it resets the bucket. -/
def lost_sample_schedule : List (Thread × CriticalSection) :=
  [(.daily_log, ⟨.threadSemaphore, .advance SEC_IN_DAY⟩),
    (.daily_log, ⟨.threadSemaphore, .read_average⟩),
    (.data_processing, data_processing_section .params_data 22),
    (.daily_log, ⟨.threadSemaphore, .reset_average⟩),
    (.daily_log, ⟨.threadSemaphore, .reset_counter⟩)]

/-- A memory whose daily bucket holds the mean 20 over one sample. -/
def daily_memory : Memory :=
  { initial_memory [] 0 with dailyAverageValue := 20, dailyRecordCounter := 1 }

/-- A schedule in which the ingestion worker accumulates the sample 22 after the daily flusher
has reset the mean and before it resets the counter. -/
def torn_reset_schedule : List (Thread × CriticalSection) :=
  [(.daily_log, ⟨.threadSemaphore, .advance SEC_IN_DAY⟩),
    (.daily_log, ⟨.threadSemaphore, .read_average⟩),
    (.daily_log, ⟨.threadSemaphore, .reset_average⟩),
    (.data_processing, data_processing_section .params_data 22),
    (.daily_log, ⟨.threadSemaphore, .reset_counter⟩)]

/-! ## The file logger (Lab_4, main.cpp) -/

/-- Model of the C `atof` (`strtod` without error report) on the same decimal reader as `stod`:
a text without a number gives 0; `none` when the result is outside this rational model
(infinity, NaN, hexadecimal spellings, overflow to `HUGE_VAL`, underflow). -/
def atof (nptr : Str) : Option ℚ :=
  match stod nptr with
  | .value v => some v
  | .thrown .invalid_argument => some 0
  | .thrown .out_of_range => none
  | .not_rational => none

namespace Lab_4

/-- Source constant `SEC_IN_MONTH` (line 43): the text `24 * 3600 * 30`. -/
def SEC_IN_MONTH : ℤ := 24 * 3600 * 30

/-- Embedding of `write_log_to_file` (lines 571-576, Linux branch). -/
def write_log_to_file (file : Exploration.OFStream) (record : Str) (append : Bool) :
    Exploration.OFStream :=
  let file := if !append then file.seekp 0 else file
  file.write record

/-- The objects the pointer fields of a `ThreadData` (lines 45-60) point at: the log stream,
the boundary, the mean and the counter. -/
structure ThreadData where
  logFile : Exploration.OFStream
  nextLogTime : ℤ
  averageValue : ℚ
  recordCounter : ℤ
deriving DecidableEq

/-- The record a flusher builds (lines 614-617 and 682-685): time, a space, `std::to_string` of
the mean, made fixed-length. -/
def flush_record (now : ClockReading) (avg : ℚ) : Str :=
  let logRecord := get_current_time now ++ " ".toList ++ to_string_double avg
  make_fixed_length_record logRecord

/-- The locals `logStartTime` and `append_mode` of `hourly_log_thread` (lines 599-600). -/
structure HourlyLocals where
  logStartTime : ℤ
  append_mode : Bool
deriving DecidableEq

/-- One turn of the loop of `hourly_log_thread` (lines 601-636, Linux branch) with
`time(NULL) = current_time`; `now` is the clock reading of `get_current_time`. -/
def hourly_log_turn (current_time : ℤ) (now : ClockReading) (params : ThreadData)
    (locals : HourlyLocals) : ThreadData × HourlyLocals :=
  if current_time ≥ params.nextLogTime then
    let params := { params with nextLogTime := params.nextLogTime + SEC_IN_HOUR }
    let avg := params.averageValue
    let fixed_record := flush_record now avg
    let locals : HourlyLocals :=
      if current_time - locals.logStartTime ≥ SEC_IN_MONTH then
        { append_mode := false, logStartTime := current_time }
      else { locals with append_mode := true }
    let params :=
      { params with logFile := write_log_to_file params.logFile fixed_record locals.append_mode }
    let params := { params with averageValue := 0 }
    ({ params with recordCounter := 0 }, locals)
  else (params, locals)

/-- The locals `logYear` and `firstOpened` of `daily_log_thread` (lines 644-645); `logYear` has
no initial value and is not read before it is set. -/
structure DailyLocals where
  logYear : ℤ
  firstOpened : Bool
deriving DecidableEq

/-- How a turn of `daily_log_thread` ends: the loop goes on, or `exit(code)` is called. -/
inductive DailyTurn
  | next (params : ThreadData) (locals : DailyLocals)
  | exits (code : ℤ)
deriving DecidableEq

/-- The stream after `close()` and a successful `open(LOG_FILE_NAME_DAY, mode)` with mode
`std::ios::trunc | std::ios::out` or `std::ios::out`: an output stream opened without
`std::ios::app` empties the file. -/
def reopened : Exploration.OFStream := ⟨[], 0, false, false⟩

/-- One turn of the loop of `daily_log_thread` (lines 646-699, Linux branch) with
`time(NULL) = current_time` in the calendar year `currentYear`; `now` is the clock reading of
`get_current_time`, `reopen_trunc` and `reopen_out` tell whether the two `open` calls of a
rotation succeed. -/
def daily_log_turn (current_time currentYear : ℤ) (now : ClockReading)
    (reopen_trunc reopen_out : Bool) (params : ThreadData) (locals : DailyLocals) : DailyTurn :=
  if current_time ≥ params.nextLogTime then
    let rotated : Option (ThreadData × DailyLocals) :=
      if locals.firstOpened then some (params, { locals with logYear := currentYear })
      else if currentYear ≠ locals.logYear then
        if !reopen_trunc then none
        else if !reopen_out then none
        else some ({ params with logFile := reopened }, { locals with logYear := currentYear })
      else some (params, locals)
    match rotated with
    | none => .exits EXIT_FAILURE
    | some (params, locals) =>
      let locals := { locals with firstOpened := false }
      let params := { params with nextLogTime := params.nextLogTime + SEC_IN_DAY }
      let avg := params.averageValue
      let fixed_record := flush_record now avg
      let params := { params with logFile := write_log_to_file params.logFile fixed_record true }
      let params := { params with averageValue := 0 }
      .next { params with recordCounter := 0 } locals
  else .next params locals

/-- The variables of `main` (lines 158-260, Linux branch) and the locals of the two threads. -/
structure Logger where
  logFile : Exploration.OFStream
  buffer : Str
  logStartTime : ℤ
  append_mode : Bool
  params_hour : ThreadData
  params_day : ThreadData
  hourly : HourlyLocals
  daily : DailyLocals
deriving DecidableEq

/-- The state when the ingestion loop starts: the three logs opened with
`std::ios::trunc | std::ios::out`, the buffer of 255 zero bytes, `startTime = time(NULL)` in
`main`, `hourlyStart = time(NULL)` in `hourly_log_thread`, and whatever `logYear` holds. -/
def initial_logger (startTime hourlyStart logYear : ℤ) : Logger :=
  { logFile := ⟨[], 0, false, false⟩
    buffer := List.replicate 255 NUL
    logStartTime := startTime
    append_mode := false
    params_hour := ⟨⟨[], 0, false, false⟩, startTime + SEC_IN_HOUR, 0, 0⟩
    params_day := ⟨⟨[], 0, false, false⟩, startTime + SEC_IN_DAY, 0, 0⟩
    hourly := ⟨hourlyStart, false⟩
    daily := ⟨logYear, true⟩ }

/-- The buffer after `read` stored the bytes `chunk` (at most as many as the buffer holds) at
its start: the bytes behind them stay. -/
def read_into (buffer chunk : Str) : Str := chunk ++ buffer.drop chunk.length

/-- The call `atof(buffer.data())`: the C string at the start of the buffer; `none` also when
the buffer holds no NUL, so that the read runs past its end. -/
def atof_buffer (buffer : Str) : Option ℚ := if NUL ∈ buffer then atof buffer else none

/-- Lines 312-313 and 316-317: add a sample to the bucket a `ThreadData` points at. -/
def ThreadData.add (params : ThreadData) (currentTemperature : ℚ) : ThreadData :=
  let b := accumulate ⟨params.averageValue, params.recordCounter⟩ currentTemperature
  { params with averageValue := b.averageValue, recordCounter := b.recordCounter }

/-- One turn of the ingestion loop of `main` (lines 292-320, Linux branch) on the result of
`read`; `now` is the clock reading of `get_current_time`, `currentTimeSec` is `time(NULL)`.
`none`: the sample is outside the rational model. -/
def ingest_turn (now : ClockReading) (currentTimeSec : ℤ) (r : ReadResult) (s : Logger) :
    Option Logger :=
  match r with
  | .error => some s
  | .bytes chunk =>
    if 0 < chunk.length then
      let buffer := read_into s.buffer chunk
      let logRecord := get_current_time now ++ " ".toList ++ buffer.take chunk.length
      let fixed_record := make_fixed_length_record logRecord
      let restart := decide (currentTimeSec - s.logStartTime ≥ SEC_IN_DAY)
      let logStartTime := if restart then currentTimeSec else s.logStartTime
      let append_mode := !restart
      let logFile := write_log_to_file s.logFile fixed_record append_mode
      match atof_buffer buffer with
      | none => none
      | some currentTemperature =>
        some { s with
          buffer := buffer
          logStartTime := logStartTime
          append_mode := append_mode
          logFile := logFile
          params_hour := s.params_hour.add currentTemperature
          params_day := s.params_day.add currentTemperature }
    else some s

/-- The ingestion loop over the chunks of successive reads, all at one clock reading. -/
def ingest_chunks (now : ClockReading) (currentTimeSec : ℤ) : List Str → Logger → Option Logger
  | [], s => some s
  | chunk :: rest, s =>
    match ingest_turn now currentTimeSec (.bytes chunk) s with
    | some s1 => ingest_chunks now currentTimeSec rest s1
    | none => none

end Lab_4

/-! ## Shutdown (Lab_4 and Lab_5, Linux branch) -/

/-- Whether the checkpoint stream is in the fail state after the reads of the start of `main`
(Lab_5 lines 150-159, Lab_4 lines 125-134): one of the two `>>` failed. -/
def checkpoint_stream_fails (content : Str) : Bool :=
  if content = [] then false
  else
    match extract_int content with
    | .fail _ => true
    | .ok _ rest =>
      match extract_int rest with
      | .fail _ => true
      | .ok _ _ => false

/-- Lines 325-327 of Lab_5/src/main.cpp (337-339 of Lab_4/src/main.cpp): `seekg(0)` and the two
`<<` on the checkpoint stream opened at startup on a file holding `content`. Result: the text
written, if any, and the content of the file afterwards. On a stream in the fail state neither
the seek nor the insertions do anything; otherwise the text goes over the old content from
offset 0 and the file keeps its length if it was longer. -/
def write_last_positions (content : Str) (lastRecordPosition : ℤ × ℤ) : Option Str × Str :=
  if checkpoint_stream_fails content then (none, content)
  else
    (some (checkpoint_text lastRecordPosition.1 lastRecordPosition.2),
      Exploration.overwrite content 0
        (checkpoint_text lastRecordPosition.1 lastRecordPosition.2))

/-- Embedding of `close_port` (Lab_5/src/serial_port.h 127-132, Linux branch). -/
def close_port (fd : ℤ) : List StartupEvent := if fd ≠ -1 then [.released .port] else []

/-- The call `sqlite3_close(db)`: nothing for a null pointer. -/
def sqlite3_close (db_is_null : Bool) : List StartupEvent :=
  if db_is_null then [] else [.released .store]

/-- Lines 332-336 of Lab_5/src/main.cpp (Linux branch), the end of `main` after the threads are
joined and the checkpoint is written: `close_port(serialPort)`, which gets the descriptor by
value, then `free_resources(lastRecordFile, &db, &serialPort)`, which sets `serialPort` to -1 and
`db` to null, then `sqlite3_close(db)`. -/
def main_shutdown (serialPort : ℤ) : List StartupEvent :=
  close_port serialPort ++ free_resources serialPort ++ sqlite3_close true

/-! ## Ticks of a window flusher with the clock held (Lab_5) -/

/-- Run `n` turns of a thread loop, each from the state the turn before left. -/
def ticks (turn : Memory → Option Memory) : ℕ → Memory → Option Memory
  | 0, m => some m
  | n + 1, m =>
    match turn m with
    | some m1 => ticks turn n m1
    | none => none

/-- The number of ticks on which a flusher with window `W` fires when the clock stays at `t`
and the boundary starts at `b`, in the words of the specification: `floor((t - b) / W) + 1`
(0 when the boundary is ahead of the clock). -/
def fires (W t b : ℤ) : ℕ := ((t - b) / W + 1).toNat

/-! ## The statement text of a `/stats` query (Lab_5) -/

/-- Line 366 of `get_stats_from_db`: the text `query`. -/
def stats_query (start_time end_time : Str) : Str :=
  "SELECT timestamp, temperature FROM logs WHERE timestamp BETWEEN '".toList ++ start_time ++
    "' AND '".toList ++ end_time ++ "';".toList

/-- The statement text `sqlite3_prepare_v2` gets in line 369: `query.c_str()`, read up to the
first NUL. -/
def prepared_text (start_time end_time : Str) : Str := c_str (stats_query start_time end_time)

/-! ## The variables of `main` within reach of its workers (Lab_5 and Lab_4) -/

/-- The `int` variables of `main` that live while the threads run (Lab_5 lines 150 and 214,
Lab_4 lines 125 and 206): an `int*` can hold the address of any of them. -/
inductive IntVar
  | lastRecordPosition0
  | lastRecordPosition1
  | hourlyRecordCounter
  | dailyRecordCounter
deriving DecidableEq

/-- The `int` variable a counter pointer of a `ThreadData` points at. -/
def CounterVar.toIntVar : CounterVar → IntVar
  | .hourlyRecordCounter => .hourlyRecordCounter
  | .dailyRecordCounter => .dailyRecordCounter

/-- The variables of `main` that a pointer of a `ThreadData` can reach, with the checkpoint
positions next to the counters. The values of type `double` are kept abstract (`D`), so that
every value a computation can store is covered, NaN and the infinities included. -/
structure Variables (D : Type) where
  lastRecordPosition0 : ℤ
  lastRecordPosition1 : ℤ
  hourlyRecordCounter : ℤ
  dailyRecordCounter : ℤ
  hourlyAverageValue : D
  dailyAverageValue : D
  nextHourLogTime : ℤ
  nextDayLogTime : ℤ
  portData : Str

/-- The pointer fields `nextLogTime`, `averageValue` and `recordCounter` of a `ThreadData`
(Lab_5 lines 56-76, Lab_4 lines 45-60). -/
structure Pointers where
  nextLogTime : TimeVar
  averageValue : AverageVar
  recordCounter : IntVar
deriving DecidableEq

/-- The pointers of a `ThreadData` value of the daemon. -/
def Pointers.of (params : ThreadData) : Pointers :=
  ⟨params.nextLogTime, params.averageValue, params.recordCounter.toIntVar⟩

/-- Write through an `int*`. -/
def Variables.setInt {D : Type} (v : Variables D) (p : IntVar) (n : ℤ) : Variables D :=
  match p with
  | .lastRecordPosition0 => { v with lastRecordPosition0 := n }
  | .lastRecordPosition1 => { v with lastRecordPosition1 := n }
  | .hourlyRecordCounter => { v with hourlyRecordCounter := n }
  | .dailyRecordCounter => { v with dailyRecordCounter := n }

/-- Write through a `double*`. -/
def Variables.setAverage {D : Type} (v : Variables D) (p : AverageVar) (x : D) : Variables D :=
  match p with
  | .hourlyAverageValue => { v with hourlyAverageValue := x }
  | .dailyAverageValue => { v with dailyAverageValue := x }

/-- Write through a `time_t*`. -/
def Variables.setTime {D : Type} (v : Variables D) (p : TimeVar) (t : ℤ) : Variables D :=
  match p with
  | .nextHourLogTime => { v with nextHourLogTime := t }
  | .nextDayLogTime => { v with nextDayLogTime := t }

/-- The assignments to variables of `main` in the bodies of the thread functions, each with
the value it stores: `*params->portData = ...` (Lab_5 line 906), `*params->recordCounter = ...`
(Lab_5 907, 944, 980; Lab_4 632, 694), `*params->averageValue ... = ...` (Lab_5 908, 940, 976;
Lab_4 628, 690) and `*params->nextLogTime += ...` (Lab_5 925, 961; Lab_4 606, 674). All other
statements of these functions work on locals, on the store, on the log streams and on the
socket. -/
inductive Assignment (D : Type)
  | portData (text : Str)
  | recordCounter (n : ℤ)
  | averageValue (x : D)
  | nextLogTime (t : ℤ)

/-- The effect of an assignment made through the pointers `params`. -/
def Assignment.run {D : Type} (params : Pointers) (a : Assignment D) (v : Variables D) :
    Variables D :=
  match a with
  | .portData text => { v with portData := text }
  | .recordCounter n => v.setInt params.recordCounter n
  | .averageValue x => v.setAverage params.averageValue x
  | .nextLogTime t => v.setTime params.nextLogTime t

/-- Assignments made one after the other through the same pointers. -/
def run_assignments {D : Type} (params : Pointers) :
    List (Assignment D) → Variables D → Variables D
  | [], v => v
  | a :: rest, v => run_assignments params rest (a.run params v)

/-- The pointers each thread of the daemon works through: those of the `ThreadData` object
that `main` hands to `pthread_create` (lines 235, 254, 274, 296). -/
def ThreadDataObject.pointers : ThreadDataObject → Pointers
  | .params_hour => Pointers.of OperatingSystems.params_hour
  | .params_day => Pointers.of OperatingSystems.params_day
  | .params_data => Pointers.of OperatingSystems.params_data
  | .params_web => Pointers.of OperatingSystems.params_web

namespace Lab_4

/-- The workers of the file logger: the two threads, each with the `ThreadData` of lines 222
and 240, and the ingestion loop of `main`, which names the hourly and the daily variables it
writes (lines 312-313 and 316-317). -/
inductive Worker
  | hourly_log_thread
  | daily_log_thread
  | main_loop_hourly
  | main_loop_daily
deriving DecidableEq

/-- The variables a worker of the file logger writes. -/
def Worker.pointers : Worker → Pointers
  | .hourly_log_thread => ⟨.nextHourLogTime, .hourlyAverageValue, .hourlyRecordCounter⟩
  | .daily_log_thread => ⟨.nextDayLogTime, .dailyAverageValue, .dailyRecordCounter⟩
  | .main_loop_hourly => ⟨.nextHourLogTime, .hourlyAverageValue, .hourlyRecordCounter⟩
  | .main_loop_daily => ⟨.nextDayLogTime, .dailyAverageValue, .dailyRecordCounter⟩

end Lab_4

/-- One step of a run between the load of the checkpoint and the join of the workers: a
worker makes an assignment, or the process ends, by `exit(code)` (in the rest of the startup,
or in a worker: Lab_4 lines 661, 667) or by an exception that nothing catches (Lab_5 line 892).
Assignments of different workers come in any order, one at a time. -/
inductive WorkerStep (W D : Type)
  | assigns (worker : W) (a : Assignment D)
  | exit (code : ℤ)
  | terminate

/-- How the steps of the workers end: all workers are joined, or the process has ended. -/
inductive WorkersEnd (D : Type)
  | joined (v : Variables D)
  | exit (code : ℤ)
  | terminate

/-- The steps of the workers, one after the other, each worker through its own pointers. -/
def run_workers {W D : Type} (pointers : W → Pointers) :
    List (WorkerStep W D) → Variables D → WorkersEnd D
  | [], v => .joined v
  | .assigns worker a :: rest, v => run_workers pointers rest (a.run (pointers worker) v)
  | .exit code :: _, _ => .exit code
  | .terminate :: _, _ => .terminate

/-- The variables when the workers start: the positions as loaded, counters and means zero,
the boundaries one window after `startTime`, `portData` empty (Lab_5 lines 214-221, Lab_4 lines
206-211). -/
def initial_variables {D : Type} (zero : D) (startTime : ℤ) (lastRecordPosition : ℤ × ℤ) :
    Variables D :=
  { lastRecordPosition0 := lastRecordPosition.1
    lastRecordPosition1 := lastRecordPosition.2
    hourlyRecordCounter := 0
    dailyRecordCounter := 0
    hourlyAverageValue := zero
    dailyAverageValue := zero
    nextHourLogTime := startTime + SEC_IN_HOUR
    nextDayLogTime := startTime + SEC_IN_DAY
    portData := [] }

/-- How a run of `main` ends: `exit(code)` at startup or in a worker, an exception that
leaves a worker, or `return 0` after the checkpoint was rewritten: the text written to the
checkpoint file, if any, and the content of the file afterwards. -/
inductive RunEnd
  | exits (code : ℤ)
  | terminated
  | returns (written : Option Str) (checkpoint_file : Str)
deriving DecidableEq

/-- A run of `main` (Lab_5 and Lab_4, Linux branch) whose startup gets as far as the
checkpoint file and, if that opens, starts the workers: the positions are loaded, the workers
take their steps, and after the join the positions, as they then are, are written back. -/
def run_of_main {W D : Type} (pointers : W → Pointers) (zero : D) (on_disk : Option Str)
    (startTime : ℤ) (steps : List (WorkerStep W D)) : RunEnd :=
  match open_checkpoint_linux on_disk with
  | .exits code => .exits code
  | .proceeds file lastRecordPosition =>
    match run_workers pointers steps (initial_variables zero startTime lastRecordPosition) with
    | .exit code => .exits code
    | .terminate => .terminated
    | .joined v =>
      let w := write_last_positions file (v.lastRecordPosition0, v.lastRecordPosition1)
      .returns w.1 w.2

/-- The run of the daemon (Lab_5). -/
def main_run {D : Type} (zero : D) (on_disk : Option Str) (startTime : ℤ)
    (steps : List (WorkerStep ThreadDataObject D)) : RunEnd :=
  run_of_main ThreadDataObject.pointers zero on_disk startTime steps

/-- The run of the file logger (Lab_4). -/
def Lab_4.main_run {D : Type} (zero : D) (on_disk : Option Str) (startTime : ℤ)
    (steps : List (WorkerStep Lab_4.Worker D)) : RunEnd :=
  run_of_main Lab_4.Worker.pointers zero on_disk startTime steps

/-- The variables of the daemon as the detailed model holds them in a `Memory`, next to the
positions `p0` and `p1`. -/
def variables_of (m : Memory) (p0 p1 : ℤ) : Variables ℚ :=
  { lastRecordPosition0 := p0
    lastRecordPosition1 := p1
    hourlyRecordCounter := m.hourlyRecordCounter
    dailyRecordCounter := m.dailyRecordCounter
    hourlyAverageValue := m.hourlyAverageValue
    dailyAverageValue := m.dailyAverageValue
    nextHourLogTime := m.nextHourLogTime
    nextDayLogTime := m.nextDayLogTime
    portData := m.portData }

/-- The variables of the file logger as the detailed model holds them in a `Logger`, next to
the positions `p0` and `p1`. -/
def Lab_4.variables_of (s : Lab_4.Logger) (p0 p1 : ℤ) : Variables ℚ :=
  { lastRecordPosition0 := p0
    lastRecordPosition1 := p1
    hourlyRecordCounter := s.params_hour.recordCounter
    dailyRecordCounter := s.params_day.recordCounter
    hourlyAverageValue := s.params_hour.averageValue
    dailyAverageValue := s.params_day.averageValue
    nextHourLogTime := s.params_hour.nextLogTime
    nextDayLogTime := s.params_day.nextLogTime
    portData := [] }

/-! ## Sample values -/

/-- A memory whose hourly bucket holds mean 307/20 over 4 samples, boundaries at 3600 and 86400. -/
def sample_memory : Memory :=
  { initial_memory [] 0 with hourlyAverageValue := 307 / 20, hourlyRecordCounter := 4 }

/-- A clock reading: 2024-01-01 12:00:00.007. -/
def sample_clock : ClockReading := ⟨2024, 1, 1, 12, 0, 0, 1704110400007⟩

/-- A later clock reading: 2024-01-02 00:00:00.000. -/
def later_clock : ClockReading := ⟨2024, 1, 2, 0, 0, 0, 1704153600000⟩

/-! ## Properties -/

/-- The running mean after a run of accumulate steps, from any bucket with a non-negative
counter: the counter grows by the number of steps and mean times counter is the sum. -/
theorem foldl_accumulate (vs : List ℚ) :
    ∀ b : Bucket, 0 ≤ b.recordCounter →
      (vs.foldl accumulate b).recordCounter = b.recordCounter + vs.length ∧
      (vs.foldl accumulate b).averageValue * ((b.recordCounter + vs.length : ℤ) : ℚ) =
        b.averageValue * (b.recordCounter : ℚ) + vs.sum := by
  induction vs with
  | nil => intro b _; simp
  | cons v vs ih =>
    intro b hb
    have hpos : (0 : ℚ) < ((b.recordCounter + 1 : ℤ) : ℚ) := by
      exact_mod_cast (by omega : (0 : ℤ) < b.recordCounter + 1)
    have hstep : 0 ≤ (accumulate b v).recordCounter := by
      simp only [accumulate]; omega
    obtain ⟨h1, h2⟩ := ih (accumulate b v) hstep
    have hc : (accumulate b v).recordCounter = b.recordCounter + 1 := rfl
    have hm : (accumulate b v).averageValue * ((b.recordCounter + 1 : ℤ) : ℚ) =
        b.averageValue * (b.recordCounter : ℚ) + v := by
      simp only [accumulate]
      field_simp
      ring
    refine ⟨?_, ?_⟩
    · rw [List.foldl_cons, h1, hc, List.length_cons]; push_cast; ring
    · rw [List.foldl_cons]
      rw [hc] at h2
      have e : ((b.recordCounter + ((v :: vs).length : ℤ) : ℤ) : ℚ) =
          ((b.recordCounter + 1 + (vs.length : ℤ) : ℤ) : ℚ) := by
        rw [List.length_cons]; push_cast; ring
      rw [e, h2, List.sum_cons]
      have hm2 : (accumulate b v).averageValue * (((b.recordCounter + 1 : ℤ)) : ℚ) =
          b.averageValue * (b.recordCounter : ℚ) + v := hm
      have e2 : (((accumulate b v).recordCounter : ℤ) : ℚ) = ((b.recordCounter + 1 : ℤ) : ℚ) := by
        rw [hc]
      linarith [hm2, e2]

/-- C1: from the empty bucket (mean 0, counter 0), N >= 1 accumulate steps with values v1..vN,
computed over the rationals, leave counter N and mean (v1 + ... + vN) / N. -/
theorem running_mean_is_average (vs : List ℚ) (hN : 1 ≤ vs.length) :
    (vs.foldl accumulate ⟨0, 0⟩).recordCounter = vs.length ∧
    (vs.foldl accumulate ⟨0, 0⟩).averageValue = vs.sum / (vs.length : ℚ) := by
  obtain ⟨h1, h2⟩ := foldl_accumulate vs ⟨0, 0⟩ (le_refl _)
  have hne : (vs.length : ℚ) ≠ 0 := by
    have : 0 < vs.length := hN
    positivity
  refine ⟨by simpa using h1, ?_⟩
  rw [eq_div_iff hne]
  simpa using h2

/-- C1 at the values 20, 102/5, 0, 21: counter 4 and mean 307/20. -/
theorem running_mean_is_average_witness :
    1 ≤ ([20, 102 / 5, 0, 21] : List ℚ).length ∧
    (([20, 102 / 5, 0, 21] : List ℚ).foldl accumulate ⟨0, 0⟩).recordCounter =
      ([20, 102 / 5, 0, 21] : List ℚ).length ∧
    (([20, 102 / 5, 0, 21] : List ℚ).foldl accumulate ⟨0, 0⟩).averageValue =
      ([20, 102 / 5, 0, 21] : List ℚ).sum / (([20, 102 / 5, 0, 21] : List ℚ).length : ℚ) :=
  ⟨by decide, running_mean_is_average [20, 102 / 5, 0, 21] (by decide)⟩

/-! ### Texts that pass through an SQL string literal unchanged -/

theorem plain_nil : plain [] := by simp [plain]

theorem plain_append {a b : Str} (ha : plain a) (hb : plain b) : plain (a ++ b) := by
  simp only [plain, List.mem_append, not_or] at *
  exact ⟨⟨ha.1, hb.1⟩, ⟨ha.2, hb.2⟩⟩

theorem plain_append_iff {a b : Str} : plain (a ++ b) ↔ plain a ∧ plain b := by
  simp only [plain, List.mem_append, not_or]
  tauto

theorem plain_of_forall {s : Str} (h : ∀ c ∈ s, c ≠ QUOTE ∧ c ≠ NUL) : plain s := by
  constructor
  · intro hq; exact (h _ hq).1 rfl
  · intro hn; exact (h _ hn).2 rfl

theorem plain_take {s : Str} (n : ℕ) (h : plain s) : plain (s.take n) :=
  ⟨fun hq => h.1 (List.mem_of_mem_take hq), fun hn => h.2 (List.mem_of_mem_take hn)⟩

theorem plain_drop {s : Str} (n : ℕ) (h : plain s) : plain (s.drop n) :=
  ⟨fun hq => h.1 (List.mem_of_mem_drop hq), fun hn => h.2 (List.mem_of_mem_drop hn)⟩

theorem plain_replicate (n : ℕ) (c : Char) (hq : c ≠ QUOTE) (hn : c ≠ NUL) :
    plain (List.replicate n c) := by
  apply plain_of_forall
  intro d hd
  rw [List.eq_of_mem_replicate hd]
  exact ⟨hq, hn⟩

theorem c_str_of_no_nul {s : Str} (h : NUL ∉ s) : c_str s = s := by
  unfold c_str
  rw [List.takeWhile_eq_self_iff]
  intro c hc
  simp only [bne_iff_ne, ne_eq]
  rintro rfl
  exact h hc

theorem strip_front_append (p r : Str) : strip_front p (p ++ r) = some r := by
  induction p with
  | nil => cases r <;> rfl
  | cons a p ih => simp [strip_front, ih]

theorem lex_literal_closed (a r : Str) (ha : QUOTE ∉ a) (hr : r.head? ≠ some QUOTE) :
    lex_literal (a ++ QUOTE :: r) = some (a, r) := by
  induction a with
  | nil =>
    cases r with
    | nil => simp [lex_literal]
    | cons c t =>
      have hc : c ≠ QUOTE := fun h => hr (by rw [h]; rfl)
      simp [lex_literal, hc]
  | cons c a ih =>
    have hc : c ≠ QUOTE := fun h => ha (by simp [h])
    have ha2 : QUOTE ∉ a := fun h => ha (List.mem_cons_of_mem _ h)
    have h2 := ih ha2
    cases hx : a ++ QUOTE :: r with
    | nil => simp at hx
    | cons c2 t =>
      rw [List.cons_append, hx]
      rw [hx] at h2
      simp [lex_literal, hc, h2]

theorem parse_two_literals_plain (sep close : Str) (mk : Str → Str → Statement) (a b : Str)
    (ha : QUOTE ∉ a) (hb : QUOTE ∉ b) (hsep : (sep ++ [QUOTE]).head? ≠ some QUOTE)
    (hclose : close.head? ≠ some QUOTE) :
    parse_two_literals sep close mk
      (QUOTE :: (a ++ QUOTE :: (sep ++ [QUOTE] ++ (b ++ QUOTE :: close)))) = .ok (mk a b) := by
  have h1 := lex_literal_closed a (sep ++ [QUOTE] ++ (b ++ QUOTE :: close)) ha (by
    rw [List.head?_append_of_ne_nil _ (by simp)]
    exact hsep)
  have h2 := lex_literal_closed b close hb hclose
  simp only [parse_two_literals, ne_eq, not_true_eq_false, if_false, h1, strip_front_append, h2,
    if_true]

theorem sqlite_parse_insert (a b : Str) (ha : plain a) (hb : plain b) :
    sqlite_parse (c_str ("INSERT INTO logs (timestamp, temperature) VALUES ('".toList ++ a ++
      "', '".toList ++ b ++ "');".toList)) = .ok (.insert a b) := by
  have e : "INSERT INTO logs (timestamp, temperature) VALUES ('".toList ++ a ++
      "', '".toList ++ b ++ "');".toList =
      "INSERT INTO logs (timestamp, temperature) VALUES (".toList ++
        (QUOTE :: (a ++ QUOTE :: (", ".toList ++ [QUOTE] ++ (b ++ QUOTE :: ");".toList)))) := by
    have e1 : "INSERT INTO logs (timestamp, temperature) VALUES ('".toList =
        "INSERT INTO logs (timestamp, temperature) VALUES (".toList ++ [QUOTE] := by decide
    have e2 : "', '".toList = QUOTE :: (", ".toList ++ [QUOTE]) := by decide
    have e3 : "');".toList = QUOTE :: ");".toList := by decide
    rw [e1, e2, e3]
    simp only [List.append_assoc, List.cons_append, List.nil_append, List.singleton_append]
  have hn : NUL ∉ "INSERT INTO logs (timestamp, temperature) VALUES ('".toList ++ a ++
      "', '".toList ++ b ++ "');".toList := by
    have h1 : NUL ∉ "INSERT INTO logs (timestamp, temperature) VALUES ('".toList := by decide
    have h2 : NUL ∉ "', '".toList := by decide
    have h3 : NUL ∉ "');".toList := by decide
    simp only [List.mem_append, not_or]
    exact ⟨⟨⟨⟨h1, ha.2⟩, h2⟩, hb.2⟩, h3⟩
  rw [c_str_of_no_nul hn, e]
  unfold sqlite_parse
  rw [strip_front_append]
  exact parse_two_literals_plain _ _ _ a b ha.1 hb.1 (by decide) (by decide)

theorem sqlite_parse_select (a b : Str) (ha : plain a) (hb : plain b) :
    sqlite_parse (c_str ("SELECT timestamp, temperature FROM logs WHERE timestamp BETWEEN '".toList
      ++ a ++ "' AND '".toList ++ b ++ "';".toList)) = .ok (.select_between a b) := by
  have e : "SELECT timestamp, temperature FROM logs WHERE timestamp BETWEEN '".toList ++ a ++
      "' AND '".toList ++ b ++ "';".toList =
      "SELECT timestamp, temperature FROM logs WHERE timestamp BETWEEN ".toList ++
        (QUOTE :: (a ++ QUOTE :: (" AND ".toList ++ [QUOTE] ++ (b ++ QUOTE :: ";".toList)))) := by
    have e1 : "SELECT timestamp, temperature FROM logs WHERE timestamp BETWEEN '".toList =
        "SELECT timestamp, temperature FROM logs WHERE timestamp BETWEEN ".toList ++ [QUOTE] := by
      decide
    have e2 : "' AND '".toList = QUOTE :: (" AND ".toList ++ [QUOTE]) := by decide
    have e3 : "';".toList = QUOTE :: ";".toList := by decide
    rw [e1, e2, e3]
    simp only [List.append_assoc, List.cons_append, List.nil_append, List.singleton_append]
  have hn : NUL ∉ "SELECT timestamp, temperature FROM logs WHERE timestamp BETWEEN '".toList ++
      a ++ "' AND '".toList ++ b ++ "';".toList := by
    have h1 : NUL ∉ "SELECT timestamp, temperature FROM logs WHERE timestamp BETWEEN '".toList := by
      decide
    have h2 : NUL ∉ "' AND '".toList := by decide
    have h3 : NUL ∉ "';".toList := by decide
    simp only [List.mem_append, not_or]
    exact ⟨⟨⟨⟨h1, ha.2⟩, h2⟩, hb.2⟩, h3⟩
  rw [c_str_of_no_nul hn, e]
  have hs : ∀ r, strip_front "INSERT INTO logs (timestamp, temperature) VALUES (".toList
      ("SELECT timestamp, temperature FROM logs WHERE timestamp BETWEEN ".toList ++ r) = none := by
    intro r
    have e4 : "INSERT INTO logs (timestamp, temperature) VALUES (".toList =
        'I' :: "NSERT INTO logs (timestamp, temperature) VALUES (".toList := by decide
    have e5 : "SELECT timestamp, temperature FROM logs WHERE timestamp BETWEEN ".toList =
        'S' :: "ELECT timestamp, temperature FROM logs WHERE timestamp BETWEEN ".toList := by decide
    rw [e4, e5, List.cons_append]
    simp [strip_front]
  unfold sqlite_parse
  rw [hs, strip_front_append]
  exact parse_two_literals_plain _ _ _ a b ha.1 hb.1 (by decide) (by decide)

theorem write_log_to_db_plain (db : Database) (now : ClockReading) (record : Str)
    (ht : plain (get_current_time now)) (hr : plain record) :
    write_log_to_db db now record = some (db ++ [⟨get_current_time now, record⟩]) := by
  unfold write_log_to_db
  simp only [sqlite_parse_insert _ _ ht hr]

/-! ### Texts the daemon builds are plain -/

theorem isdigit_digitChar (k : ℕ) (hk : k < 10) : isdigit (Nat.digitChar k) = true := by
  interval_cases k <;> decide

theorem isdigit_toDigitsCore (fuel : ℕ) :
    ∀ (n : ℕ) (acc : Str), (∀ c ∈ acc, isdigit c = true) →
      ∀ c ∈ Nat.toDigitsCore 10 fuel n acc, isdigit c = true := by
  induction fuel with
  | zero => intro n acc h; simpa [Nat.toDigitsCore] using h
  | succ fuel ih =>
    intro n acc h
    have hd : isdigit (Nat.digitChar (n % 10)) = true :=
      isdigit_digitChar _ (Nat.mod_lt _ (by decide))
    have hacc : ∀ c ∈ Nat.digitChar (n % 10) :: acc, isdigit c = true := by
      intro c hc
      rcases List.mem_cons.mp hc with rfl | hc
      · exact hd
      · exact h c hc
    simp only [Nat.toDigitsCore]
    split
    · exact hacc
    · exact ih _ _ hacc

theorem isdigit_to_string_nat (n : ℕ) : ∀ c ∈ to_string_nat n, isdigit c = true :=
  isdigit_toDigitsCore _ _ _ (by simp)

theorem ne_quote_nul_of_isdigit (c : Char) (h : isdigit c = true) : c ≠ QUOTE ∧ c ≠ NUL := by
  simp only [isdigit, Bool.and_eq_true, decide_eq_true_eq] at h
  constructor
  · rintro rfl
    have : QUOTE.toNat = 39 := by decide
    omega
  · rintro rfl
    have : NUL.toNat = 0 := by decide
    omega

theorem plain_to_string_nat (n : ℕ) : plain (to_string_nat n) :=
  plain_of_forall fun c hc => ne_quote_nul_of_isdigit c (isdigit_to_string_nat n c hc)

theorem plain_pad_zero (w : ℕ) (s : Str) (h : plain s) : plain (pad_zero w s) :=
  plain_append (plain_replicate _ _ (by decide) (by decide)) h

theorem plain_get_current_time (now : ClockReading) : plain (get_current_time now) := by
  unfold get_current_time
  have hp : ∀ w n, plain (pad_zero w (to_string_nat n)) :=
    fun w n => plain_pad_zero w _ (plain_to_string_nat n)
  have h1 : plain ['-'] := by decide
  have h2 : plain [' '] := by decide
  have h3 : plain [':'] := by decide
  have h4 : plain ['.'] := by decide
  simp only [plain_append_iff]
  exact ⟨⟨⟨⟨⟨⟨⟨⟨⟨⟨⟨⟨plain_to_string_nat _, h1⟩, hp _ _⟩, h1⟩, hp _ _⟩, h2⟩, hp _ _⟩, h3⟩, hp _ _⟩,
    h3⟩, hp _ _⟩, h4⟩, hp _ _⟩

theorem plain_to_string_double (v : ℚ) : plain (to_string_double v) := by
  unfold to_string_double
  have h0 : plain (if v < 0 then ['-'] else []) := by
    split
    · decide
    · exact plain_nil
  have h4 : plain ['.'] := by decide
  simp only [plain_append_iff]
  exact ⟨⟨⟨h0, plain_to_string_nat _⟩, h4⟩, plain_pad_zero _ _ (plain_to_string_nat _)⟩

theorem plain_make_fixed_length_record (record : Str) (h : plain record) :
    plain (Lab_5.make_fixed_length_record record) := by
  unfold Lab_5.make_fixed_length_record replace substr
  have hs : plain (List.replicate (RECORD_LENGTH - 1) ' ') :=
    plain_replicate _ _ (by decide) (by decide)
  simp only [plain_append_iff]
  exact ⟨⟨plain_take _ hs, plain_take _ (plain_drop _ h)⟩, plain_drop _ hs⟩

theorem plain_flush_record (now : ClockReading) (avg : ℚ) : plain (flush_record now avg) := by
  unfold flush_record
  apply plain_make_fixed_length_record
  have h2 : plain " ".toList := by decide
  exact plain_append (plain_append (plain_get_current_time now) h2) (plain_to_string_double avg)

/-- What a fire of a flusher does: the boundary advances by the window, one row with the record
of the mean read before the reset is appended, mean and counter are reset, and nothing else
changes. -/
theorem flush_eq (window : ℤ) (params : ThreadData) (now1 now2 : ClockReading) (m : Memory) :
    flush window params now1 now2 m =
      some (((({ m with db := m.db ++
          [⟨get_current_time now2, flush_record now1 (m.average params.averageValue)⟩] } :
          Memory).setTime params.nextLogTime (m.time params.nextLogTime + window)).setAverage
            params.averageValue 0).setCounter params.recordCounter 0) := by
  obtain ⟨tv, av, cv⟩ := params
  have hw : ∀ db : Database, ∀ avg : ℚ, write_log_to_db db now2 (flush_record now1 avg) =
      some (db ++ [⟨get_current_time now2, flush_record now1 avg⟩]) :=
    fun db avg => write_log_to_db_plain db now2 _ (plain_get_current_time now2)
      (plain_flush_record now1 avg)
  cases tv <;> cases av <;> cases cv <;>
    simp [flush, hw, Memory.setTime, Memory.time, Memory.average, Memory.setAverage,
      Memory.setCounter]

/-- A fire of a flusher succeeds; it appends the record of the mean held before, empties the
bucket and moves the boundary by one window. -/
theorem flush_some (window : ℤ) (params : ThreadData) (now1 now2 : ClockReading) (m : Memory) :
    ∃ m1 : Memory, flush window params now1 now2 m = some m1 ∧
      m1.db = m.db ++ [⟨get_current_time now2, flush_record now1 (m.bucket params).averageValue⟩] ∧
      m1.bucket params = ⟨0, 0⟩ ∧
      m1.time params.nextLogTime = m.time params.nextLogTime + window := by
  refine ⟨_, flush_eq window params now1 now2 m, ?_, ?_, ?_⟩ <;>
  · obtain ⟨tv, av, cv⟩ := params
    cases tv <;> cases av <;> cases cv <;>
      simp [Memory.setTime, Memory.setAverage, Memory.setCounter, Memory.bucket, Memory.average,
        Memory.counter, Memory.time]

/-- A fire of a window flusher that no other thread interrupts (a whole turn of
`hourly_log_thread` or of `daily_log_thread` at a time not before the boundary) appends the
record of the mean the bucket held before the reset and leaves the bucket with mean 0 and
counter 0; a second such fire right after it records mean 0 and leaves mean 0 and counter 0
again. -/
theorem flusher_records_mean_then_resets (params : ThreadData) (m : Memory)
    (now1 now2 now3 now4 : ClockReading) (t1 t2 t3 : ℤ)
    (h1 : t1 ≥ m.time params.nextLogTime)
    (h2 : t2 ≥ m.time params.nextLogTime + SEC_IN_HOUR)
    (h3 : t3 ≥ m.time params.nextLogTime + SEC_IN_DAY) :
    (∃ m1 m2 : Memory,
      hourly_log_turn params t1 now1 now2 m = some m1 ∧
      m1.db = m.db ++ [⟨get_current_time now2, flush_record now1 (m.bucket params).averageValue⟩] ∧
      m1.bucket params = ⟨0, 0⟩ ∧
      hourly_log_turn params t2 now3 now4 m1 = some m2 ∧
      m2.db = m1.db ++ [⟨get_current_time now4, flush_record now3 0⟩] ∧
      m2.bucket params = ⟨0, 0⟩) ∧
    (∃ m1 m2 : Memory,
      daily_log_turn params t1 now1 now2 m = some m1 ∧
      m1.db = m.db ++ [⟨get_current_time now2, flush_record now1 (m.bucket params).averageValue⟩] ∧
      m1.bucket params = ⟨0, 0⟩ ∧
      daily_log_turn params t3 now3 now4 m1 = some m2 ∧
      m2.db = m1.db ++ [⟨get_current_time now4, flush_record now3 0⟩] ∧
      m2.bucket params = ⟨0, 0⟩) := by
  constructor
  · obtain ⟨m1, e1, d1, b1, n1⟩ := flush_some SEC_IN_HOUR params now1 now2 m
    obtain ⟨m2, e2, d2, b2, _⟩ := flush_some SEC_IN_HOUR params now3 now4 m1
    refine ⟨m1, m2, ?_, d1, b1, ?_, ?_, b2⟩
    · rw [hourly_log_turn, if_pos h1, e1]
    · rw [hourly_log_turn, if_pos (by rw [n1]; exact h2), e2]
    · rw [d2, b1]
  · obtain ⟨m1, e1, d1, b1, n1⟩ := flush_some SEC_IN_DAY params now1 now2 m
    obtain ⟨m2, e2, d2, b2, _⟩ := flush_some SEC_IN_DAY params now3 now4 m1
    refine ⟨m1, m2, ?_, d1, b1, ?_, ?_, b2⟩
    · rw [daily_log_turn, if_pos h1, e1]
    · rw [daily_log_turn, if_pos (by rw [n1]; exact h3), e2]
    · rw [d2, b1]

/-- Uninterrupted fires at the hourly bucket (mean 307/20, counter 4), at times 3600, 7200 and
90000. -/
theorem flusher_records_mean_then_resets_witness :
    ((3600 : ℤ) ≥ sample_memory.time params_hour.nextLogTime ∧
      (7200 : ℤ) ≥ sample_memory.time params_hour.nextLogTime + SEC_IN_HOUR ∧
      (90000 : ℤ) ≥ sample_memory.time params_hour.nextLogTime + SEC_IN_DAY) ∧
    ∃ m1 m2 : Memory,
      hourly_log_turn params_hour 3600 sample_clock sample_clock sample_memory = some m1 ∧
      m1.db = sample_memory.db ++ [⟨get_current_time sample_clock,
        flush_record sample_clock (sample_memory.bucket params_hour).averageValue⟩] ∧
      m1.bucket params_hour = ⟨0, 0⟩ ∧
      hourly_log_turn params_hour 7200 sample_clock sample_clock m1 = some m2 ∧
      m2.db = m1.db ++ [⟨get_current_time sample_clock, flush_record sample_clock 0⟩] ∧
      m2.bucket params_hour = ⟨0, 0⟩ :=
  ⟨by decide, (flusher_records_mean_then_resets params_hour sample_memory sample_clock sample_clock
    sample_clock sample_clock 3600 7200 90000 (by decide) (by decide) (by decide)).1⟩

/-! ### The ingestion worker -/

/-- A turn of the ingestion worker on a chunk that yields the sample `v`: one row is inserted,
`portData` is set and the bucket behind `params` takes one accumulate step. -/
theorem data_processing_turn_sample (params : ThreadData) (now : ClockReading) (chunk : Str)
    (m : Memory) (v : ℚ) (hlen : 0 < chunk.length)
    (hp : parse_sample (trim_chunk chunk) = .sample v) :
    data_processing_turn params now chunk m =
      .next (({ m with
          db := m.db ++
            [⟨get_current_time now, Lab_5.make_fixed_length_record (to_string_double v)⟩]
          portData := to_string_double v } : Memory).setBucket params
        (accumulate (m.bucket params) v)) := by
  have hw := write_log_to_db_plain m.db now (Lab_5.make_fixed_length_record (to_string_double v))
    (plain_get_current_time now) (plain_make_fixed_length_record _ (plain_to_string_double v))
  simp only [data_processing_turn, if_pos hlen, hp, hw]
  rfl

theorem parse_sample_20_0 : parse_sample (trim_chunk "20.0".toList) = .sample 20 := by
  have ht : trim_chunk "20.0".toList = "20.0".toList := by decide
  rw [ht]
  simp [parse_sample, stod, c_str, split_sign, starts_with_nocase, scan_decimal, isspace, isdigit,
    digits_value, scan_exponent, DecimalLiteral.toRat, DecimalLiteral.magnitude, DBL_OVERFLOW,
    DBL_MIN, NUL]
  norm_num

theorem parse_sample_20_4 : parse_sample (trim_chunk "20.4".toList) = .sample (102 / 5) := by
  have ht : trim_chunk "20.4".toList = "20.4".toList := by decide
  rw [ht]
  simp [parse_sample, stod, c_str, split_sign, starts_with_nocase, scan_decimal, isspace, isdigit,
    digits_value, scan_exponent, DecimalLiteral.toRat, DecimalLiteral.magnitude, DBL_OVERFLOW,
    DBL_MIN, NUL]
  norm_num

theorem parse_sample_garbage : parse_sample (trim_chunk "garbage".toList) = .sample 0 := by
  have ht : trim_chunk "garbage".toList = "garbage".toList := by decide
  rw [ht]
  simp [parse_sample, stod, c_str, split_sign, starts_with_nocase, scan_decimal, isspace, isdigit,
    NUL]

theorem parse_sample_21_0 : parse_sample (trim_chunk "21.0".toList) = .sample 21 := by
  have ht : trim_chunk "21.0".toList = "21.0".toList := by decide
  rw [ht]
  simp [parse_sample, stod, c_str, split_sign, starts_with_nocase, scan_decimal, isspace, isdigit,
    digits_value, scan_exponent, DecimalLiteral.toRat, DecimalLiteral.magnitude, DBL_OVERFLOW,
    DBL_MIN, NUL]
  norm_num

theorem parse_sample_1e999 :
    parse_sample (trim_chunk "1e999".toList) = .uncaught .out_of_range := by
  have ht : trim_chunk "1e999".toList = "1e999".toList := by decide
  rw [ht]
  simp [parse_sample, stod, c_str, split_sign, starts_with_nocase, scan_decimal, isspace, isdigit,
    digits_value, scan_exponent, DecimalLiteral.toRat, DecimalLiteral.magnitude, DBL_OVERFLOW,
    DBL_MIN, NUL]
  norm_num

/-- A turn of the ingestion worker as `main` wires it: the sample goes to the daily bucket, the
hourly bucket is left as it was. -/
theorem data_processing_turn_wired (now : ClockReading) (chunk : Str) (m : Memory) (v : ℚ)
    (hlen : 0 < chunk.length) (hp : parse_sample (trim_chunk chunk) = .sample v) :
    ∃ m1 : Memory, data_processing_turn params_data now chunk m = .next m1 ∧
      m1.hourlyAverageValue = m.hourlyAverageValue ∧
      m1.hourlyRecordCounter = m.hourlyRecordCounter ∧
      m1.dailyRecordCounter = m.dailyRecordCounter + 1 ∧
      m1.dailyAverageValue =
        m.dailyAverageValue + (v - m.dailyAverageValue) / ((m.dailyRecordCounter + 1 : ℤ) : ℚ) :=
  ⟨_, data_processing_turn_sample params_data now chunk m v hlen hp, rfl, rfl, rfl, rfl⟩

/-- C3: the ingestion worker, wired as in `main` (`params_data`), fed the chunks "20.0", "20.4",
"garbage", "21.0" from the initial state with no flush in between, completes the four turns and
leaves the hourly bucket untouched, mean 0 and counter 0; the samples are in the daily bucket,
mean 307/20 = 15.35 and counter 4. -/
theorem sample_stream_misses_hourly_bucket (db : Database) (startTime : ℤ)
    (now1 now2 now3 now4 : ClockReading) :
    ∃ m : Memory,
      data_processing_run params_data
        [(now1, "20.0".toList), (now2, "20.4".toList), (now3, "garbage".toList),
          (now4, "21.0".toList)] (initial_memory db startTime) = .next m ∧
      m.hourlyAverageValue = 0 ∧ m.hourlyRecordCounter = 0 ∧
      m.dailyAverageValue = 307 / 20 ∧ m.dailyRecordCounter = 4 := by
  obtain ⟨m1, e1, a1, b1, c1, d1⟩ := data_processing_turn_wired now1 "20.0".toList
    (initial_memory db startTime) 20 (by decide) parse_sample_20_0
  obtain ⟨m2, e2, a2, b2, c2, d2⟩ := data_processing_turn_wired now2 "20.4".toList m1 (102 / 5)
    (by decide) parse_sample_20_4
  obtain ⟨m3, e3, a3, b3, c3, d3⟩ := data_processing_turn_wired now3 "garbage".toList m2 0
    (by decide) parse_sample_garbage
  obtain ⟨m4, e4, a4, b4, c4, d4⟩ := data_processing_turn_wired now4 "21.0".toList m3 21
    (by decide) parse_sample_21_0
  have i1 : (initial_memory db startTime).hourlyAverageValue = 0 := rfl
  have i2 : (initial_memory db startTime).hourlyRecordCounter = 0 := rfl
  have i3 : (initial_memory db startTime).dailyAverageValue = 0 := rfl
  have i4 : (initial_memory db startTime).dailyRecordCounter = 0 := rfl
  refine ⟨m4, ?_, ?_, ?_, ?_, ?_⟩
  · simp only [data_processing_run, e1, e2, e3, e4]
  · rw [a4, a3, a2, a1, i1]
  · rw [b4, b3, b2, b1, i2]
  · rw [d4, d3, d2, d1, c3, c2, c1, i3, i4]
    norm_num
  · rw [c4, c3, c2, c1, i4]
    norm_num

/-- C4: on the chunk "1e999", whose value is beyond the `double` range, `std::stod` throws
`std::out_of_range`, which the handler for `std::invalid_argument` does not catch: the turn of
the ingestion worker ends the thread instead of using 0.0 and going on. -/
theorem out_of_range_sample_terminates_worker (params : ThreadData) (now : ClockReading)
    (m : Memory) :
    data_processing_turn params now "1e999".toList m = .terminate .out_of_range := by
  have hlen : 0 < "1e999".toList.length := by decide
  simp only [data_processing_turn, if_pos hlen, parse_sample_1e999]

/-! ### Fixed-length records -/

theorem take_min_length (record : Str) (n : ℕ) :
    record.take (min record.length n) = record.take n := by
  rcases Nat.le_total record.length n with h | h
  · rw [Nat.min_eq_left h, List.take_of_length_le h, List.take_of_length_le (le_refl _)]
  · rw [Nat.min_eq_right h]

/-- The daemon's record: the first characters of the input, at most 29, padded with spaces to 29
characters. -/
theorem lab5_record_eq (record : Str) :
    Lab_5.make_fixed_length_record record =
      record.take 29 ++ List.replicate (29 - min record.length 29) ' ' := by
  have h29 : RECORD_LENGTH - 1 = 29 := rfl
  simp only [Lab_5.make_fixed_length_record, replace, substr, List.take_zero, List.nil_append,
    List.drop_zero, List.length_replicate, Nat.zero_add, Nat.sub_zero, List.drop_replicate, h29,
    take_min_length]
  congr 2
  omega

/-- C5, as the code has it: for every input text the daemon's `make_fixed_length_record` (Lab_5)
yields exactly `RECORD_LENGTH - 1` = 29 characters, the first min(L, 29) characters of the input
followed by spaces; no newline is appended. -/
theorem lab5_record_has_29_characters (record : Str) :
    (Lab_5.make_fixed_length_record record).length = RECORD_LENGTH - 1 ∧
    Lab_5.make_fixed_length_record record =
      record.take (min record.length 29) ++ List.replicate (29 - min record.length 29) ' ' := by
  have h := lab5_record_eq record
  refine ⟨?_, by rw [take_min_length]; exact h⟩
  rw [h, List.length_append, List.length_take, List.length_replicate]
  have h29 : RECORD_LENGTH - 1 = 29 := rfl
  omega

/-- C5 fails as stated: for the empty input the daemon's record has 29 characters, not 30, and
its last character is a space, not a newline. -/
theorem lab5_record_not_30_with_newline :
    (Lab_5.make_fixed_length_record []).length = 29 ∧
    (Lab_5.make_fixed_length_record []).getLast? = some ' ' ∧
    ¬ ((Lab_5.make_fixed_length_record []).length = RECORD_LENGTH ∧
        (Lab_5.make_fixed_length_record []).getLast? = some '\n') := by
  decide

/-- The file logger's record: the first characters of the input, at most 29, padded with spaces
to 29 characters, then a newline. -/
theorem lab4_record_eq (record : Str) :
    Lab_4.make_fixed_length_record record =
      record.take 29 ++ List.replicate (29 - min record.length 29) ' ' ++ ['\n'] := by
  have h29 : RECORD_LENGTH - 1 = 29 := rfl
  simp only [Lab_4.make_fixed_length_record, replace, substr, List.take_zero, List.nil_append,
    List.drop_zero, List.length_replicate, Nat.zero_add, Nat.sub_zero, List.length_append,
    List.length_singleton, h29, take_min_length]
  have hle : min (min record.length 29) (29 + 1) ≤ (List.replicate 29 ' ').length := by
    simp
  rw [List.drop_append_of_le_length hle, List.drop_replicate, List.append_assoc]
  congr 3
  omega

/-- C6: for every input text of length L the file logger's `make_fixed_length_record` (Lab_4)
yields exactly 30 characters: the first min(L, 29) characters of the input unchanged, then spaces
up to index 28, then a newline at index 29; an input of 29 or more characters is cut to its first
29 characters and the newline stays in place. -/
theorem lab4_record_has_30_characters (record : Str) :
    (Lab_4.make_fixed_length_record record).length = 30 ∧
    Lab_4.make_fixed_length_record record =
      record.take (min record.length 29) ++
        List.replicate (29 - min record.length 29) ' ' ++ ['\n'] ∧
    (Lab_4.make_fixed_length_record record).get? 29 = some '\n' ∧
    (29 ≤ record.length →
      Lab_4.make_fixed_length_record record = record.take 29 ++ ['\n']) := by
  have h := lab4_record_eq record
  have hlen : (record.take 29 ++ List.replicate (29 - min record.length 29) ' ').length = 29 := by
    rw [List.length_append, List.length_take, List.length_replicate]
    omega
  refine ⟨?_, ?_, ?_, ?_⟩
  · rw [h, List.length_append, hlen]
    rfl
  · rw [take_min_length]
    exact h
  · rw [h, List.get?_eq_getElem?, List.getElem?_append_right (by omega), hlen]
    rfl
  · intro hL
    rw [h]
    have : 29 - min record.length 29 = 0 := by omega
    rw [this]
    simp

/-- C6 at the 35-character input "2024-01-01 12:00:00.007 20.399999xx": the record is its first
29 characters and a newline. -/
theorem lab4_record_has_30_characters_witness :
    29 ≤ "2024-01-01 12:00:00.007 20.399999xx".toList.length ∧
    Lab_4.make_fixed_length_record "2024-01-01 12:00:00.007 20.399999xx".toList =
      "2024-01-01 12:00:00.007 20.39\n".toList :=
  ⟨by decide, ((lab4_record_has_30_characters
    "2024-01-01 12:00:00.007 20.399999xx".toList).2.2.2 (by decide)).trans (by decide)⟩

/-! ### The store -/

theorem append_row_eq (acc : Str) (first : Bool) (row : Row) :
    append_row (acc, first) row =
      ((if first then acc else acc ++ ",".toList) ++ json_object (as_c_text row), false) := by
  have e : ∀ x : Str, "\",".toList ++ ("\"temperature\":\"".toList ++ x) =
      "\",\"temperature\":\"".toList ++ x := fun _ => rfl
  cases first <;> simp [append_row, json_object, as_c_text, e]

theorem append_row_fold_false (rows : List Row) :
    ∀ acc : Str, (rows.foldl append_row (acc, false)).1 =
      acc ++ (rows.map (fun r => ",".toList ++ json_object (as_c_text r))).flatten := by
  induction rows with
  | nil => intro acc; simp
  | cons r rows ih =>
    intro acc
    rw [List.foldl_cons, append_row_eq, ih]
    simp

theorem comma_separated_cons (x : Str) (xs : List Str) :
    comma_separated (x :: xs) = x ++ (xs.map (fun y => ",".toList ++ y)).flatten := by
  induction xs generalizing x with
  | nil => simp [comma_separated]
  | cons y ys ih => simp [comma_separated, ih y]

/-- The loop of `get_stats_from_db` builds the array of the objects of the rows as C texts, less
the closing bracket. -/
theorem append_row_fold_c (rows : List Row) :
    (rows.foldl append_row ("[".toList, true)).1 ++ "]".toList =
      stats_array (rows.map as_c_text) := by
  cases rows with
  | nil => rfl
  | cons r rows =>
    have hc : rows.map (fun r => ",".toList ++ json_object (as_c_text r)) =
        ((rows.map as_c_text).map json_object).map (fun y => ",".toList ++ y) := by
      simp only [List.map_map]
      rfl
    rw [List.foldl_cons, append_row_eq, append_row_fold_false, hc, stats_array, List.map_cons,
      List.map_cons, comma_separated_cons]
    simp

/-- The loop of `get_stats_from_db` over rows without NUL builds the array of their objects,
less the closing bracket. -/
theorem append_row_fold (rows : List Row)
    (hrows : ∀ r ∈ rows, NUL ∉ r.timestamp ∧ NUL ∉ r.temperature) :
    (rows.foldl append_row ("[".toList, true)).1 ++ "]".toList = stats_array rows := by
  have hmap : rows.map as_c_text = rows := by
    conv_rhs => rw [← List.map_id rows]
    apply List.map_congr_left
    intro r hr
    simp only [as_c_text, c_str_of_no_nul (hrows r hr).1, c_str_of_no_nul (hrows r hr).2, id]
  rw [append_row_fold_c, hmap]

theorem get_stats_from_db_plain (db : Database) (start_time end_time : Str)
    (hs : plain start_time) (he : plain end_time) :
    get_stats_from_db db start_time end_time =
      some (((select_between db start_time end_time).foldl append_row ("[".toList, true)).1 ++
        "]".toList) := by
  unfold get_stats_from_db
  simp only [sqlite_parse_select _ _ hs he]

/-- The query with plain bounds over a store without NUL: the array of the rows in range. -/
theorem get_stats_from_db_rows (db : Database) (start_time end_time : Str)
    (hs : plain start_time) (he : plain end_time)
    (hrows : ∀ r ∈ db, NUL ∉ r.timestamp ∧ NUL ∉ r.temperature) :
    get_stats_from_db db start_time end_time =
      some (stats_array (rows_in_range db start_time end_time)) := by
  rw [get_stats_from_db_plain db start_time end_time hs he, append_row_fold]
  · rfl
  · intro r hr
    exact hrows r (List.mem_of_mem_filter hr)

/-- C7, for range bounds that an SQL string literal can hold: for every store content whose
texts hold no NUL and every `start`, `end` with neither a single quote nor a NUL,
`get_stats_from_db` returns the array of the objects of exactly the rows with
`start <= timestamp <= end` under string comparison, in insertion order, separated by single
commas. -/
theorem get_stats_returns_rows_in_range (db : Database) (start_time end_time : Str)
    (hs : plain start_time) (he : plain end_time)
    (hrows : ∀ r ∈ db, NUL ∉ r.timestamp ∧ NUL ∉ r.temperature) :
    get_stats_from_db db start_time end_time =
      some (stats_array (rows_in_range db start_time end_time)) :=
  get_stats_from_db_rows db start_time end_time hs he hrows

/-- C7 at the store with one reading at 2024-01-01 12:00:00: the range 2024-01-01 00:00:00 ..
2024-01-02 00:00:00 gives a one-element array, the range 2024-01-03 00:00:00 ..
2024-01-04 00:00:00 gives exactly "[]". -/
theorem get_stats_returns_rows_in_range_witness :
    get_stats_from_db [⟨"2024-01-01 12:00:00".toList, "20.400000".toList⟩]
        "2024-01-01 00:00:00".toList "2024-01-02 00:00:00".toList =
      some "[\x7b\"timestamp\":\"2024-01-01 12:00:00\",\"temperature\":\"20.400000\"\x7d]".toList ∧
    get_stats_from_db [⟨"2024-01-01 12:00:00".toList, "20.400000".toList⟩]
        "2024-01-03 00:00:00".toList "2024-01-04 00:00:00".toList = some "[]".toList :=
  ⟨(get_stats_returns_rows_in_range _ _ _ (by decide) (by decide) (by decide)).trans (by decide),
    (get_stats_returns_rows_in_range _ _ _ (by decide) (by decide) (by decide)).trans (by decide)⟩

/-- C7 fails as stated: with the single quote as `start` the statement is no SQL, and
`get_stats_from_db` returns the error object, not an array. -/
theorem get_stats_quote_gives_error_object :
    get_stats_from_db [⟨"2024-01-01 12:00:00".toList, "20.400000".toList⟩] [QUOTE] [] =
      some "\x7b\"error\":\"Database error.\"\x7d".toList ∧
    get_stats_from_db [⟨"2024-01-01 12:00:00".toList, "20.400000".toList⟩] [QUOTE] [] ≠
      some (stats_array
        (rows_in_range [⟨"2024-01-01 12:00:00".toList, "20.400000".toList⟩] [QUOTE] [])) := by
  decide

/-! ### String comparison and the round trip -/

theorem str_le_refl (a : Str) : str_le a a = true := by
  induction a with
  | nil => rfl
  | cons c a ih => simp [str_le, ih]

theorem str_le_total (a : Str) : ∀ b : Str, str_le a b = true ∨ str_le b a = true := by
  induction a with
  | nil => intro b; left; rfl
  | cons c a ih =>
    intro b
    cases b with
    | nil => right; rfl
    | cons d b =>
      simp only [str_le]
      rcases Nat.lt_trichotomy c.toNat d.toNat with h | h | h
      · left; simp [h]
      · have h1 : ¬ c.toNat < d.toNat := by omega
        have h2 : ¬ d.toNat < c.toNat := by omega
        simp only [h1, h2, if_false]
        exact ih b
      · right; simp [h]

theorem str_le_trans (a : Str) :
    ∀ b c : Str, str_le a b = true → str_le b c = true → str_le a c = true := by
  induction a with
  | nil => intro b c _ _; rfl
  | cons x a ih =>
    intro b c hab hbc
    cases b with
    | nil => simp [str_le] at hab
    | cons y b =>
      cases c with
      | nil => simp [str_le] at hbc
      | cons z c =>
        simp only [str_le] at hab hbc ⊢
        by_cases hxy : x.toNat < y.toNat
        · by_cases hyz : y.toNat < z.toNat
          · have : x.toNat < z.toNat := by omega
            simp [this]
          · by_cases hzy : z.toNat < y.toNat
            · simp [hyz, hzy] at hbc
            · have : x.toNat < z.toNat := by omega
              simp [this]
        · by_cases hyx : y.toNat < x.toNat
          · simp [hxy, hyx] at hab
          · simp only [hxy, hyx, if_false] at hab
            by_cases hyz : y.toNat < z.toNat
            · have : x.toNat < z.toNat := by omega
              simp [this]
            · by_cases hzy : z.toNat < y.toNat
              · simp [hyz, hzy] at hbc
              · simp only [hyz, hzy, if_false] at hbc
                have h1 : ¬ x.toNat < z.toNat := by omega
                have h2 : ¬ z.toNat < x.toNat := by omega
                simp only [h1, h2, if_false]
                exact ih b c hab hbc

theorem foldl_str_min_le (rest : List Str) :
    ∀ t : Str, str_le (rest.foldl str_min t) t = true ∧
      (∀ u ∈ rest, str_le (rest.foldl str_min t) u = true) ∧
      rest.foldl str_min t ∈ t :: rest := by
  induction rest with
  | nil => intro t; exact ⟨str_le_refl t, by simp, by simp⟩
  | cons u rest ih =>
    intro t
    obtain ⟨h1, h2, h3⟩ := ih (str_min t u)
    have hmt : str_le (str_min t u) t = true := by
      unfold str_min
      split
      · exact str_le_refl t
      · rename_i h
        rcases str_le_total t u with h' | h'
        · exact absurd h' h
        · exact h'
    have hmu : str_le (str_min t u) u = true := by
      unfold str_min
      split
      · assumption
      · exact str_le_refl u
    have hmem : str_min t u = t ∨ str_min t u = u := by
      unfold str_min
      split
      · left; rfl
      · right; rfl
    refine ⟨str_le_trans _ _ _ h1 hmt, ?_, ?_⟩
    · intro v hv
      rcases List.mem_cons.mp hv with rfl | hv
      · exact str_le_trans _ _ _ h1 hmu
      · exact h2 v hv
    · rw [List.foldl_cons]
      rcases List.mem_cons.mp h3 with h | h
      · rcases hmem with e | e
        · rw [h, e]; simp
        · rw [h, e]; simp
      · exact List.mem_cons_of_mem _ (List.mem_cons_of_mem _ h)

theorem foldl_str_max_ge (rest : List Str) :
    ∀ t : Str, str_le t (rest.foldl str_max t) = true ∧
      (∀ u ∈ rest, str_le u (rest.foldl str_max t) = true) ∧
      rest.foldl str_max t ∈ t :: rest := by
  induction rest with
  | nil => intro t; exact ⟨str_le_refl t, by simp, by simp⟩
  | cons u rest ih =>
    intro t
    obtain ⟨h1, h2, h3⟩ := ih (str_max t u)
    have hmt : str_le t (str_max t u) = true := by
      unfold str_max
      split
      · assumption
      · exact str_le_refl t
    have hmu : str_le u (str_max t u) = true := by
      unfold str_max
      split
      · exact str_le_refl u
      · rename_i h
        rcases str_le_total t u with h' | h'
        · exact absurd h' h
        · exact h'
    have hmem : str_max t u = t ∨ str_max t u = u := by
      unfold str_max
      split
      · right; rfl
      · left; rfl
    refine ⟨str_le_trans _ _ _ hmt h1, ?_, ?_⟩
    · intro v hv
      rcases List.mem_cons.mp hv with rfl | hv
      · exact str_le_trans _ _ _ hmu h1
      · exact h2 v hv
    · rw [List.foldl_cons]
      rcases List.mem_cons.mp h3 with h | h
      · rcases hmem with e | e
        · rw [h, e]; simp
        · rw [h, e]; simp
      · exact List.mem_cons_of_mem _ (List.mem_cons_of_mem _ h)

theorem t_min_le (ts : List Str) : ∀ t ∈ ts, str_le (t_min ts) t = true := by
  cases ts with
  | nil => intro t ht; simp at ht
  | cons t0 rest =>
    intro t ht
    obtain ⟨h1, h2, _⟩ := foldl_str_min_le rest t0
    rcases List.mem_cons.mp ht with rfl | ht
    · exact h1
    · exact h2 t ht

theorem le_t_max (ts : List Str) : ∀ t ∈ ts, str_le t (t_max ts) = true := by
  cases ts with
  | nil => intro t ht; simp at ht
  | cons t0 rest =>
    intro t ht
    obtain ⟨h1, h2, _⟩ := foldl_str_max_ge rest t0
    rcases List.mem_cons.mp ht with rfl | ht
    · exact h1
    · exact h2 t ht

theorem plain_t_min (ts : List Str) (h : ∀ t ∈ ts, plain t) : plain (t_min ts) := by
  cases ts with
  | nil => exact plain_nil
  | cons t0 rest => exact h _ (foldl_str_min_le rest t0).2.2

theorem plain_t_max (ts : List Str) (h : ∀ t ∈ ts, plain t) : plain (t_max ts) := by
  cases ts with
  | nil => exact plain_nil
  | cons t0 rest => exact h _ (foldl_str_max_ge rest t0).2.2

theorem insert_all_plain (readings : List (ClockReading × Str)) :
    ∀ db : Database, (∀ p ∈ readings, plain p.2) →
      insert_all db readings = some (db ++ readings.map reading_row) := by
  induction readings with
  | nil => intro db _; simp [insert_all]
  | cons p readings ih =>
    intro db h
    obtain ⟨now, record⟩ := p
    have hp : plain record := h (now, record) (List.mem_cons_self _ _)
    have hrest : ∀ q ∈ readings, plain q.2 := fun q hq => h q (List.mem_cons_of_mem _ hq)
    simp only [insert_all, write_log_to_db_plain db now record (plain_get_current_time now) hp,
      ih _ hrest, List.map_cons, reading_row, List.append_assoc, List.singleton_append]

/-- C8, for values that an SQL string literal can hold: for every sequence of K readings
inserted with `write_log_to_db` into the empty store, at any clock readings and with value
texts that hold neither a single quote nor a NUL, `get_stats_from_db` over
[least timestamp, greatest timestamp] returns the array of exactly the K objects, the i-th
carrying the i-th timestamp and the i-th value text unchanged. -/
theorem store_round_trip (readings : List (ClockReading × Str))
    (hvalues : ∀ p ∈ readings, plain p.2) :
    ∃ db : Database, insert_all [] readings = some db ∧
      get_stats_from_db db (t_min (readings.map (fun p => get_current_time p.1)))
          (t_max (readings.map (fun p => get_current_time p.1))) =
        some (stats_array (readings.map reading_row)) := by
  refine ⟨readings.map reading_row, by simpa using insert_all_plain readings [] hvalues, ?_⟩
  have hts : ∀ t ∈ readings.map (fun p => get_current_time p.1), plain t := by
    intro t ht
    obtain ⟨p, _, rfl⟩ := List.mem_map.mp ht
    exact plain_get_current_time p.1
  have hrows : ∀ r ∈ readings.map reading_row, NUL ∉ r.timestamp ∧ NUL ∉ r.temperature := by
    intro r hr
    obtain ⟨p, hp, rfl⟩ := List.mem_map.mp hr
    exact ⟨(plain_get_current_time p.1).2, (hvalues p hp).2⟩
  rw [get_stats_from_db_rows _ _ _ (plain_t_min _ hts) (plain_t_max _ hts) hrows]
  congr 2
  unfold rows_in_range
  rw [List.filter_eq_self]
  intro r hr
  obtain ⟨p, hp, rfl⟩ := List.mem_map.mp hr
  have hmem : get_current_time p.1 ∈ readings.map (fun p => get_current_time p.1) :=
    List.mem_map.mpr ⟨p, hp, rfl⟩
  simp only [reading_row, Bool.and_eq_true]
  exact ⟨t_min_le _ _ hmem, le_t_max _ _ hmem⟩

/-- C8 on two readings, 20.400000 at 2024-01-01 12:00:00.007 and 21.000000 at
2024-01-02 00:00:00.000: the array holds the two objects in insertion order. -/
theorem store_round_trip_witness :
    (∀ p ∈ [(sample_clock, "20.400000".toList), (later_clock, "21.000000".toList)],
      plain p.2) ∧
    ∃ db : Database,
      insert_all [] [(sample_clock, "20.400000".toList), (later_clock, "21.000000".toList)] =
        some db ∧
      get_stats_from_db db
          (t_min ([(sample_clock, "20.400000".toList), (later_clock, "21.000000".toList)].map
            (fun p => get_current_time p.1)))
          (t_max ([(sample_clock, "20.400000".toList), (later_clock, "21.000000".toList)].map
            (fun p => get_current_time p.1))) =
        some (stats_array
          ([(sample_clock, "20.400000".toList), (later_clock, "21.000000".toList)].map
            reading_row)) :=
  ⟨by decide, store_round_trip
    [(sample_clock, "20.400000".toList), (later_clock, "21.000000".toList)] (by decide)⟩

/-- C8 fails as stated: the value text made of one NUL has neither a single nor a double quote,
but the statement text ends at the NUL, inside the literal, so the insert fails, the store stays
empty and the query over the timestamp of the reading returns `[]`, not an array of one
object. -/
theorem store_round_trip_fails_on_nul :
    (QUOTE ∉ [NUL] ∧ DQUOTE ∉ [NUL]) ∧
    insert_all [] [(sample_clock, [NUL])] = some [] ∧
    get_stats_from_db [] (t_min ([(sample_clock, [NUL])].map (fun p => get_current_time p.1)))
        (t_max ([(sample_clock, [NUL])].map (fun p => get_current_time p.1))) =
      some "[]".toList ∧
    "[]".toList ≠ stats_array ([(sample_clock, [NUL])].map reading_row) := by
  decide

/-! ### Searching a text -/

theorem find_at_ge (pat : Str) (s : Str) :
    ∀ i j : ℕ, find_at pat s i = some j → i ≤ j := by
  induction s with
  | nil =>
    intro i j h
    simp only [find_at] at h
    split at h
    · simp only [Option.some.injEq] at h; omega
    · simp at h
  | cons c t ih =>
    intro i j h
    simp only [find_at] at h
    split at h
    · simp only [Option.some.injEq] at h; omega
    · have := ih _ _ h; omega

/-- The search finds index 0 exactly when the text starts with the pattern. -/
theorem find_eq_some_zero_iff (s pat : Str) : find s pat = some 0 ↔ pat.isPrefixOf s = true := by
  unfold find find_from
  simp only [Nat.zero_le, if_true, List.drop_zero]
  cases s with
  | nil => simp [find_at]
  | cons c t =>
    simp only [find_at]
    by_cases h : pat.isPrefixOf (c :: t) = true
    · simp [h]
    · simp only [h, Bool.false_eq_true, if_false, iff_false]
      intro h0
      have := find_at_ge pat t _ _ h0
      omega

/-- The search skips a stretch that ends before a character foreign to the pattern and holds no
occurrence of the pattern. -/
theorem find_at_skip (pat a : Str) (c : Char) (rest : Str) (hc : c ∉ pat)
    (hno : ¬ pat <:+: a) :
    ∀ i : ℕ, find_at pat (a ++ c :: rest) i = find_at pat (c :: rest) (i + a.length) := by
  induction a with
  | nil => intro i; simp
  | cons d a ih =>
    intro i
    have hno2 : ¬ pat <:+: a := fun h => hno (h.trans (List.suffix_cons d a).isInfix)
    have hpre : pat.isPrefixOf (d :: a ++ c :: rest) = false := by
      rw [Bool.eq_false_iff]
      intro h
      rw [List.isPrefixOf_iff_prefix] at h
      have h2 : (d :: a) <+: (d :: a ++ c :: rest) := List.prefix_append _ _
      rcases List.prefix_or_prefix_of_prefix h h2 with h3 | h3
      · exact hno h3.isInfix
      · obtain ⟨t, ht⟩ := h3
        rw [← ht, List.prefix_append_right_inj] at h
        cases t with
        | nil => exact hno (by rw [← ht]; simp)
        | cons e t =>
          have he : e = c := by
            obtain ⟨u, hu⟩ := h
            simp only [List.cons_append, List.cons.injEq] at hu
            exact hu.1
          exact hc (by rw [← ht, he]; simp)
    rw [List.cons_append] at hpre
    rw [List.cons_append, find_at]
    simp only [hpre, Bool.false_eq_true, if_false]
    rw [ih hno2 (i + 1), List.length_cons]
    congr 1
    omega

/-- The search for a single character stops at its first occurrence. -/
theorem find_at_char (c : Char) (a rest : Str) (hc : c ∉ a) :
    ∀ i : ℕ, find_at [c] (a ++ c :: rest) i = some (i + a.length) := by
  induction a with
  | nil => intro i; simp [find_at, List.isPrefixOf]
  | cons d a ih =>
    intro i
    have hd : c ≠ d := fun h => hc (by simp [h])
    have hc2 : c ∉ a := fun h => hc (List.mem_cons_of_mem _ h)
    have hp : List.isPrefixOf [c] (d :: (a ++ c :: rest)) = false := by
      simp [List.isPrefixOf, hd]
    rw [List.cons_append, find_at]
    simp only [hp, Bool.false_eq_true, if_false]
    rw [ih hc2 (i + 1), List.length_cons]
    congr 1
    omega

/-- The search for a single character does not stop inside a stretch without it. -/
theorem find_at_char_ge (c : Char) (a rest : Str) (hc : c ∉ a) :
    ∀ i j : ℕ, find_at [c] (a ++ rest) i = some j → i + a.length ≤ j := by
  induction a with
  | nil => intro i j h; simpa using find_at_ge _ _ _ _ h
  | cons d a ih =>
    intro i j h
    have hd : c ≠ d := fun h => hc (by simp [h])
    have hc2 : c ∉ a := fun h => hc (List.mem_cons_of_mem _ h)
    have hp : List.isPrefixOf [c] (d :: (a ++ rest)) = false := by
      simp [List.isPrefixOf, hd]
    rw [List.cons_append, find_at] at h
    simp only [hp, Bool.false_eq_true, if_false] at h
    have := ih hc2 _ _ h
    rw [List.length_cons]
    omega

theorem find_at_none_iff (pat s : Str) : ∀ i : ℕ, find_at pat s i = none ↔ ¬ pat <:+: s := by
  induction s with
  | nil =>
    intro i
    simp only [find_at]
    cases pat with
    | nil => simp
    | cons p pat => simp [List.isPrefixOf]
  | cons c t ih =>
    intro i
    simp only [find_at]
    by_cases h : pat.isPrefixOf (c :: t) = true
    · simp only [h, if_true, reduceCtorEq, false_iff, not_not]
      exact (List.isPrefixOf_iff_prefix.mp h).isInfix
    · simp only [h, Bool.false_eq_true, if_false, ih]
      have hp : ¬ pat <+: c :: t := fun hp => h (List.isPrefixOf_iff_prefix.mpr hp)
      rw [List.infix_cons_iff]
      tauto

/-- The search fails exactly when the text does not contain the pattern. -/
theorem find_eq_none_iff (s pat : Str) : find s pat = none ↔ ¬ pat <:+: s := by
  unfold find find_from
  simp only [Nat.zero_le, if_true, List.drop_zero]
  exact find_at_none_iff pat s 0

/-! ### The `/stats` request -/

theorem find_start_parameter (x : Str) :
    find ("GET /stats?start=".toList ++ x) "start=".toList = some 11 := by
  have e : "GET /stats?start=".toList ++ x =
      'G' :: 'E' :: 'T' :: ' ' :: '/' :: 's' :: 't' :: 'a' :: 't' :: 's' :: '?' :: 's' :: 't' ::
        'a' :: 'r' :: 't' :: '=' :: x := rfl
  have p : "start=".toList = ['s', 't', 'a', 'r', 't', '='] := rfl
  rw [e, p]
  simp [find, find_from, find_at, List.isPrefixOf]

theorem find_end_parameter (S x : Str) (hS : ¬ "end=".toList <:+: S) :
    find ("GET /stats?start=".toList ++ S ++ "&end=".toList ++ x) "end=".toList =
      some (17 + S.length + 1) := by
  have e : "GET /stats?start=".toList ++ S ++ "&end=".toList ++ x =
      'G' :: 'E' :: 'T' :: ' ' :: '/' :: 's' :: 't' :: 'a' :: 't' :: 's' :: '?' :: 's' :: 't' ::
        'a' :: 'r' :: 't' :: '=' :: (S ++ '&' :: ("end=".toList ++ x)) := by
    simp only [List.append_assoc]
    rfl
  have p : "end=".toList = ['e', 'n', 'd', '='] := rfl
  have hskip := find_at_skip "end=".toList S '&' ("end=".toList ++ x) (by decide) hS 17
  rw [e]
  simp only [find, find_from, Nat.zero_le, if_true, List.drop_zero]
  rw [p] at hskip ⊢
  simp only [find_at, List.isPrefixOf]
  simp only [List.cons_append, List.nil_append] at hskip
  simp [hskip, find_at, List.isPrefixOf]

/-- The range of a `/stats` request with both parameters in its request line: `start_time` is
the text of `start`, `end_time` is the text of `end` and runs on through the rest of the request
line and what follows, up to the next `&`. -/
theorem stats_range_of_request (S E tail program_start_time : Str) (now : ClockReading)
    (hS : '&' ∉ S) (hSe : ¬ "end=".toList <:+: S) (hE : '&' ∉ E) :
    ∃ end_time : Str, (E ++ " HTTP/1.1".toList) <+: end_time ∧
      stats_range ("GET /stats?start=".toList ++ S ++ "&end=".toList ++ E ++
        " HTTP/1.1".toList ++ tail) program_start_time now = (S, end_time) := by
  have e1 : "GET /stats?start=".toList ++ S ++ "&end=".toList ++ E ++ " HTTP/1.1".toList ++ tail =
      "GET /stats?start=".toList ++ (S ++ "&end=".toList ++ E ++ " HTTP/1.1".toList ++ tail) := by
    simp only [List.append_assoc]
  have e2 : "GET /stats?start=".toList ++ S ++ "&end=".toList ++ E ++ " HTTP/1.1".toList ++ tail =
      "GET /stats?start=".toList ++ S ++ "&end=".toList ++ (E ++ " HTTP/1.1".toList ++ tail) := by
    simp only [List.append_assoc]
  have hlen : ("GET /stats?start=".toList ++ S ++ "&end=".toList ++ E ++ " HTTP/1.1".toList ++
      tail).length = 17 + S.length + 5 + (E ++ " HTTP/1.1".toList ++ tail).length := by
    simp only [List.length_append]
    have h17 : "GET /stats?start=".toList.length = 17 := rfl
    have h5 : "&end=".toList.length = 5 := rfl
    omega
  -- the text after `start=` and the text after `end=`
  have d1 : ("GET /stats?start=".toList ++ S ++ "&end=".toList ++ E ++ " HTTP/1.1".toList ++
      tail).drop 17 = S ++ '&' :: ("end=".toList ++ E ++ " HTTP/1.1".toList ++ tail) := by
    rw [e1, List.drop_append_of_le_length (by decide)]
    have : List.drop 17 "GET /stats?start=".toList = [] := by decide
    rw [this]
    simp only [List.append_assoc, List.nil_append]
    rfl
  have d2 : ("GET /stats?start=".toList ++ S ++ "&end=".toList ++ E ++ " HTTP/1.1".toList ++
      tail).drop (17 + S.length + 5) = E ++ " HTTP/1.1".toList ++ tail := by
    rw [e2]
    apply List.drop_left'
    simp only [List.length_append]
    have h17 : "GET /stats?start=".toList.length = 17 := rfl
    have h5 : "&end=".toList.length = 5 := rfl
    omega
  have hA : '&' ∉ E ++ " HTTP/1.1".toList := by
    have : '&' ∉ " HTTP/1.1".toList := by decide
    simp only [List.mem_append, not_or]
    exact ⟨hE, this⟩
  have hamp : "&".toList = ['&'] := rfl
  have hfs := find_start_parameter (S ++ "&end=".toList ++ E ++ " HTTP/1.1".toList ++ tail)
  rw [← e1] at hfs
  have hfe := find_end_parameter S (E ++ " HTTP/1.1".toList ++ tail) hSe
  rw [← e2] at hfe
  -- the `&` that ends `start`
  have hamp1 : find_from ("GET /stats?start=".toList ++ S ++ "&end=".toList ++ E ++
      " HTTP/1.1".toList ++ tail) "&".toList (11 + 6) = some (17 + S.length) := by
    rw [find_from, if_pos (by rw [hlen]; omega)]
    have : (11 + 6 : ℕ) = 17 := rfl
    rw [this, d1, hamp]
    exact find_at_char '&' S _ hS 17
  have hstart : substr ("GET /stats?start=".toList ++ S ++ "&end=".toList ++ E ++
      " HTTP/1.1".toList ++ tail) (11 + 6) (17 + S.length - (11 + 6)) = S := by
    have : (11 + 6 : ℕ) = 17 := rfl
    rw [substr, this, d1]
    have : 17 + S.length - 17 = S.length := by omega
    rw [this, List.take_left]
  have hpos : 17 + S.length + 1 + 4 = 17 + S.length + 5 := by omega
  cases hf : find_from ("GET /stats?start=".toList ++ S ++ "&end=".toList ++ E ++
      " HTTP/1.1".toList ++ tail) "&".toList (17 + S.length + 1 + 4) with
  | none =>
    refine ⟨E ++ " HTTP/1.1".toList ++ tail, ?_, ?_⟩
    · exact List.prefix_append _ _
    · simp only [stats_range, hfs, hfe, hamp1, hf, hstart, substr_from]
      rw [hpos, d2]
  | some k =>
    have hk : 17 + S.length + 5 + (E ++ " HTTP/1.1".toList).length ≤ k := by
      rw [find_from, if_pos (by rw [hlen]; omega), hpos, d2, hamp] at hf
      exact find_at_char_ge '&' _ tail hA _ _ hf
    refine ⟨(E ++ " HTTP/1.1".toList ++ tail).take (k - (17 + S.length + 5)), ?_, ?_⟩
    · rw [List.take_append_eq_append_take, List.take_of_length_le (by omega)]
      exact List.prefix_append _ _
    · simp only [stats_range, hfs, hfe, hamp1, hf, hstart]
      rw [substr, hpos, d2]

theorem stats_request_routing (x : Str) :
    find ("GET /stats?start=".toList ++ x) "GET /current".toList ≠ some 0 ∧
    find ("GET /stats?start=".toList ++ x) "GET /stats".toList = some 0 := by
  have e : "GET /stats?start=".toList ++ x =
      'G' :: 'E' :: 'T' :: ' ' :: '/' :: 's' :: 't' :: 'a' :: 't' :: 's' :: '?' :: 's' :: 't' ::
        'a' :: 'r' :: 't' :: '=' :: x := rfl
  have p1 : "GET /current".toList =
      ['G', 'E', 'T', ' ', '/', 'c', 'u', 'r', 'r', 'e', 'n', 't'] := rfl
  have p2 : "GET /stats".toList = ['G', 'E', 'T', ' ', '/', 's', 't', 'a', 't', 's'] := rfl
  rw [e, p1, p2]
  constructor
  · rw [Ne, find_eq_some_zero_iff]
    simp [List.isPrefixOf]
  · rw [find_eq_some_zero_iff]
    simp [List.isPrefixOf]

/-- What `handle_client` does with a request whose text is `GET /stats?start=S&end=E HTTP/1.1`
and what follows (S and E without `&`, S without `end=`): it queries the store with
`start_time = S` and with an `end_time` that begins with E and runs on past the request line, E,
then ` HTTP/1.1` and the received text after it, up to the next `&`. -/
theorem stats_request_range (S E tail received : Str) (files : Files)
    (db : Database) (currentTemperatureStr program_start_time : Str) (now : ClockReading)
    (hS : '&' ∉ S) (hSe : ¬ "end=".toList <:+: S) (hE : '&' ∉ E)
    (hreq : request_text received = some ("GET /stats?start=".toList ++ S ++ "&end=".toList ++
      E ++ " HTTP/1.1".toList ++ tail)) :
    ∃ end_time : Str, (E ++ " HTTP/1.1".toList) <+: end_time ∧
      stats_range ("GET /stats?start=".toList ++ S ++ "&end=".toList ++ E ++
        " HTTP/1.1".toList ++ tail) program_start_time now = (S, end_time) ∧
      handle_client received files db currentTemperatureStr program_start_time now =
        match get_stats_from_db db S end_time with
        | some body => .sent (http_response body 200 "application/json".toList)
        | none => .outside_model := by
  obtain ⟨end_time, hpre, hrange⟩ :=
    stats_range_of_request S E tail program_start_time now hS hSe hE
  refine ⟨end_time, hpre, hrange, ?_⟩
  have hlen : 0 < received.length := by
    cases received with
    | nil =>
      have h0 : request_text [] = some ['0'] := by decide
      rw [h0] at hreq
      simp only [List.append_assoc, Option.some.injEq] at hreq
      have := congrArg List.head? hreq
      simp at this
    | cons c t => simp
  have e1 : "GET /stats?start=".toList ++ S ++ "&end=".toList ++ E ++ " HTTP/1.1".toList ++ tail =
      "GET /stats?start=".toList ++ (S ++ "&end=".toList ++ E ++ " HTTP/1.1".toList ++ tail) := by
    simp only [List.append_assoc]
  obtain ⟨r1, r2⟩ :=
    stats_request_routing (S ++ "&end=".toList ++ E ++ " HTTP/1.1".toList ++ tail)
  rw [← e1] at r1 r2
  simp only [handle_client, if_pos hlen, hreq, r1, r2, if_false, if_true, hrange]

/-- The request `GET /stats?start=a&end=b HTTP/1.1` with an empty header block: the range is
`a` .. `b HTTP/1.1`, followed by the two line ends and the stored `0`. -/
theorem stats_request_a_b_example :
    request_text "GET /stats?start=a&end=b HTTP/1.1\r\n\r\n".toList =
      some ("GET /stats?start=".toList ++ "a".toList ++ "&end=".toList ++ "b".toList ++
        " HTTP/1.1".toList ++ "\r\n\r\n0".toList) ∧
    ∃ end_time : Str, ("b".toList ++ " HTTP/1.1".toList) <+: end_time ∧
      stats_range ("GET /stats?start=".toList ++ "a".toList ++ "&end=".toList ++ "b".toList ++
        " HTTP/1.1".toList ++ "\r\n\r\n0".toList) [] sample_clock = ("a".toList, end_time) ∧
      handle_client "GET /stats?start=a&end=b HTTP/1.1\r\n\r\n".toList (fun _ => none) [] [] []
          sample_clock =
        match get_stats_from_db [] "a".toList end_time with
        | some body => .sent (http_response body 200 "application/json".toList)
        | none => .outside_model :=
  ⟨by decide, stats_request_range "a".toList "b".toList "\r\n\r\n0".toList
    "GET /stats?start=a&end=b HTTP/1.1\r\n\r\n".toList (fun _ => none) [] [] [] sample_clock
    (by decide) (by decide) (by decide) (by decide)⟩

/-- C9 at a request the daemon can receive: on the request line
`GET /stats?start=2024-01-01 00:00:00&end=2024-01-02 00:00:00 HTTP/1.1` followed by one header,
`handle_client` queries the store with `start_time = 2024-01-01 00:00:00`, but its `end_time` is
not `2024-01-02 00:00:00`: it is that text followed by ` HTTP/1.1`, the header block and the
stored `0`. -/
theorem stats_end_parameter_is_not_cut_at_request_line (files : Files) (db : Database)
    (currentTemperatureStr program_start_time : Str) (now : ClockReading) :
    "2024-01-02 00:00:00 HTTP/1.1\r\nHost: localhost:8080\r\n\r\n0".toList ≠
      "2024-01-02 00:00:00".toList ∧
    handle_client
        ("GET /stats?start=2024-01-01 00:00:00&end=2024-01-02 00:00:00 HTTP/1.1".toList ++
          "\r\nHost: localhost:8080\r\n\r\n".toList)
        files db currentTemperatureStr program_start_time now =
      match get_stats_from_db db "2024-01-01 00:00:00".toList
          "2024-01-02 00:00:00 HTTP/1.1\r\nHost: localhost:8080\r\n\r\n0".toList with
      | some body => .sent (http_response body 200 "application/json".toList)
      | none => .outside_model := by
  refine ⟨by decide, ?_⟩
  have hlen : 0 < ("GET /stats?start=2024-01-01 00:00:00&end=2024-01-02 00:00:00 HTTP/1.1".toList
      ++ "\r\nHost: localhost:8080\r\n\r\n".toList).length := by decide
  have hreq : request_text
      ("GET /stats?start=2024-01-01 00:00:00&end=2024-01-02 00:00:00 HTTP/1.1".toList ++
        "\r\nHost: localhost:8080\r\n\r\n".toList) =
      some ("GET /stats?start=2024-01-01 00:00:00&end=2024-01-02 00:00:00 HTTP/1.1".toList ++
        "\r\nHost: localhost:8080\r\n\r\n0".toList) := by decide
  have h1 : find ("GET /stats?start=2024-01-01 00:00:00&end=2024-01-02 00:00:00 HTTP/1.1".toList
      ++ "\r\nHost: localhost:8080\r\n\r\n0".toList) "GET /current".toList ≠ some 0 := by decide
  have h2 : find ("GET /stats?start=2024-01-01 00:00:00&end=2024-01-02 00:00:00 HTTP/1.1".toList
      ++ "\r\nHost: localhost:8080\r\n\r\n0".toList) "GET /stats".toList = some 0 := by decide
  have h3 : find ("GET /stats?start=2024-01-01 00:00:00&end=2024-01-02 00:00:00 HTTP/1.1".toList
      ++ "\r\nHost: localhost:8080\r\n\r\n0".toList) "start=".toList = some 11 := by decide
  have h4 : find ("GET /stats?start=2024-01-01 00:00:00&end=2024-01-02 00:00:00 HTTP/1.1".toList
      ++ "\r\nHost: localhost:8080\r\n\r\n0".toList) "end=".toList = some 37 := by decide
  have h5 : find_from
      ("GET /stats?start=2024-01-01 00:00:00&end=2024-01-02 00:00:00 HTTP/1.1".toList
        ++ "\r\nHost: localhost:8080\r\n\r\n0".toList) "&".toList (11 + 6) = some 36 := by decide
  have h6 : find_from
      ("GET /stats?start=2024-01-01 00:00:00&end=2024-01-02 00:00:00 HTTP/1.1".toList
        ++ "\r\nHost: localhost:8080\r\n\r\n0".toList) "&".toList (37 + 4) = none := by decide
  have h7 : substr ("GET /stats?start=2024-01-01 00:00:00&end=2024-01-02 00:00:00 HTTP/1.1".toList
      ++ "\r\nHost: localhost:8080\r\n\r\n0".toList) (11 + 6) (36 - (11 + 6)) =
      "2024-01-01 00:00:00".toList := by decide
  have h8 : substr_from
      ("GET /stats?start=2024-01-01 00:00:00&end=2024-01-02 00:00:00 HTTP/1.1".toList
        ++ "\r\nHost: localhost:8080\r\n\r\n0".toList) (37 + 4) =
      "2024-01-02 00:00:00 HTTP/1.1\r\nHost: localhost:8080\r\n\r\n0".toList := by decide
  simp only [handle_client, if_pos hlen, hreq, h1, h2, if_false, if_true, stats_range, h3, h4, h5,
    h6, h7, h8]

/-- What `handle_client` does with a request that starts with `GET /stats` and whose whole text
(request line, headers and body alike) lacks `start=` or lacks `end=`: it queries the store with
the range [program_start_time, current time] and answers with status 200 and the array of the
rows in that range. -/
theorem stats_default_range (received request : Str) (files : Files)
    (db : Database) (currentTemperatureStr : Str) (program_start now : ClockReading)
    (hreq : request_text received = some request)
    (hget : "GET /stats".toList <+: request)
    (hlack : ¬ "start=".toList <:+: request ∨ ¬ "end=".toList <:+: request) :
    stats_range request (get_current_time program_start) now =
      (get_current_time program_start, get_current_time now) ∧
    get_stats_from_db db (get_current_time program_start) (get_current_time now) =
      some (stats_array ((rows_in_range db (get_current_time program_start)
        (get_current_time now)).map as_c_text)) ∧
    handle_client received files db currentTemperatureStr (get_current_time program_start) now =
      .sent (http_response (stats_array ((rows_in_range db (get_current_time program_start)
        (get_current_time now)).map as_c_text)) 200 "application/json".toList) := by
  have hrange : stats_range request (get_current_time program_start) now =
      (get_current_time program_start, get_current_time now) := by
    unfold stats_range
    rcases hlack with h | h
    · rw [(find_eq_none_iff _ _).mpr h]
    · rw [(find_eq_none_iff _ _).mpr h]
      cases find request "start=".toList <;> rfl
  have hstats : get_stats_from_db db (get_current_time program_start) (get_current_time now) =
      some (stats_array ((rows_in_range db (get_current_time program_start)
        (get_current_time now)).map as_c_text)) := by
    rw [get_stats_from_db_plain _ _ _ (plain_get_current_time _) (plain_get_current_time _),
      append_row_fold_c]
    rfl
  have hlen : 0 < received.length := by
    cases received with
    | nil =>
      have h0 : request_text [] = some ['0'] := by decide
      rw [h0] at hreq
      simp only [Option.some.injEq] at hreq
      rw [← hreq] at hget
      exact absurd hget (by decide)
    | cons c t => simp
  have hcur : find request "GET /current".toList ≠ some 0 := by
    rw [Ne, find_eq_some_zero_iff, List.isPrefixOf_iff_prefix]
    intro hc
    rcases List.prefix_or_prefix_of_prefix hc hget with h | h
    · exact absurd h (by decide)
    · exact absurd h (by decide)
  have hst : find request "GET /stats".toList = some 0 := by
    rw [find_eq_some_zero_iff, List.isPrefixOf_iff_prefix]
    exact hget
  refine ⟨hrange, hstats, ?_⟩
  simp only [handle_client, if_pos hlen, hreq, hcur, hst, if_false, if_true, hrange, hstats]

/-- The request `GET /stats HTTP/1.1` against a store with one reading in the default range:
the answer is the one-element array with status 200. -/
theorem stats_default_range_example :
    (request_text "GET /stats HTTP/1.1\r\n\r\n".toList =
        some "GET /stats HTTP/1.1\r\n\r\n0".toList ∧
      "GET /stats".toList <+: "GET /stats HTTP/1.1\r\n\r\n0".toList ∧
      ¬ "start=".toList <:+: "GET /stats HTTP/1.1\r\n\r\n0".toList) ∧
    handle_client "GET /stats HTTP/1.1\r\n\r\n".toList (fun _ => none)
        [⟨"2024-01-01 18:00:00.000".toList, "20.400000".toList⟩] []
        (get_current_time sample_clock) later_clock =
      .sent (http_response
        "[\x7b\"timestamp\":\"2024-01-01 18:00:00.000\",\"temperature\":\"20.400000\"\x7d]".toList
        200 "application/json".toList) := by
  have h := (stats_default_range
    "GET /stats HTTP/1.1\r\n\r\n".toList "GET /stats HTTP/1.1\r\n\r\n0".toList (fun _ => none)
    [⟨"2024-01-01 18:00:00.000".toList, "20.400000".toList⟩] [] sample_clock later_clock
    (by decide) (by decide) (Or.inl (by decide))).2.2
  have e : stats_array ((rows_in_range [⟨"2024-01-01 18:00:00.000".toList, "20.400000".toList⟩]
      (get_current_time sample_clock) (get_current_time later_clock)).map as_c_text) =
      "[\x7b\"timestamp\":\"2024-01-01 18:00:00.000\",\"temperature\":\"20.400000\"\x7d]".toList := by
    decide
  rw [e] at h
  exact ⟨by decide, h⟩

/-- C10 at a request the daemon can receive: the request line `GET /stats?start=a HTTP/1.1`
lacks `end=`, but with `end=` in a header `handle_client` does not fall back to the default
range: it queries the store with both bounds cut out of the received text. -/
theorem stats_parameter_found_in_header (files : Files) (db : Database)
    (currentTemperatureStr : Str) :
    ¬ "end=".toList <:+: "GET /stats?start=a HTTP/1.1".toList ∧
    stats_range ("GET /stats?start=a HTTP/1.1".toList ++
        "\r\nReferer: http://localhost:8080/?end=b\r\n\r\n0".toList)
        (get_current_time sample_clock) later_clock ≠
      (get_current_time sample_clock, get_current_time later_clock) ∧
    handle_client
        ("GET /stats?start=a HTTP/1.1".toList ++
          "\r\nReferer: http://localhost:8080/?end=b\r\n\r\n".toList)
        files db currentTemperatureStr (get_current_time sample_clock) later_clock =
      match get_stats_from_db db
          "a HTTP/1.1\r\nReferer: http://localhost:8080/?end=b\r\n\r\n0".toList
          "b\r\n\r\n0".toList with
      | some body => .sent (http_response body 200 "application/json".toList)
      | none => .outside_model := by
  have hlen : 0 < ("GET /stats?start=a HTTP/1.1".toList ++
      "\r\nReferer: http://localhost:8080/?end=b\r\n\r\n".toList).length := by decide
  have hreq : request_text ("GET /stats?start=a HTTP/1.1".toList ++
        "\r\nReferer: http://localhost:8080/?end=b\r\n\r\n".toList) =
      some ("GET /stats?start=a HTTP/1.1".toList ++
        "\r\nReferer: http://localhost:8080/?end=b\r\n\r\n0".toList) := by decide
  have h1 : find ("GET /stats?start=a HTTP/1.1".toList ++
      "\r\nReferer: http://localhost:8080/?end=b\r\n\r\n0".toList) "GET /current".toList ≠
      some 0 := by decide
  have h2 : find ("GET /stats?start=a HTTP/1.1".toList ++
      "\r\nReferer: http://localhost:8080/?end=b\r\n\r\n0".toList) "GET /stats".toList =
      some 0 := by decide
  have h3 : find ("GET /stats?start=a HTTP/1.1".toList ++
      "\r\nReferer: http://localhost:8080/?end=b\r\n\r\n0".toList) "start=".toList =
      some 11 := by decide
  have h4 : find ("GET /stats?start=a HTTP/1.1".toList ++
      "\r\nReferer: http://localhost:8080/?end=b\r\n\r\n0".toList) "end=".toList =
      some 61 := by decide
  have h5 : find_from ("GET /stats?start=a HTTP/1.1".toList ++
      "\r\nReferer: http://localhost:8080/?end=b\r\n\r\n0".toList) "&".toList (11 + 6) =
      none := by decide
  have h6 : find_from ("GET /stats?start=a HTTP/1.1".toList ++
      "\r\nReferer: http://localhost:8080/?end=b\r\n\r\n0".toList) "&".toList (61 + 4) =
      none := by decide
  have h7 : substr_from ("GET /stats?start=a HTTP/1.1".toList ++
      "\r\nReferer: http://localhost:8080/?end=b\r\n\r\n0".toList) (11 + 6) =
      "a HTTP/1.1\r\nReferer: http://localhost:8080/?end=b\r\n\r\n0".toList := by decide
  have h8 : substr_from ("GET /stats?start=a HTTP/1.1".toList ++
      "\r\nReferer: http://localhost:8080/?end=b\r\n\r\n0".toList) (61 + 4) =
      "b\r\n\r\n0".toList := by decide
  have hrange : stats_range ("GET /stats?start=a HTTP/1.1".toList ++
        "\r\nReferer: http://localhost:8080/?end=b\r\n\r\n0".toList)
        (get_current_time sample_clock) later_clock =
      ("a HTTP/1.1\r\nReferer: http://localhost:8080/?end=b\r\n\r\n0".toList,
        "b\r\n\r\n0".toList) := by
    simp only [stats_range, h3, h4, h5, h6, h7, h8]
  refine ⟨by decide, ?_, ?_⟩
  · rw [hrange]
    decide
  · simp only [handle_client, if_pos hlen, hreq, h1, h2, if_false, if_true, hrange]

/-! ### Decimal digits -/

theorem digitChar_toNat (k : ℕ) (hk : k < 10) : (Nat.digitChar k).toNat - 48 = k := by
  interval_cases k <;> decide

theorem digits_value_append (ds : Str) (c : Char) :
    digits_value (ds ++ [c]) = 10 * digits_value ds + (c.toNat - 48) := by
  simp [digits_value, List.foldl_append]

/-- With enough fuel the digits core yields a non-empty run of digits in front of the
accumulator, whose value is the number. -/
theorem toDigitsCore_spec (fuel : ℕ) :
    ∀ (n : ℕ) (acc : Str), n < fuel →
      ∃ ds : Str, Nat.toDigitsCore 10 fuel n acc = ds ++ acc ∧ ds ≠ [] ∧
        (∀ c ∈ ds, isdigit c = true) ∧ digits_value ds = n := by
  induction fuel with
  | zero => intro n acc h; omega
  | succ fuel ih =>
    intro n acc h
    have hd : isdigit (Nat.digitChar (n % 10)) = true :=
      isdigit_digitChar _ (Nat.mod_lt _ (by decide))
    have hv : (Nat.digitChar (n % 10)).toNat - 48 = n % 10 :=
      digitChar_toNat _ (Nat.mod_lt _ (by decide))
    simp only [Nat.toDigitsCore]
    split
    · rename_i h0
      refine ⟨[Nat.digitChar (n % 10)], rfl, by simp, ?_, ?_⟩
      · intro c hc
        rw [List.mem_singleton] at hc
        rw [hc]; exact hd
      · have := digits_value_append [] (Nat.digitChar (n % 10))
        simp only [List.nil_append] at this
        rw [this, hv]
        have : digits_value [] = 0 := rfl
        rw [this]
        omega
    · rename_i h0
      have hlt : n / 10 < fuel := by omega
      obtain ⟨ds, e, _, hdig, hval⟩ := ih (n / 10) (Nat.digitChar (n % 10) :: acc) hlt
      refine ⟨ds ++ [Nat.digitChar (n % 10)], ?_, by simp, ?_, ?_⟩
      · rw [e]; simp
      · intro c hc
        rcases List.mem_append.mp hc with hc | hc
        · exact hdig c hc
        · rw [List.mem_singleton] at hc
          rw [hc]; exact hd
      · rw [digits_value_append, hval, hv]
        omega

/-- The decimal text of a number: a non-empty run of digits whose value is the number. -/
theorem to_string_nat_spec (n : ℕ) :
    to_string_nat n ≠ [] ∧ (∀ c ∈ to_string_nat n, isdigit c = true) ∧
      digits_value (to_string_nat n) = n := by
  obtain ⟨ds, e, hne, hdig, hval⟩ := toDigitsCore_spec (n + 1) n [] (Nat.lt_succ_self n)
  have e2 : to_string_nat n = ds := by
    simp only [to_string_nat, Nat.toDigits]
    rw [e]; simp
  rw [e2]
  exact ⟨hne, hdig, hval⟩

theorem takeWhile_digits (ds rest : Str) (hd : ∀ c ∈ ds, isdigit c = true)
    (hr : rest.head?.map isdigit ≠ some true) :
    (ds ++ rest).takeWhile isdigit = ds ∧ (ds ++ rest).dropWhile isdigit = rest := by
  induction ds with
  | nil =>
    cases rest with
    | nil => simp
    | cons c t =>
      have hc : isdigit c = false := by
        simp only [List.head?_cons, Option.map_some', ne_eq, Option.some.injEq] at hr
        simpa using hr
      simp [List.takeWhile, List.dropWhile, hc]
  | cons d ds ih =>
    have h1 : isdigit d = true := hd d (List.mem_cons_self _ _)
    have h2 := ih (fun c hc => hd c (List.mem_cons_of_mem _ hc))
    simp [List.takeWhile, List.dropWhile, h1, h2.1, h2.2]

/-- Reading an `int` from the decimal text of a number that fits, followed by a line end. -/
theorem extract_int_to_string_nat (n : ℕ) (rest : Str) (hn : (n : ℤ) ≤ INT_MAX) :
    extract_int (to_string_nat n ++ '\n' :: rest) = .ok (n : ℤ) ('\n' :: rest) := by
  obtain ⟨hne, hdig, hval⟩ := to_string_nat_spec n
  obtain ⟨c, t, ht⟩ := List.exists_cons_of_ne_nil hne
  have hc : isdigit c = true := hdig c (by rw [ht]; simp)
  have hcs : isspace c = false := by
    cases hs : isspace c
    · rfl
    · exfalso
      simp only [isdigit, Bool.and_eq_true, decide_eq_true_eq] at hc
      simp only [isspace, Bool.or_eq_true, decide_eq_true_eq] at hs
      rcases hs with ((((h | h) | h) | h) | h) | h <;> (rw [h] at hc; revert hc; decide)
  have hcm : c ≠ '-' := by rintro rfl; revert hc; decide
  have hcp : c ≠ '+' := by rintro rfl; revert hc; decide
  have h1 : (to_string_nat n ++ '\n' :: rest).dropWhile isspace =
      to_string_nat n ++ '\n' :: rest := by
    rw [ht]; simp [List.dropWhile, hcs]
  have h2 : split_sign (to_string_nat n ++ '\n' :: rest) =
      (false, to_string_nat n ++ '\n' :: rest) := by
    rw [ht, List.cons_append]
    unfold split_sign
    split
    · rename_i heq; simp only [List.cons.injEq] at heq; exact absurd heq.1 hcm
    · rename_i heq; simp only [List.cons.injEq] at heq; exact absurd heq.1 hcp
    · rfl
  obtain ⟨h3, h4⟩ := takeWhile_digits (to_string_nat n) ('\n' :: rest) hdig
    (by simp only [List.head?_cons, Option.map_some']; decide)
  have hmin : ¬ ((n : ℤ) < INT_MIN) := by
    have : INT_MIN < 0 := by decide
    omega
  simp only [extract_int, h1, h2, h3, h4, hne, if_false, hval, Bool.false_eq_true,
    not_lt.mpr hn, hmin]
/-! ### The checkpoint file -/

theorem extract_int_skip_newline (s : Str) : extract_int ('\n' :: s) = extract_int s := by
  have h : isspace '\n' = true := by decide
  simp [extract_int, List.dropWhile, h]

/-- C13: for every pair of non-negative `int` values (a, b), the text written at shutdown
(a, newline, b, newline) is read back at the next startup as the positions (a, b), and an empty
checkpoint file gives the positions (0, 0). -/
theorem checkpoint_round_trip (a b : ℤ) (ha : 0 ≤ a) (hb : 0 ≤ b) (ha2 : a ≤ INT_MAX)
    (hb2 : b ≤ INT_MAX) :
    read_last_positions (checkpoint_text a b) = (a, b) ∧ read_last_positions [] = (0, 0) := by
  refine ⟨?_, rfl⟩
  have ea : to_string_int a = to_string_nat a.toNat := by
    simp [to_string_int, not_lt.mpr ha]
  have eb : to_string_int b = to_string_nat b.toNat := by
    simp [to_string_int, not_lt.mpr hb]
  have hn : "\n".toList = ['\n'] := rfl
  have ca : ((a.toNat : ℕ) : ℤ) = a := Int.toNat_of_nonneg ha
  have cb : ((b.toNat : ℕ) : ℤ) = b := Int.toNat_of_nonneg hb
  have h1 := extract_int_to_string_nat a.toNat (to_string_nat b.toNat ++ ['\n']) (by rw [ca]; exact ha2)
  have h2 := extract_int_to_string_nat b.toNat [] (by rw [cb]; exact hb2)
  have hne : checkpoint_text a b ≠ [] := by
    have := (to_string_nat_spec a.toNat).1
    simp [checkpoint_text, ea, this]
  have e : checkpoint_text a b =
      to_string_nat a.toNat ++ '\n' :: (to_string_nat b.toNat ++ ['\n']) := by
    simp [checkpoint_text, ea, eb, hn]
  rw [read_last_positions, if_neg hne, e, h1]
  simp only [extract_int_skip_newline, List.append_eq, h2, ca, cb]

/-- C13 at the positions (3, 7): the text is "3\n7\n" and it is read back as (3, 7). -/
theorem checkpoint_round_trip_witness :
    ((0 : ℤ) ≤ 3 ∧ (0 : ℤ) ≤ 7 ∧ (3 : ℤ) ≤ INT_MAX ∧ (7 : ℤ) ≤ INT_MAX) ∧
    checkpoint_text 3 7 = "3\n7\n".toList ∧
    read_last_positions (checkpoint_text 3 7) = (3, 7) :=
  ⟨by decide, by decide,
    (checkpoint_round_trip 3 7 (by decide) (by decide) (by decide) (by decide)).1⟩

/-- C14: with no checkpoint file on disk the start of `main` (Linux branch) does not create one
and does not go on with the positions (0, 0): the `std::fstream` is not open and `main` calls
`exit(EXIT_FAILURE)`. The Windows branch does what the claim says: the file is created empty and
`main` goes on with (0, 0). -/
theorem missing_checkpoint_fails_startup :
    open_checkpoint_linux none = .exits 1 ∧
    open_checkpoint_linux none ≠ .proceeds [] (0, 0) ∧
    open_checkpoint_windows none = .proceeds [] (0, 0) ∧
    open_checkpoint_linux (some []) = .proceeds [] (0, 0) := by
  decide

/-! ### The `/current` request -/

theorem setBucket_portData (m : Memory) (params : ThreadData) (b : Bucket) :
    (m.setBucket params b).portData = m.portData ∧ (m.setBucket params b).db = m.db := by
  obtain ⟨tv, av, cv⟩ := params
  cases av <;> cases cv <;> simp [Memory.setBucket, Memory.setAverage, Memory.setCounter]

/-! ### The window boundary -/

/-- C16: a fire of a window flusher at any current time t not before the boundary leaves the
boundary at its previous value plus exactly one window length, 3600 seconds for
`hourly_log_thread` and 86400 seconds for `daily_log_thread`, however far t lies past the old
boundary. -/
theorem flusher_advances_boundary_by_one_window (params : ThreadData) (m : Memory)
    (now1 now2 : ClockReading) (t : ℤ) (ht : t ≥ m.time params.nextLogTime) :
    (∃ m1 : Memory, hourly_log_turn params t now1 now2 m = some m1 ∧
      m1.time params.nextLogTime = m.time params.nextLogTime + 3600) ∧
    (∃ m1 : Memory, daily_log_turn params t now1 now2 m = some m1 ∧
      m1.time params.nextLogTime = m.time params.nextLogTime + 86400) := by
  constructor
  · obtain ⟨m1, e1, _, _, n1⟩ := flush_some SEC_IN_HOUR params now1 now2 m
    exact ⟨m1, by rw [hourly_log_turn, if_pos ht, e1], n1⟩
  · obtain ⟨m1, e1, _, _, n1⟩ := flush_some SEC_IN_DAY params now1 now2 m
    exact ⟨m1, by rw [daily_log_turn, if_pos ht, e1], n1⟩

/-- C16 at the initial boundaries 3600 and 86400 with the clock at 1000000, more than eleven
days late: the hourly boundary becomes 7200, the daily boundary 172800. -/
theorem flusher_advances_boundary_by_one_window_witness :
    ((1000000 : ℤ) ≥ (initial_memory [] 0).time params_hour.nextLogTime ∧
      (1000000 : ℤ) ≥ (initial_memory [] 0).time params_day.nextLogTime) ∧
    (∃ m1 : Memory,
      hourly_log_turn params_hour 1000000 sample_clock sample_clock (initial_memory [] 0) =
        some m1 ∧
      m1.time params_hour.nextLogTime = (initial_memory [] 0).time params_hour.nextLogTime + 3600) ∧
    (∃ m1 : Memory,
      daily_log_turn params_day 1000000 sample_clock sample_clock (initial_memory [] 0) =
        some m1 ∧
      m1.time params_day.nextLogTime = (initial_memory [] 0).time params_day.nextLogTime + 86400) :=
  ⟨by decide,
    (flusher_advances_boundary_by_one_window params_hour (initial_memory [] 0) sample_clock
      sample_clock 1000000 (by decide)).1,
    (flusher_advances_boundary_by_one_window params_day (initial_memory [] 0) sample_clock
      sample_clock 1000000 (by decide)).2⟩

/-! ### The response framing -/

/-- The search for a pattern skips a stretch that does not hold the first character of the
pattern. -/
theorem find_at_skip_head (p : Char) (ps a rest : Str) (hp : p ∉ a) :
    ∀ i : ℕ, find_at (p :: ps) (a ++ rest) i = find_at (p :: ps) rest (i + a.length) := by
  induction a with
  | nil => intro i; simp
  | cons d a ih =>
    intro i
    have hd : p ≠ d := fun h => hp (by simp [h])
    have hp2 : p ∉ a := fun h => hp (List.mem_cons_of_mem _ h)
    have hpre : List.isPrefixOf (p :: ps) (d :: (a ++ rest)) = false := by
      simp [List.isPrefixOf, hd]
    rw [List.cons_append, find_at]
    simp only [hpre, Bool.false_eq_true, if_false]
    rw [ih hp2 (i + 1), List.length_cons]
    congr 1
    omega

/-- The search for an empty line steps over a line end that is followed by a non-empty stretch
without CR. -/
theorem find_at_skip_line (a rest : Str) (ha : '\r' ∉ a) (hne : a ≠ []) (i : ℕ) :
    find_at ['\r', '\n', '\r', '\n'] ('\r' :: '\n' :: (a ++ rest)) i =
      find_at ['\r', '\n', '\r', '\n'] rest (i + 2 + a.length) := by
  obtain ⟨c, t, ht⟩ := List.exists_cons_of_ne_nil hne
  have hc : c ≠ '\r' := fun h => ha (by rw [ht, h]; simp)
  have hc2 : ('\r' == c) = false := by
    rw [beq_eq_false_iff_ne]; exact fun h => hc h.symm
  have h1 : List.isPrefixOf ['\r', '\n', '\r', '\n'] ('\r' :: '\n' :: (a ++ rest)) = false := by
    rw [ht]
    simp [List.isPrefixOf, hc2]
  have h2 : List.isPrefixOf ['\r', '\n', '\r', '\n'] ('\n' :: (a ++ rest)) = false := by
    simp [List.isPrefixOf]
  rw [find_at]
  simp only [h1, Bool.false_eq_true, if_false]
  rw [find_at]
  simp only [h2, Bool.false_eq_true, if_false]
  rw [find_at_skip_head '\r' _ a rest ha]

theorem line_within (a rest : Str) :
    ('\r' :: '\n' :: (a ++ ['\r', '\n'])) <:+: '\r' :: '\n' :: (a ++ ('\r' :: '\n' :: rest)) :=
  ⟨[], rest, by simp⟩

theorem infix_skip_line_front (a tail x : Str) (h : x <:+: tail) :
    x <:+: '\r' :: '\n' :: (a ++ tail) := by
  obtain ⟨s, t, e⟩ := h
  exact ⟨'\r' :: '\n' :: (a ++ s), t, by rw [← e]; simp⟩

theorem infix_skip_line (pre a tail x : Str) (h : x <:+: tail) :
    x <:+: pre ++ ('\r' :: '\n' :: (a ++ tail)) := by
  obtain ⟨s, t, e⟩ := h
  exact ⟨pre ++ ('\r' :: '\n' :: (a ++ s)), t, by rw [← e]; simp⟩

theorem not_cr_of_isdigit (c : Char) (h : isdigit c = true) : c ≠ '\r' := by
  rintro rfl
  revert h
  decide

theorem no_cr_to_string_nat (n : ℕ) : '\r' ∉ to_string_nat n :=
  fun h => not_cr_of_isdigit _ (isdigit_to_string_nat n _ h) rfl

theorem no_cr_to_string_int (z : ℤ) : '\r' ∉ to_string_int z := by
  unfold to_string_int
  split
  · intro h
    rcases List.mem_cons.mp h with h | h
    · exact absurd h (by decide)
    · exact no_cr_to_string_nat _ h
  · exact no_cr_to_string_nat _

theorem no_cr_status_line (status_code : ℤ) : '\r' ∉ status_line status_code := by
  have h1 : '\r' ∉ "HTTP/1.1 ".toList := by decide
  have h2 : '\r' ∉ " ".toList := by decide
  have h3 : '\r' ∉ reason_phrase status_code := by
    unfold reason_phrase
    split
    · decide
    · split <;> decide
  simp only [status_line, List.mem_append, not_or]
  exact ⟨⟨⟨h1, no_cr_to_string_int _⟩, h2⟩, h3⟩

/-- The response as lines: the status line, the three headers of the claim, three more fixed
headers, the empty line and the body. -/
theorem http_response_lines (body : Str) (status_code : ℤ) (content_type : Str) :
    http_response body status_code content_type =
      status_line status_code ++ ('\r' :: '\n' ::
        (("Content-Type: ".toList ++ content_type) ++ ('\r' :: '\n' ::
          (("Content-Length: ".toList ++ to_string_nat body.length) ++ ('\r' :: '\n' ::
            ("Connection: close".toList ++ ('\r' :: '\n' ::
              ("Cache-Control: no-cache, no-store, must-revalidate".toList ++ ('\r' :: '\n' ::
                ("Pragma: no-cache".toList ++ ('\r' :: '\n' ::
                  ("Expires: 0".toList ++ ('\r' :: '\n' :: '\r' :: '\n' :: body))))))))))))) := by
  have e1 : "OK\r\n".toList = "OK".toList ++ ['\r', '\n'] := rfl
  have e2 : "Not Found\r\n".toList = "Not Found".toList ++ ['\r', '\n'] := rfl
  have e3 : "Internal Server Error\r\n".toList =
      "Internal Server Error".toList ++ ['\r', '\n'] := rfl
  have e4 : "\r\n".toList = ['\r', '\n'] := rfl
  have e5 : "Connection: close\r\n".toList = "Connection: close".toList ++ ['\r', '\n'] := rfl
  have e6 : "Cache-Control: no-cache, no-store, must-revalidate\r\n".toList =
      "Cache-Control: no-cache, no-store, must-revalidate".toList ++ ['\r', '\n'] := rfl
  have e7 : "Pragma: no-cache\r\n".toList = "Pragma: no-cache".toList ++ ['\r', '\n'] := rfl
  have e8 : "Expires: 0\r\n\r\n".toList = "Expires: 0".toList ++ ['\r', '\n', '\r', '\n'] := rfl
  unfold http_response status_line reason_phrase
  by_cases h200 : status_code = 200
  · simp only [h200, if_true, e1, e4, e5, e6, e7, e8, List.append_assoc, List.cons_append,
      List.nil_append]
  · by_cases h404 : status_code = 404
    · simp only [h404, if_true, e2, e4, e5, e6, e7, e8, List.append_assoc,
        List.cons_append, List.nil_append]
      rfl
    · simp only [h200, h404, if_false, e3, e4, e5, e6, e7, e8, List.append_assoc,
        List.cons_append, List.nil_append]
/-- C12: for every body, status code and content type without CR or LF, the text of
`http_response` starts with the status line `HTTP/1.1 <code> <reason>` (OK for 200, Not Found
for 404, Internal Server Error for every other code), holds the header lines
`Content-Type: <content type>`, `Content-Length: <n>` with n the decimal length of the body, and
`Connection: close`, and its part after the first empty line (CRLF CRLF) is exactly the body. -/
theorem http_response_framing (body : Str) (status_code : ℤ) (content_type : Str)
    (hct : ∀ c ∈ content_type, c ≠ '\r' ∧ c ≠ '\n') :
    (status_line status_code ++ "\r\n".toList) <+:
      http_response body status_code content_type ∧
    ("\r\nContent-Type: ".toList ++ content_type ++ "\r\n".toList) <:+:
      http_response body status_code content_type ∧
    ("\r\nContent-Length: ".toList ++ to_string_nat body.length ++ "\r\n".toList) <:+:
      http_response body status_code content_type ∧
    digits_value (to_string_nat body.length) = body.length ∧
    "\r\nConnection: close\r\n".toList <:+: http_response body status_code content_type ∧
    ∃ k : ℕ, find (http_response body status_code content_type) "\r\n\r\n".toList = some k ∧
      substr_from (http_response body status_code content_type) (k + 4) = body := by
  have hcr : '\r' ∉ content_type := fun h => (hct _ h).1 rfl
  have hA2 : '\r' ∉ "Content-Type: ".toList ++ content_type := by
    have : '\r' ∉ "Content-Type: ".toList := by decide
    simp only [List.mem_append, not_or]
    exact ⟨this, hcr⟩
  have hA3 : '\r' ∉ "Content-Length: ".toList ++ to_string_nat body.length := by
    have : '\r' ∉ "Content-Length: ".toList := by decide
    simp only [List.mem_append, not_or]
    exact ⟨this, no_cr_to_string_nat _⟩
  have e4 : "\r\n".toList = ['\r', '\n'] := rfl
  have e5 : "\r\nContent-Type: ".toList ++ content_type ++ ['\r', '\n'] =
      '\r' :: '\n' :: (("Content-Type: ".toList ++ content_type) ++ ['\r', '\n']) := rfl
  have e6 : "\r\nContent-Length: ".toList ++ to_string_nat body.length ++ ['\r', '\n'] =
      '\r' :: '\n' :: (("Content-Length: ".toList ++ to_string_nat body.length) ++
        ['\r', '\n']) := rfl
  have e7 : "\r\nConnection: close\r\n".toList =
      '\r' :: '\n' :: ("Connection: close".toList ++ ['\r', '\n']) := rfl
  have p : "\r\n\r\n".toList = ['\r', '\n', '\r', '\n'] := rfl
  rw [http_response_lines]
  refine ⟨?_, ?_, ?_, (to_string_nat_spec _).2.2, ?_, ?_⟩
  · rw [e4, List.prefix_append_right_inj]
    exact ⟨_, rfl⟩
  · rw [e4, e5]
    exact (line_within _ _).trans (List.suffix_append _ _).isInfix
  · rw [e4, e6]
    exact infix_skip_line _ _ _ _ (line_within _ _)
  · rw [e7]
    exact infix_skip_line _ _ _ _ (infix_skip_line_front _ _ _ (line_within _ _))
  · refine ⟨(status_line status_code).length + 2 +
      ("Content-Type: ".toList ++ content_type).length + 2 +
      ("Content-Length: ".toList ++ to_string_nat body.length).length + 2 +
      "Connection: close".toList.length + 2 +
      "Cache-Control: no-cache, no-store, must-revalidate".toList.length + 2 +
      "Pragma: no-cache".toList.length + 2 + "Expires: 0".toList.length, ?_, ?_⟩
    · simp only [find, find_from, Nat.zero_le, if_true, List.drop_zero]
      rw [p, find_at_skip_head '\r' _ _ _ (no_cr_status_line status_code),
        find_at_skip_line _ _ hA2 (by simp), find_at_skip_line _ _ hA3 (by simp),
        find_at_skip_line _ _ (by decide) (by decide),
        find_at_skip_line _ _ (by decide) (by decide),
        find_at_skip_line _ _ (by decide) (by decide),
        find_at_skip_line _ _ (by decide) (by decide)]
      simp [find_at, List.isPrefixOf]
    · rw [substr_from]
      have eR : status_line status_code ++ ('\r' :: '\n' ::
        (("Content-Type: ".toList ++ content_type) ++ ('\r' :: '\n' ::
          (("Content-Length: ".toList ++ to_string_nat body.length) ++ ('\r' :: '\n' ::
            ("Connection: close".toList ++ ('\r' :: '\n' ::
              ("Cache-Control: no-cache, no-store, must-revalidate".toList ++ ('\r' :: '\n' ::
                ("Pragma: no-cache".toList ++ ('\r' :: '\n' ::
                  ("Expires: 0".toList ++ ('\r' :: '\n' :: '\r' :: '\n' :: body))))))))))))) =
        (status_line status_code ++ ('\r' :: '\n' ::
        (("Content-Type: ".toList ++ content_type) ++ ('\r' :: '\n' ::
          (("Content-Length: ".toList ++ to_string_nat body.length) ++ ('\r' :: '\n' ::
            ("Connection: close".toList ++ ('\r' :: '\n' ::
              ("Cache-Control: no-cache, no-store, must-revalidate".toList ++ ('\r' :: '\n' ::
                ("Pragma: no-cache".toList ++ ('\r' :: '\n' ::
                  ("Expires: 0".toList ++ ['\r', '\n', '\r', '\n']))))))))))))) ++ body := by
        simp only [List.append_assoc, List.cons_append, List.nil_append]
      rw [eR]
      apply List.drop_left'
      simp only [List.length_append, List.length_cons, List.length_nil]
      omega
/-- C12 for the body `[]`, status 200 and content type application/json: the text starts with
`HTTP/1.1 200 OK` and the part after the first empty line is `[]`. -/
theorem http_response_framing_witness :
    (∀ c ∈ "application/json".toList, c ≠ '\r' ∧ c ≠ '\n') ∧
    status_line 200 = "HTTP/1.1 200 OK".toList ∧
    (status_line 200 ++ "\r\n".toList) <+:
      http_response "[]".toList 200 "application/json".toList ∧
    ∃ k : ℕ, find (http_response "[]".toList 200 "application/json".toList)
        "\r\n\r\n".toList = some k ∧
      substr_from (http_response "[]".toList 200 "application/json".toList) (k + 4) =
        "[]".toList :=
  ⟨by decide, by decide,
    (http_response_framing "[]".toList 200 "application/json".toList (by decide)).1,
    (http_response_framing "[]".toList 200 "application/json".toList (by decide)).2.2.2.2.2⟩

/-! ### The circular log -/

/-- The stored position after a call of `write_log`. -/
theorem write_log_position (file : Exploration.OFStream) (record : Str) (first_opened : Bool)
    (p CYCLE : ℤ) :
    (Exploration.write_log file record first_opened p CYCLE).2 =
      if first_opened = true ∧ p < CYCLE then p + 1
      else if p ≥ CYCLE ∨ p = 0 then 1 else p + 1 := by
  unfold Exploration.write_log
  split_ifs <;> simp

theorem write_log_position_bounds (file : Exploration.OFStream) (record : Str)
    (first_opened : Bool) (p CYCLE : ℤ) (hC : 1 ≤ CYCLE) (h0 : 0 ≤ p) :
    1 ≤ (Exploration.write_log file record first_opened p CYCLE).2 ∧
      (Exploration.write_log file record first_opened p CYCLE).2 ≤ CYCLE := by
  rw [write_log_position]
  split_ifs with h h2
  · omega
  · omega
  · have : p < CYCLE := by
      by_contra hc
      exact h2 (Or.inl (by omega))
    omega

theorem write_log_run_bounds (CYCLE : ℤ) (hC : 1 ≤ CYCLE) :
    ∀ (calls : List (Str × Bool)) (state : Exploration.OFStream × ℤ),
      0 ≤ state.2 →
      ∀ s ∈ Exploration.write_log_run CYCLE calls state, 1 ≤ s.2 ∧ s.2 ≤ CYCLE := by
  intro calls
  induction calls with
  | nil => intro state _ s hs; simp [Exploration.write_log_run] at hs
  | cons call rest ih =>
    intro state h0 s hs
    have hb := write_log_position_bounds state.1 call.1 call.2 state.2 CYCLE hC h0
    simp only [Exploration.write_log_run, List.mem_cons] at hs
    rcases hs with hs | hs
    · rw [hs]; exact hb
    · exact ih _ (by omega) s hs

theorem write_log_run_length (CYCLE : ℤ) :
    ∀ (calls : List (Str × Bool)) (state : Exploration.OFStream × ℤ),
      (Exploration.write_log_run CYCLE calls state).length = calls.length := by
  intro calls
  induction calls with
  | nil => intro state; rfl
  | cons call rest ih => intro state; simp [Exploration.write_log_run, ih]

/-- C15, amended: for every cycle length `CYCLE ≥ 1` and every sequence of `write_log` calls on
one log (any records, any `first_opened` flags, any stream) that starts from a stored position
`p` with `0 ≤ p < CYCLE`, there is one stored position per call and each of them satisfies
`1 ≤ position ≤ CYCLE`. -/
theorem write_log_position_stays_in_cycle (CYCLE : ℤ) (calls : List (Str × Bool))
    (file : Exploration.OFStream) (p : ℤ) (hC : 1 ≤ CYCLE) (h0 : 0 ≤ p) (hp : p < CYCLE) :
    (Exploration.write_log_run CYCLE calls (file, p)).length = calls.length ∧
    ∀ s ∈ Exploration.write_log_run CYCLE calls (file, p), 1 ≤ s.2 ∧ s.2 ≤ CYCLE :=
  have _ := hp
  ⟨write_log_run_length CYCLE calls (file, p), write_log_run_bounds CYCLE hC calls (file, p) h0⟩

/-- C15, amended, for three calls with cycle length 3 from the stored position 1: the positions
after the calls are 2, 3 and 1. -/
theorem write_log_position_stays_in_cycle_witness :
    ((1 : ℤ) ≤ 3 ∧ (0 : ℤ) ≤ 1 ∧ (1 : ℤ) < 3) ∧
    (Exploration.write_log_run 3
        [("a".toList, true), ("b".toList, false), ("c".toList, false)]
        (Exploration.log_file_hour [], 1)).map Prod.snd = [2, 3, 1] ∧
    ((Exploration.write_log_run 3
        [("a".toList, true), ("b".toList, false), ("c".toList, false)]
        (Exploration.log_file_hour [], 1)).length = 3 ∧
      ∀ s ∈ Exploration.write_log_run 3
        [("a".toList, true), ("b".toList, false), ("c".toList, false)]
        (Exploration.log_file_hour [], 1), 1 ≤ s.2 ∧ s.2 ≤ 3) :=
  ⟨by decide, by decide,
    write_log_position_stays_in_cycle 3
      [("a".toList, true), ("b".toList, false), ("c".toList, false)]
      (Exploration.log_file_hour []) 1 (by decide) (by decide) (by decide)⟩

/-- C15 fails as stated: with cycle length 3 and the stored position 2, which satisfies
`0 ≤ p < CYCLE`, one call of `write_log` leaves the stored position 3, which is not below the
cycle length. -/
theorem write_log_position_reaches_cycle :
    ((1 : ℤ) ≤ 3 ∧ (0 : ℤ) ≤ 2 ∧ (2 : ℤ) < 3) ∧
    (Exploration.write_log_run 3 [(Lab_4.make_fixed_length_record "a".toList, true)]
        (Exploration.log_file_hour [], 2)).map Prod.snd = [3] ∧
    ¬ ∀ s ∈ Exploration.write_log_run 3 [(Lab_4.make_fixed_length_record "a".toList, true)]
        (Exploration.log_file_hour [], 2), 0 ≤ s.2 ∧ s.2 < 3 := by
  decide

theorem seekp_natCast (content : Str) (put : ℕ) (app : Bool) (n : ℕ) :
    Exploration.OFStream.seekp ⟨content, put, app, false⟩ (n : ℤ) = ⟨content, n, app, false⟩ := by
  have h : ¬ ((n : ℤ) < 0) := by omega
  simp [Exploration.OFStream.seekp, h]

theorem get_offset_next (content : Str) (put : ℕ) (app : Bool) (p : ℕ) :
    Exploration.get_offset ⟨content, put, app, false⟩ ((p : ℤ) + 1) =
      (((p * RECORD_LENGTH : ℕ) : ℤ), ⟨content, p * RECORD_LENGTH, app, false⟩) := by
  have h1 : ¬ ((p : ℤ) + 1 = 0) := by omega
  have h2 : ((p : ℤ) + 1 - 1) * (RECORD_LENGTH : ℤ) = ((p * RECORD_LENGTH : ℕ) : ℤ) := by
    push_cast; ring
  simp only [Exploration.get_offset, if_neg h1, h2, seekp_natCast]
  simp [Exploration.OFStream.tellp]

/-- The stream `write_log` writes to, after its seeks, and the position it increments. -/
theorem write_log_seek (content : Str) (put : ℕ) (app : Bool) (record : Str)
    (first_opened : Bool) (p : ℕ) (CYCLE : ℤ) :
    Exploration.write_log ⟨content, put, app, false⟩ record first_opened (p : ℤ) CYCLE =
      (Exploration.OFStream.write ⟨content,
          (if first_opened = true ∧ (p : ℤ) < CYCLE then p * RECORD_LENGTH
            else if (p : ℤ) ≥ CYCLE ∨ (p : ℤ) = 0 then 0 else put), app, false⟩ record,
       if (p : ℤ) ≥ CYCLE ∨ (p : ℤ) = 0 then 1 else (p : ℤ) + 1) := by
  unfold Exploration.write_log
  by_cases hA : first_opened = true ∧ (p : ℤ) < CYCLE
  · have hB : (if (p : ℤ) ≥ CYCLE ∨ (p : ℤ) = 0 then (1 : ℤ) else (p : ℤ) + 1) = (p : ℤ) + 1 := by
      split_ifs with h
      · rcases h with h | h
        · omega
        · rw [h]; rfl
      · rfl
    simp only [if_pos hA, hB, get_offset_next, seekp_natCast]
  · by_cases hC : (p : ℤ) ≥ CYCLE ∨ (p : ℤ) = 0
    · have h0 := seekp_natCast content put app 0
      simp only [Nat.cast_zero] at h0
      simp only [if_neg hA, if_pos hC, h0, zero_add]
    · simp only [if_neg hA, if_neg hC]

/-- On a stream that is not in append mode and has not failed, `write_log` writes the record at
byte offset `p * RECORD_LENGTH` when it seeks (first call of a run, position below the cycle
length), at offset 0 when it wraps, and at the put position of the stream otherwise. -/
theorem write_log_in_place (content : Str) (put : ℕ) (record : Str) (first_opened : Bool)
    (p : ℕ) (CYCLE : ℤ) :
    Exploration.write_log ⟨content, put, false, false⟩ record first_opened (p : ℤ) CYCLE =
      (⟨Exploration.overwrite content
          (if first_opened = true ∧ (p : ℤ) < CYCLE then p * RECORD_LENGTH
            else if (p : ℤ) ≥ CYCLE ∨ (p : ℤ) = 0 then 0 else put) record,
        (if first_opened = true ∧ (p : ℤ) < CYCLE then p * RECORD_LENGTH
            else if (p : ℤ) ≥ CYCLE ∨ (p : ℤ) = 0 then 0 else put) + record.length,
        false, false⟩,
       if (p : ℤ) ≥ CYCLE ∨ (p : ℤ) = 0 then 1 else (p : ℤ) + 1) := by
  rw [write_log_seek]
  simp [Exploration.OFStream.write]

/-- On a stream in append mode that has not failed, `write_log` puts the record at the end of
the file, whatever the stored position. -/
theorem write_log_append (content : Str) (put : ℕ) (record : Str) (first_opened : Bool)
    (p : ℕ) (CYCLE : ℤ) :
    (Exploration.write_log ⟨content, put, true, false⟩ record first_opened (p : ℤ) CYCLE).1 =
      ⟨content ++ record, content.length + record.length, true, false⟩ := by
  rw [write_log_seek]
  simp [Exploration.OFStream.write]

/-- C20: on the streams `main` opens (append mode), `write_log` called at the wrap position 720
of the hourly log appends the record to the file and sets the position to 1; the bytes at
offset 0 stay what they were. With cycle length 1, position 1 and a file holding the record of
`a`, the file after the call holds both records, the one of `a` still at offset 0. -/
theorem write_log_wrap_appends_to_log_file (on_disk record : Str) (first_opened : Bool) :
    Exploration.write_log (Exploration.log_file_hour on_disk) record first_opened 720
        Exploration.HOURS_IN_MONTH =
      (⟨on_disk ++ record, on_disk.length + record.length, true, false⟩, 1) ∧
    Exploration.slot_offset 720 Exploration.HOURS_IN_MONTH = 0 ∧
    (Exploration.write_log
        (Exploration.log_file_hour (Lab_4.make_fixed_length_record "a".toList))
        (Lab_4.make_fixed_length_record "b".toList) first_opened 1 1).1.content =
      Lab_4.make_fixed_length_record "a".toList ++ Lab_4.make_fixed_length_record "b".toList ∧
    substr (Lab_4.make_fixed_length_record "a".toList ++
        Lab_4.make_fixed_length_record "b".toList) (Exploration.slot_offset 1 1) RECORD_LENGTH ≠
      Lab_4.make_fixed_length_record "b".toList := by
  refine ⟨?_, by decide, ?_, by decide⟩
  · refine Prod.ext ?_ ?_
    · exact write_log_append on_disk 0 record first_opened 720 Exploration.HOURS_IN_MONTH
    · rw [write_log_position]
      simp [Exploration.HOURS_IN_MONTH]
  · have h := write_log_append (Lab_4.make_fixed_length_record "a".toList) 0
      (Lab_4.make_fixed_length_record "b".toList) first_opened 1 1
    exact congrArg Exploration.OFStream.content h

/-! ### Startup -/

/-- C17: when `open` on the port returns -1 after the checkpoint file, the store and the
semaphore were acquired, `open_and_configure_port` throws and nothing catches it: startup ends in
`std::terminate` with no resource released and without `exit`. The branch that releases and calls
`exit(EXIT_FAILURE)` runs when `tcflush` fails on the open port 3, and it closes the checkpoint
file first, then the port, then the store. -/
theorem port_open_failure_releases_nothing (configure_port_throws : Option Str)
    (tcflush_result : ℤ) :
    main_startup (port_environment (-1) configure_port_throws tcflush_result) =
      ([.acquired .checkpoint_file, .acquired .store, .acquired .semaphore],
        .terminate "open port failed.".toList) ∧
    (∀ r : Resource, StartupEvent.released r ∉
      (main_startup (port_environment (-1) configure_port_throws tcflush_result)).1) ∧
    (∀ status : ℤ,
      (main_startup (port_environment (-1) configure_port_throws tcflush_result)).2 ≠
        .exit status) ∧
    main_startup (port_environment 3 none (-1)) =
      ([.acquired .checkpoint_file, .acquired .store, .acquired .semaphore, .acquired .port,
          .released .checkpoint_file, .released .port, .released .store, .sem_unlink],
        .exit 1) := by
  have h : main_startup (port_environment (-1) configure_port_throws tcflush_result) =
      ([.acquired .checkpoint_file, .acquired .store, .acquired .semaphore],
        .terminate "open port failed.".toList) := rfl
  refine ⟨h, ?_, ?_, by decide⟩
  · intro r
    rw [h]
    simp
  · intro status
    rw [h]
    simp

/-! ### Reads from the transport -/

/-- C18: in the Linux branch a failed read leaves the state as it is and the loop goes on: the
iteration after the failed read runs, and with the chunk "20.0" it stores the sample. The Windows
branch leaves the loop on a failed read. -/
theorem failed_read_does_not_end_worker_loop (params : ThreadData) (now1 now2 : ClockReading)
    (chunk : Str) (m : Memory) :
    data_processing_iteration params now1 .error m = .next m ∧
    data_processing_loop params [(now1, .error), (now2, .bytes chunk)] m =
      data_processing_turn params now2 chunk m ∧
    data_processing_loop params [(now1, .error), (now2, .bytes "20.0".toList)] m =
      .next (({ m with
          db := m.db ++
            [⟨get_current_time now2, Lab_5.make_fixed_length_record (to_string_double 20)⟩]
          portData := to_string_double 20 } : Memory).setBucket params
        (accumulate (m.bucket params) 20)) ∧
    data_processing_iteration_windows params now1 .error m = .breaks m := by
  have hloop : ∀ c : Str, data_processing_loop params [(now1, .error), (now2, .bytes c)] m =
      data_processing_turn params now2 c m := by
    intro c
    simp only [data_processing_loop, data_processing_iteration]
    cases data_processing_turn params now2 c m <;> rfl
  refine ⟨rfl, hloop chunk, ?_, rfl⟩
  rw [hloop]
  exact data_processing_turn_sample params now2 "20.0".toList m 20 (by decide) parse_sample_20_0

/-! ### Locks -/

/-- The critical sections of the daily flusher, run without interruption, do to the shared
variables what `flush` does, the insert of the record apart, and read the mean that `flush`
records. -/
theorem log_thread_sections_agree_with_flush (now1 now2 : ClockReading) (m : Memory) (avg : ℚ) :
    (flush SEC_IN_DAY params_day now1 now2 m).map
        (fun m1 => (({ m1 with db := m.db } : Memory), m.average params_day.averageValue)) =
      some (run_schedule
        ((log_thread_sections SEC_IN_DAY).map (fun s => (Thread.daily_log, s))) (m, avg)) := by
  rw [flush_eq]
  simp [run_schedule, log_thread_sections, BucketStep.run, Thread.params, params_day,
    Memory.setTime, Memory.time, Memory.average, Memory.setAverage, Memory.setCounter]

/-- C19: the ingestion worker updates the bucket under the `dataMutex` of its own `ThreadData`
object, the flusher reads and resets it under the semaphore, in separate critical sections: the
two never hold the same lock. In the schedule `lost_sample_schedule` the worker accumulates the
sample 22 between the flusher's read of the mean and its resets: the flusher records 20 and the
bucket ends empty, so the sample is in neither window, while the two orders without
interleaving give 21 with an empty bucket, or 20 with the bucket holding 22 once. -/
theorem worker_and_flusher_hold_different_locks :
    (∀ (self : ThreadDataObject) (value : ℚ) (window : ℤ),
      ∀ s ∈ log_thread_sections window,
        s.lock = .threadSemaphore ∧ (data_processing_section self value).lock ≠ s.lock) ∧
    sections_of .data_processing lost_sample_schedule =
      [data_processing_section .params_data 22] ∧
    sections_of .daily_log lost_sample_schedule = log_thread_sections SEC_IN_DAY ∧
    ((run_schedule lost_sample_schedule (daily_memory, 0)).2 = 20 ∧
      (run_schedule lost_sample_schedule (daily_memory, 0)).1.bucket params_day = ⟨0, 0⟩) ∧
    ((run_schedule
        ((Thread.data_processing, data_processing_section .params_data 22) ::
          (log_thread_sections SEC_IN_DAY).map (fun s => (Thread.daily_log, s)))
        (daily_memory, 0)).2 = 21 ∧
      (run_schedule
        ((Thread.data_processing, data_processing_section .params_data 22) ::
          (log_thread_sections SEC_IN_DAY).map (fun s => (Thread.daily_log, s)))
        (daily_memory, 0)).1.bucket params_day = ⟨0, 0⟩) ∧
    ((run_schedule
        ((log_thread_sections SEC_IN_DAY).map (fun s => (Thread.daily_log, s)) ++
          [(Thread.data_processing, data_processing_section .params_data 22)])
        (daily_memory, 0)).2 = 20 ∧
      (run_schedule
        ((log_thread_sections SEC_IN_DAY).map (fun s => (Thread.daily_log, s)) ++
          [(Thread.data_processing, data_processing_section .params_data 22)])
        (daily_memory, 0)).1.bucket params_day = ⟨22, 1⟩) := by
  refine ⟨?_, ?_, ?_, ?_, ?_, ?_⟩
  · intro self value window s hs
    simp only [log_thread_sections, List.mem_cons, List.mem_singleton, List.not_mem_nil,
      or_false] at hs
    rcases hs with hs | hs | hs | hs <;> subst hs <;> simp [data_processing_section]
  · simp [sections_of, lost_sample_schedule]
  · simp [sections_of, lost_sample_schedule, log_thread_sections]
  · simp [run_schedule, lost_sample_schedule, BucketStep.run, data_processing_section,
      Thread.params, params_data, params_day, daily_memory, initial_memory, Memory.bucket,
      Memory.setBucket, Memory.setTime, Memory.time, Memory.average, Memory.setAverage,
      Memory.counter, Memory.setCounter, accumulate]
  · simp [run_schedule, log_thread_sections, BucketStep.run, data_processing_section,
      Thread.params, params_data, params_day, daily_memory, initial_memory, Memory.bucket,
      Memory.setBucket, Memory.setTime, Memory.time, Memory.average, Memory.setAverage,
      Memory.counter, Memory.setCounter, accumulate]
    norm_num
  · simp [run_schedule, log_thread_sections, BucketStep.run, data_processing_section,
      Thread.params, params_data, params_day, daily_memory, initial_memory, Memory.bucket,
      Memory.setBucket, Memory.setTime, Memory.time, Memory.average, Memory.setAverage,
      Memory.counter, Memory.setCounter, accumulate]

/-- C2: a fire of the daily flusher does not always leave the bucket with mean 0 and counter 0.
The fire is four critical sections, and the ingestion worker, which holds another lock, can run
between them: in `torn_reset_schedule`, from the bucket (mean 20, counter 1), the flusher reads
and records 20 and resets the mean, the worker accumulates the sample 22, the flusher resets
the counter. The fire leaves the bucket with mean 11 and counter 0, and a second fire right
after it, with no accumulate in between, reads and records the mean 11, not 0. -/
theorem fire_interleaved_with_sample_leaves_mean :
    sections_of .daily_log torn_reset_schedule = log_thread_sections SEC_IN_DAY ∧
    sections_of .data_processing torn_reset_schedule =
      [data_processing_section .params_data 22] ∧
    daily_memory.bucket params_day = ⟨20, 1⟩ ∧
    (run_schedule torn_reset_schedule (daily_memory, 0)).2 = 20 ∧
    (run_schedule torn_reset_schedule (daily_memory, 0)).1.bucket params_day = ⟨11, 0⟩ ∧
    (run_schedule torn_reset_schedule (daily_memory, 0)).1.bucket params_day ≠ ⟨0, 0⟩ ∧
    (run_schedule
      (torn_reset_schedule ++
        (log_thread_sections SEC_IN_DAY).map (fun s => (Thread.daily_log, s)))
      (daily_memory, 0)).2 = 11 := by
  have hb : (run_schedule torn_reset_schedule (daily_memory, 0)).1.bucket params_day =
      ⟨11, 0⟩ := by
    simp [run_schedule, torn_reset_schedule, BucketStep.run, data_processing_section,
      Thread.params, params_data, params_day, daily_memory, initial_memory, Memory.bucket,
      Memory.setBucket, Memory.setTime, Memory.time, Memory.average, Memory.setAverage,
      Memory.counter, Memory.setCounter, accumulate]
    norm_num
  refine ⟨?_, ?_, ?_, ?_, hb, ?_, ?_⟩
  · simp [sections_of, torn_reset_schedule, log_thread_sections]
  · simp [sections_of, torn_reset_schedule]
  · simp [daily_memory, initial_memory, Memory.bucket, params_day, Memory.average,
      Memory.counter]
  · simp [run_schedule, torn_reset_schedule, BucketStep.run, data_processing_section,
      Thread.params, params_data, params_day, daily_memory, initial_memory, Memory.bucket,
      Memory.setBucket, Memory.setTime, Memory.time, Memory.average, Memory.setAverage,
      Memory.counter, Memory.setCounter, accumulate]
  · rw [hb]
    intro h
    have := congrArg Bucket.averageValue h
    norm_num at this
  · simp [run_schedule, torn_reset_schedule, log_thread_sections, BucketStep.run,
      data_processing_section, Thread.params, params_data, params_day, daily_memory,
      initial_memory, Memory.bucket, Memory.setBucket, Memory.setTime, Memory.time,
      Memory.average, Memory.setAverage, Memory.counter, Memory.setCounter, accumulate]
    norm_num

/-! ### The yearly rotation of the daily log (Lab_4) -/

theorem floor_natCast (n : ℕ) : Rat.floor (n : ℚ) = (n : ℤ) :=
  Int.floor_natCast (α := ℚ) n

theorem round_half_even_natCast (n : ℕ) : round_half_even (n : ℚ) = n := by
  unfold round_half_even
  simp [floor_natCast]

/-- The `%f` text of a whole number: its decimal text, a point and six zeros. -/
theorem to_string_double_natCast (n : ℕ) :
    to_string_double (n : ℚ) = to_string_nat n ++ ".000000".toList := by
  have e : |(n : ℚ)| * 1000000 = ((n * 1000000 : ℕ) : ℚ) := by
    rw [abs_of_nonneg (by positivity)]
    push_cast
    ring
  have hneg : ¬ ((n : ℚ) < 0) := by
    have : (0 : ℚ) ≤ n := by positivity
    exact not_lt.mpr this
  unfold to_string_double
  simp only [e, round_half_even_natCast, if_neg hneg]
  have h0 : to_string_nat 0 = ['0'] := by decide
  simp [pad_zero, h0]

theorem length_pad_zero (w : ℕ) (s : Str) : w ≤ (pad_zero w s).length := by
  simp only [pad_zero, List.length_append, List.length_replicate]
  omega

theorem length_to_string_nat (n : ℕ) : 1 ≤ (to_string_nat n).length := by
  have h := (to_string_nat_spec n).1
  cases hs : to_string_nat n with
  | nil => exact absurd hs h
  | cons c t => simp

/-- The clock text has at least 20 characters (23 for a year of four digits). -/
theorem length_get_current_time (now : ClockReading) : 20 ≤ (get_current_time now).length := by
  have h1 := length_to_string_nat now.year
  have h2 := length_pad_zero 2 (to_string_nat now.month)
  have h3 := length_pad_zero 2 (to_string_nat now.day)
  have h4 := length_pad_zero 2 (to_string_nat now.hour)
  have h5 := length_pad_zero 2 (to_string_nat now.minute)
  have h6 := length_pad_zero 2 (to_string_nat now.second)
  have h7 := length_pad_zero 3 (to_string_nat (now.since_epoch_ms % 1000))
  simp only [get_current_time, List.length_append, List.length_singleton]
  omega

/-- The `%f` text has at least 8 characters. -/
theorem length_to_string_double (v : ℚ) : 8 ≤ (to_string_double v).length := by
  have h1 := length_to_string_nat (round_half_even (|v| * 1000000) / 1000000)
  have h2 := length_pad_zero 6 (to_string_nat (round_half_even (|v| * 1000000) % 1000000))
  simp only [to_string_double, List.length_append, List.length_singleton]
  omega

/-- The record of a flusher of the file logger: the first 29 characters of the clock text, a
space and the `%f` text of the mean, then a newline; 30 characters in all. -/
theorem lab4_flush_record_eq (now : ClockReading) (avg : ℚ) :
    Lab_4.flush_record now avg =
      (get_current_time now ++ " ".toList ++ to_string_double avg).take 29 ++ ['\n'] ∧
    ((get_current_time now ++ " ".toList ++ to_string_double avg).take 29 ++ ['\n']).length =
      30 := by
  have h1 := length_get_current_time now
  have h2 := length_to_string_double avg
  have hlen : 29 ≤ (get_current_time now ++ " ".toList ++ to_string_double avg).length := by
    have hsp : " ".toList.length = 1 := rfl
    simp only [List.length_append, hsp]
    omega
  constructor
  · have hpad : 29 - min (get_current_time now ++ " ".toList ++ to_string_double avg).length
        29 = 0 := by omega
    rw [Lab_4.flush_record, lab4_record_eq, hpad]
    simp
  · simp only [List.length_append, List.length_take, List.length_singleton]
    simp only [List.length_append] at hlen
    omega

/-- C21: in `daily_log_thread` of Lab_4, a fire that is not the first of the run, in a year
other than the remembered one, with both reopenings succeeding, leaves the daily log holding
exactly the record of this fire (the first 29 characters of the clock text, a space and the
text of the mean, then a newline: 30 characters) and remembers the current year; the first
fire of the run, whatever the years, writes that record to the stream as it is, without
reopening, and remembers the current year. -/
theorem daily_log_rotates_on_year_change (current_time currentYear : ℤ) (now : ClockReading)
    (params : Lab_4.ThreadData) (logYear : ℤ)
    (hfire : current_time ≥ params.nextLogTime) :
    (currentYear ≠ logYear →
      Lab_4.daily_log_turn current_time currentYear now true true params ⟨logYear, false⟩ =
        .next ⟨⟨(get_current_time now ++ " ".toList ++
              to_string_double params.averageValue).take 29 ++ ['\n'], 30, false, false⟩,
          params.nextLogTime + SEC_IN_DAY, 0, 0⟩ ⟨currentYear, false⟩) ∧
    ((get_current_time now ++ " ".toList ++
        to_string_double params.averageValue).take 29 ++ ['\n']).length = 30 ∧
    (∀ reopen_trunc reopen_out : Bool,
      Lab_4.daily_log_turn current_time currentYear now reopen_trunc reopen_out params
          ⟨logYear, true⟩ =
        .next ⟨params.logFile.write ((get_current_time now ++ " ".toList ++
            to_string_double params.averageValue).take 29 ++ ['\n']),
          params.nextLogTime + SEC_IN_DAY, 0, 0⟩ ⟨currentYear, false⟩) ∧
    (Exploration.OFStream.write ⟨[], 0, false, false⟩ ((get_current_time now ++ " ".toList ++
        to_string_double params.averageValue).take 29 ++ ['\n'])).content =
      (get_current_time now ++ " ".toList ++
        to_string_double params.averageValue).take 29 ++ ['\n'] := by
  obtain ⟨hrec, hlen⟩ := lab4_flush_record_eq now params.averageValue
  have hl : (Lab_4.flush_record now params.averageValue).length = 30 := by
    rw [hrec]; exact hlen
  refine ⟨?_, hlen, ?_, ?_⟩
  · intro hyear
    rw [← hrec]
    simp [Lab_4.daily_log_turn, hfire, hyear, Lab_4.write_log_to_file, Lab_4.reopened,
      Exploration.OFStream.write, Exploration.overwrite, hl]
  · intro reopen_trunc reopen_out
    rw [← hrec]
    simp [Lab_4.daily_log_turn, hfire, Lab_4.write_log_to_file]
  · simp [Exploration.OFStream.write, Exploration.overwrite]

/-- The record of the mean 21 at 2025-01-01 00:00:00.000. -/
theorem record_of_2025 :
    (get_current_time ⟨2025, 1, 1, 0, 0, 0, 1735689600000⟩ ++ " ".toList ++
      to_string_double 21).take 29 ++ ['\n'] = "2025-01-01 00:00:00.000 21.00\n".toList := by
  have h : to_string_double 21 = "21.000000".toList := by
    have := to_string_double_natCast 21
    simpa using this
  rw [h]
  decide

/-- C21 for a daily log that holds a record written in 2024, at a fire on 2025-01-01 with the
mean 21: the log afterwards holds the one record `2025-01-01 00:00:00.000 21.00`, newline. -/
theorem daily_log_rotates_on_year_change_witness :
    ((1735689600 : ℤ) ≥ 1735689600 ∧ (2025 : ℤ) ≠ 2024) ∧
    Lab_4.daily_log_turn 1735689600 2025 ⟨2025, 1, 1, 0, 0, 0, 1735689600000⟩ true true
        ⟨⟨"2024-01-01 12:00:00.007 20.00\n".toList, 30, false, false⟩, 1735689600, 21, 3⟩
        ⟨2024, false⟩ =
      .next ⟨⟨"2025-01-01 00:00:00.000 21.00\n".toList, 30, false, false⟩,
        1735689600 + SEC_IN_DAY, 0, 0⟩ ⟨2025, false⟩ :=
  ⟨by decide,
    ((daily_log_rotates_on_year_change 1735689600 2025 ⟨2025, 1, 1, 0, 0, 0, 1735689600000⟩
      ⟨⟨"2024-01-01 12:00:00.007 20.00\n".toList, 30, false, false⟩, 1735689600, 21, 3⟩ 2024
      (by decide)).1 (by decide)).trans (by rw [record_of_2025])⟩

/-! ### Shutdown -/

/-- C23: on the normal shutdown path of the daemon (Linux branch) the port descriptor is closed
twice, once by `close_port(serialPort)` in `main` and once more by `close_port(*fd)` inside
`free_resources`, whose guard still sees the descriptor, not -1; the checkpoint file and the
store are closed once. -/
theorem shutdown_closes_port_twice (fd : ℕ) :
    main_shutdown (fd : ℤ) =
      [.released .port, .released .checkpoint_file, .released .port, .released .store,
        .sem_unlink] ∧
    (main_shutdown (fd : ℤ)).count (.released .port) = 2 ∧
    (main_shutdown (fd : ℤ)).count (.released .store) = 1 ∧
    (main_shutdown (fd : ℤ)).count (.released .checkpoint_file) = 1 := by
  have h : ¬ ((fd : ℤ) = -1) := by omega
  have e : main_shutdown (fd : ℤ) =
      [.released .port, .released .checkpoint_file, .released .port, .released .store,
        .sem_unlink] := by
    simp [main_shutdown, close_port, free_resources, sqlite3_close, h]
  rw [e]
  exact ⟨rfl, by decide, by decide, by decide⟩

/-! ### The content limit of a record -/

/-- C29: of a record built as a timestamp of 23 characters, one space and a value text of at
least 5 characters, `make_fixed_length_record` keeps the timestamp, the space and the first 5
characters of the value, and nothing of what follows them; the file logger's version puts the
newline behind them. -/
theorem flush_record_keeps_five_value_characters (timestamp value : Str)
    (ht : timestamp.length = 23) (hv : 5 ≤ value.length) :
    Lab_5.make_fixed_length_record (timestamp ++ " ".toList ++ value) =
      timestamp ++ " ".toList ++ value.take 5 ∧
    Lab_4.make_fixed_length_record (timestamp ++ " ".toList ++ value) =
      timestamp ++ " ".toList ++ value.take 5 ++ "\n".toList := by
  have hsp : " ".toList = [' '] := rfl
  have hnl : "\n".toList = ['\n'] := rfl
  have hlen : (timestamp ++ " ".toList ++ value).length = 24 + value.length := by
    simp only [List.length_append, ht, hsp, List.length_singleton]
  have htake : (timestamp ++ " ".toList ++ value).take 29 =
      timestamp ++ " ".toList ++ value.take 5 := by
    rw [List.append_assoc, List.take_append_eq_append_take, List.take_of_length_le (by omega),
      ht, List.take_append_eq_append_take, hsp]
    simp
  have hpad : 29 - min (timestamp ++ " ".toList ++ value).length 29 = 0 := by
    rw [hlen]; omega
  constructor
  · rw [lab5_record_eq, htake, hpad]
    simp
  · rw [lab4_record_eq, htake, hpad, hnl]
    simp

/-- C29 for the mean 15.35 at 2024-01-01 12:00:00.007: of the value text 15.350000 the record
keeps 15.35. -/
theorem flush_record_keeps_five_value_characters_witness :
    ((get_current_time sample_clock).length = 23 ∧ 5 ≤ "15.350000".toList.length) ∧
    Lab_5.make_fixed_length_record
        (get_current_time sample_clock ++ " ".toList ++ "15.350000".toList) =
      "2024-01-01 12:00:00.007 15.35".toList :=
  ⟨by decide,
    (flush_record_keeps_five_value_characters (get_current_time sample_clock)
      "15.350000".toList (by decide) (by decide)).1.trans (by decide)⟩

/-! ### A boundary behind the clock -/

theorem fires_behind (W t b : ℤ) (hW : 0 < W) (hb : b ≤ t) :
    fires W t b = fires W t (b + W) + 1 := by
  have h1 : (t - (b + W)) / W = (t - b) / W - 1 := by
    have : t - (b + W) = t - b + (-1) * W := by ring
    rw [this, Int.add_mul_ediv_right _ _ (ne_of_gt hW)]
    ring
  have h2 : 0 ≤ (t - b) / W := Int.ediv_nonneg (by omega) (le_of_lt hW)
  unfold fires
  rw [h1]
  omega

theorem fires_ahead (W t b : ℤ) (hW : 0 < W) (hb : t < b) : fires W t b = 0 := by
  have h : (t - b) / W < 0 := Int.ediv_neg' (by omega) hW
  unfold fires
  omega

/-- With the clock held at `t`, a flusher with window `W` fires on the first `fires W t b` ticks
and on no later one: after `n` ticks it has written `min n (fires W t b)` records and moved the
boundary by as many windows. -/
theorem ticks_flush (W t : ℤ) (params : ThreadData) (now1 now2 : ClockReading)
    (turn : Memory → Option Memory) (hW : 0 < W)
    (hturn : ∀ m : Memory, turn m =
      if t ≥ m.time params.nextLogTime then flush W params now1 now2 m else some m) :
    ∀ (n : ℕ) (m : Memory), ∃ m1 : Memory, ticks turn n m = some m1 ∧
      m1.db.length = m.db.length + min n (fires W t (m.time params.nextLogTime)) ∧
      m1.time params.nextLogTime =
        m.time params.nextLogTime + (min n (fires W t (m.time params.nextLogTime)) : ℕ) * W := by
  intro n
  induction n with
  | zero => intro m; exact ⟨m, rfl, by simp, by simp⟩
  | succ n ih =>
    intro m
    by_cases hb : t ≥ m.time params.nextLogTime
    · obtain ⟨m1, e1, d1, _, n1⟩ := flush_some W params now1 now2 m
      obtain ⟨m2, e2, d2, n2⟩ := ih m1
      have hf := fires_behind W t (m.time params.nextLogTime) hW hb
      refine ⟨m2, ?_, ?_, ?_⟩
      · simp only [ticks, hturn m, if_pos hb, e1, e2]
      · rw [d2, d1, n1, hf]
        simp only [List.length_append, List.length_singleton]
        omega
      · rw [n2, n1, hf]
        have hmin : min (n + 1) (fires W t (m.time params.nextLogTime + W) + 1) =
            min n (fires W t (m.time params.nextLogTime + W)) + 1 := by omega
        rw [hmin]
        push_cast
        ring
    · obtain ⟨m2, e2, d2, n2⟩ := ih m
      have hf := fires_ahead W t (m.time params.nextLogTime) hW (by omega)
      refine ⟨m2, ?_, ?_, ?_⟩
      · simp only [ticks, hturn m, if_neg hb, e2]
      · rw [d2, hf]; simp
      · rw [n2, hf]; simp

/-- C30: with the clock held at `t` and the boundary `b ≤ t`, the hourly flusher (W = 3600)
and the daily flusher (W = 86400) fire on each of the first `floor((t - b) / W) + 1` ticks and
on no later tick: after `n` ticks there are `min n (floor((t - b) / W) + 1)` new records and
the boundary has moved by as many windows; after that many fires it lies beyond `t`. -/
theorem flusher_fires_once_per_window_behind (params : ThreadData) (now1 now2 : ClockReading)
    (t : ℤ) (n : ℕ) (m : Memory) (hb : m.time params.nextLogTime ≤ t) :
    (fires 3600 t (m.time params.nextLogTime) =
        ((t - m.time params.nextLogTime) / 3600).toNat + 1 ∧
      t < m.time params.nextLogTime + (fires 3600 t (m.time params.nextLogTime) : ℕ) * 3600 ∧
      ∃ m1 : Memory, ticks (hourly_log_turn params t now1 now2) n m = some m1 ∧
        m1.db.length = m.db.length + min n (fires 3600 t (m.time params.nextLogTime)) ∧
        m1.time params.nextLogTime = m.time params.nextLogTime +
          (min n (fires 3600 t (m.time params.nextLogTime)) : ℕ) * 3600) ∧
    (fires 86400 t (m.time params.nextLogTime) =
        ((t - m.time params.nextLogTime) / 86400).toNat + 1 ∧
      t < m.time params.nextLogTime + (fires 86400 t (m.time params.nextLogTime) : ℕ) * 86400 ∧
      ∃ m1 : Memory, ticks (daily_log_turn params t now1 now2) n m = some m1 ∧
        m1.db.length = m.db.length + min n (fires 86400 t (m.time params.nextLogTime)) ∧
        m1.time params.nextLogTime = m.time params.nextLogTime +
          (min n (fires 86400 t (m.time params.nextLogTime)) : ℕ) * 86400) := by
  have hq : ∀ W : ℤ, 0 < W → 0 ≤ (t - m.time params.nextLogTime) / W :=
    fun W hW => Int.ediv_nonneg (by omega) (le_of_lt hW)
  constructor
  · refine ⟨?_, ?_, ?_⟩
    · have := hq 3600 (by norm_num)
      unfold fires
      omega
    · have := hq 3600 (by norm_num)
      unfold fires
      omega
    · exact ticks_flush 3600 t params now1 now2 _ (by norm_num)
        (fun m0 => by simp only [hourly_log_turn, SEC_IN_HOUR]) n m
  · refine ⟨?_, ?_, ?_⟩
    · have := hq 86400 (by norm_num)
      unfold fires
      omega
    · have := hq 86400 (by norm_num)
      unfold fires
      omega
    · exact ticks_flush 86400 t params now1 now2 _ (by norm_num)
        (fun m0 => by
          have h : SEC_IN_DAY = 86400 := by decide
          simp only [daily_log_turn, h]) n m

/-- C30 for the hourly flusher at its initial boundary 3600 with the clock held at 12000, two
windows and a bit behind: five ticks give three records and the boundary 14400. -/
theorem flusher_fires_once_per_window_behind_witness :
    (initial_memory [] 0).time params_hour.nextLogTime ≤ 12000 ∧
    fires 3600 12000 ((initial_memory [] 0).time params_hour.nextLogTime) = 3 ∧
    ∃ m1 : Memory,
      ticks (hourly_log_turn params_hour 12000 sample_clock sample_clock) 5
        (initial_memory [] 0) = some m1 ∧
      m1.db.length = (initial_memory [] 0).db.length +
        min 5 (fires 3600 12000 ((initial_memory [] 0).time params_hour.nextLogTime)) ∧
      m1.time params_hour.nextLogTime = (initial_memory [] 0).time params_hour.nextLogTime +
        (min 5 (fires 3600 12000 ((initial_memory [] 0).time params_hour.nextLogTime)) : ℕ) *
          3600 :=
  ⟨by decide, by decide,
    (flusher_fires_once_per_window_behind params_hour sample_clock sample_clock 12000 5
      (initial_memory [] 0) (by decide)).1.2.2⟩

/-! ### The request text -/

theorem c_str_append_nul (a rest : Str) : c_str (a ++ NUL :: rest) = c_str a := by
  unfold c_str
  induction a with
  | nil => simp [List.takeWhile]
  | cons c t ih =>
    by_cases h : (c != NUL) = true
    · simp [List.takeWhile, h, ih]
    · simp [List.takeWhile, h]

theorem no_nul_c_str (s : Str) : NUL ∉ c_str s := by
  intro h
  have := List.mem_takeWhile_imp h
  simp at this

theorem c_str_is_initial (s : Str) : c_str s <+: s := List.takeWhile_prefix _

/-- A received text of fewer than `BUFFER_SIZE - 1` bytes: the request is the received text and
the digit zero behind it, cut at the first NUL. -/
theorem request_text_short (received : Str) (hlen : received.length < BUFFER_SIZE - 1) :
    request_text received = some (c_str (received ++ ['0'])) := by
  obtain ⟨k, hk⟩ : ∃ k, BUFFER_SIZE - 1 - received.length = k + 1 :=
    ⟨BUFFER_SIZE - 1 - received.length - 1, by omega⟩
  have hb : received ++ ['0'] ++ List.replicate (BUFFER_SIZE - 1 - received.length) NUL =
      (received ++ ['0']) ++ NUL :: List.replicate k NUL := by
    rw [hk, List.replicate_succ]
  unfold request_text
  simp only [hb, c_str_append_nul]
  rw [if_pos (by simp)]

/-- A received text of fewer than `BUFFER_SIZE - 1` bytes without NUL: the request is the
received text and the digit zero behind it. -/
theorem request_text_no_nul (received : Str) (hlen : received.length < BUFFER_SIZE - 1)
    (hnul : NUL ∉ received) : request_text received = some (received ++ ['0']) := by
  rw [request_text_short received hlen, c_str_of_no_nul]
  simp only [List.mem_append, List.mem_singleton, not_or]
  exact ⟨hnul, by decide⟩

/-- A text without the character `c` that starts `a ++ c :: rest` starts `a`. -/
theorem prefix_of_append_cons (p a rest : Str) (c : Char) (hc : c ∉ p)
    (h : p <+: a ++ c :: rest) : p <+: a := by
  have h2 : a <+: a ++ c :: rest := List.prefix_append _ _
  rcases List.prefix_or_prefix_of_prefix h h2 with h3 | h3
  · exact h3
  · obtain ⟨t, ht⟩ := h3
    rw [← ht, List.prefix_append_right_inj] at h
    cases t with
    | nil => rw [← ht]; simp
    | cons e t =>
      exfalso
      have he : e = c := by
        obtain ⟨u, hu⟩ := h
        simp only [List.cons_append, List.cons.injEq] at hu
        exact hu.1
      exact hc (by rw [← ht, he]; simp)

/-- A request starts with a text without the digit zero only if the received bytes do. -/
theorem prefix_of_request (p received request : Str) (hlen : received.length < BUFFER_SIZE - 1)
    (hreq : request_text received = some request) (h0 : '0' ∉ p) (hp : p <+: request) :
    p <+: received := by
  rw [request_text_short received hlen, Option.some.injEq] at hreq
  have h1 : p <+: received ++ '0' :: [] := by
    rw [← hreq] at hp
    exact hp.trans (c_str_is_initial _)
  exact prefix_of_append_cons p received [] '0' h0 h1

/-- For every non-empty received request of fewer than `BUFFER_SIZE - 1` bytes, `handle_client`
does not stay silent: it sends one response, the one case apart in which the request starts
with `GET /stats` and the statement text is outside the modelled SQL; a request that does not
start with `GET /` is answered with the page `<html><body><h1>Hello, World!</h1></body></html>`,
status 200, content type text/html. -/
theorem non_get_request_gets_fallback_page (received : Str) (files : Files) (db : Database)
    (currentTemperatureStr program_start_time : Str) (now : ClockReading)
    (h0 : 0 < received.length) (hlen : received.length < BUFFER_SIZE - 1) :
    handle_client received files db currentTemperatureStr program_start_time now ≠ .silent ∧
    ((∃ response : Str,
        handle_client received files db currentTemperatureStr program_start_time now =
          .sent response) ∨
      (handle_client received files db currentTemperatureStr program_start_time now =
          .outside_model ∧
        "GET /stats".toList <+: received ∧
        ∃ request : Str, request_text received = some request ∧
          get_stats_from_db db (stats_range request program_start_time now).1
            (stats_range request program_start_time now).2 = none)) ∧
    (¬ "GET /".toList <+: received →
      handle_client received files db currentTemperatureStr program_start_time now =
        .sent (http_response "<html><body><h1>Hello, World!</h1></body></html>".toList 200
          "text/html".toList)) := by
  have hreq := request_text_short received hlen
  have hpre : ∀ p : Str, '0' ∉ p → find (c_str (received ++ ['0'])) p = some 0 →
      p <+: received := by
    intro p hp hf
    rw [find_eq_some_zero_iff, List.isPrefixOf_iff_prefix] at hf
    exact prefix_of_request p received _ hlen hreq hp hf
  have hsub : "GET /".toList <+: "GET /stats".toList ∧
      "GET /".toList <+: "GET /current".toList := by decide
  simp only [handle_client, if_pos h0, hreq]
  by_cases hc : find (c_str (received ++ ['0'])) "GET /current".toList = some 0
  · simp only [if_pos hc]
    refine ⟨by simp, Or.inl ⟨_, rfl⟩, ?_⟩
    intro hn
    exact absurd (hsub.2.trans (hpre _ (by decide) hc)) hn
  · simp only [if_neg hc]
    by_cases hs : find (c_str (received ++ ['0'])) "GET /stats".toList = some 0
    · simp only [if_pos hs]
      cases hg : get_stats_from_db db
          (stats_range (c_str (received ++ ['0'])) program_start_time now).1
          (stats_range (c_str (received ++ ['0'])) program_start_time now).2 with
      | some body =>
        refine ⟨by simp, Or.inl ⟨_, rfl⟩, ?_⟩
        intro hn
        exact absurd (hsub.1.trans (hpre _ (by decide) hs)) hn
      | none =>
        refine ⟨by simp, Or.inr ⟨rfl, hpre _ (by decide) hs, _, rfl, hg⟩, ?_⟩
        intro hn
        exact absurd (hsub.1.trans (hpre _ (by decide) hs)) hn
    · simp only [if_neg hs]
      by_cases hg : find (c_str (received ++ ['0'])) "GET /".toList = some 0
      · simp only [if_pos hg]
        refine ⟨by simp, Or.inl ⟨_, rfl⟩, ?_⟩
        intro hn
        exact absurd (hpre _ (by decide) hg) hn
      · simp only [if_neg hg]
        exact ⟨by simp, Or.inl ⟨_, rfl⟩, fun _ => trivial⟩

/-- The received text `POST /current` is answered with the fallback page. -/
theorem non_get_request_gets_fallback_page_example :
    (0 < "POST /current".toList.length ∧ "POST /current".toList.length < BUFFER_SIZE - 1 ∧
      ¬ "GET /".toList <+: "POST /current".toList) ∧
    handle_client "POST /current".toList (fun _ => none) [] [] [] sample_clock =
      .sent (http_response "<html><body><h1>Hello, World!</h1></body></html>".toList 200
        "text/html".toList) :=
  ⟨by decide,
    (non_get_request_gets_fallback_page "POST /current".toList (fun _ => none) [] [] []
      sample_clock (by decide) (by decide)).2.2 (by decide)⟩

set_option maxRecDepth 100000 in
/-- C22: a received request of `BUFFER_SIZE - 1` = 1023 bytes without NUL fills the buffer, the
digit zero stored behind it takes the place of the last NUL, and building the request text
reads past the end of the array: the behaviour is undefined and no response is guaranteed. -/
theorem full_buffer_request_reads_past_buffer :
    0 < (List.replicate 1023 'a').length ∧
    request_text (List.replicate 1023 'a') = none ∧
    handle_client (List.replicate 1023 'a') (fun _ => none) [] [] [] sample_clock =
      .outside_model := by
  have h : request_text (List.replicate 1023 'a') = none := by decide
  refine ⟨by decide, h, ?_⟩
  simp only [handle_client, h]
  decide

/-! ### The last parameter of a `/stats` request -/

/-- The range of a `/stats` request whose text after `end=` holds no `&`: `start_time` is the
text of `start`, `end_time` is all the text after `end=`. -/
theorem stats_range_to_end (S X program_start_time : Str) (now : ClockReading)
    (hS : '&' ∉ S) (hSe : ¬ "end=".toList <:+: S) (hX : '&' ∉ X) :
    stats_range ("GET /stats?start=".toList ++ S ++ "&end=".toList ++ X) program_start_time
      now = (S, X) := by
  have e1 : "GET /stats?start=".toList ++ S ++ "&end=".toList ++ X =
      "GET /stats?start=".toList ++ (S ++ "&end=".toList ++ X) := by
    simp only [List.append_assoc]
  have h17 : "GET /stats?start=".toList.length = 17 := rfl
  have h5 : "&end=".toList.length = 5 := rfl
  have hlen : ("GET /stats?start=".toList ++ S ++ "&end=".toList ++ X).length =
      17 + S.length + 5 + X.length := by
    simp only [List.length_append]
    omega
  have d1 : ("GET /stats?start=".toList ++ S ++ "&end=".toList ++ X).drop 17 =
      S ++ '&' :: ("end=".toList ++ X) := by
    rw [e1, List.drop_append_of_le_length (by decide)]
    have : List.drop 17 "GET /stats?start=".toList = [] := by decide
    rw [this]
    simp only [List.append_assoc, List.nil_append]
    rfl
  have d2 : ("GET /stats?start=".toList ++ S ++ "&end=".toList ++ X).drop
      (17 + S.length + 5) = X := by
    apply List.drop_left'
    simp only [List.length_append]
    omega
  have hamp : "&".toList = ['&'] := rfl
  have hfs := find_start_parameter (S ++ "&end=".toList ++ X)
  rw [← e1] at hfs
  have hfe := find_end_parameter S X hSe
  have hamp1 : find_from ("GET /stats?start=".toList ++ S ++ "&end=".toList ++ X)
      "&".toList (11 + 6) = some (17 + S.length) := by
    rw [find_from, if_pos (by rw [hlen]; omega)]
    have : (11 + 6 : ℕ) = 17 := rfl
    rw [this, d1, hamp]
    exact find_at_char '&' S _ hS 17
  have hstart : substr ("GET /stats?start=".toList ++ S ++ "&end=".toList ++ X) (11 + 6)
      (17 + S.length - (11 + 6)) = S := by
    have : (11 + 6 : ℕ) = 17 := rfl
    rw [substr, this, d1]
    have : 17 + S.length - 17 = S.length := by omega
    rw [this, List.take_left]
  have hpos : 17 + S.length + 1 + 4 = 17 + S.length + 5 := by omega
  have hf : find_from ("GET /stats?start=".toList ++ S ++ "&end=".toList ++ X) "&".toList
      (17 + S.length + 1 + 4) = none := by
    rw [find_from, if_pos (by rw [hlen]; omega), hpos, d2, hamp, find_at_none_iff]
    intro hin
    exact hX (hin.subset (by simp))
  simp only [stats_range, hfs, hfe, hamp1, hf, hstart, substr_from]
  rw [hpos, d2]

/-- C25, amended: for a received request of fewer than `BUFFER_SIZE - 1` bytes of the form
`GET /stats?start=` S `&end=` E R, where S, E and R hold no `&` and no NUL and S does not
contain `end=`, `handle_client` queries the store with `start_time = S` and with `end_time` = E,
then R, then the character `0`. -/
theorem stats_request_end_runs_to_end_of_text (S E R : Str) (files : Files) (db : Database)
    (currentTemperatureStr program_start_time : Str) (now : ClockReading)
    (hlen : ("GET /stats?start=".toList ++ S ++ "&end=".toList ++ E ++ R).length <
      BUFFER_SIZE - 1)
    (hS : '&' ∉ S) (hE : '&' ∉ E) (hR : '&' ∉ R) (hSe : ¬ "end=".toList <:+: S)
    (hnS : NUL ∉ S) (hnE : NUL ∉ E) (hnR : NUL ∉ R) :
    request_text ("GET /stats?start=".toList ++ S ++ "&end=".toList ++ E ++ R) =
      some ("GET /stats?start=".toList ++ S ++ "&end=".toList ++ (E ++ R ++ ['0'])) ∧
    stats_range ("GET /stats?start=".toList ++ S ++ "&end=".toList ++ (E ++ R ++ ['0']))
      program_start_time now = (S, E ++ R ++ ['0']) ∧
    handle_client ("GET /stats?start=".toList ++ S ++ "&end=".toList ++ E ++ R) files db
        currentTemperatureStr program_start_time now =
      match get_stats_from_db db S (E ++ R ++ ['0']) with
      | some body => .sent (http_response body 200 "application/json".toList)
      | none => .outside_model := by
  have hnul : NUL ∉ "GET /stats?start=".toList ++ S ++ "&end=".toList ++ E ++ R := by
    have h1 : NUL ∉ "GET /stats?start=".toList := by decide
    have h2 : NUL ∉ "&end=".toList := by decide
    simp only [List.mem_append, not_or]
    exact ⟨⟨⟨⟨h1, hnS⟩, h2⟩, hnE⟩, hnR⟩
  have hreq0 := request_text_no_nul _ hlen hnul
  have eq : "GET /stats?start=".toList ++ S ++ "&end=".toList ++ E ++ R ++ ['0'] =
      "GET /stats?start=".toList ++ S ++ "&end=".toList ++ (E ++ R ++ ['0']) := by
    simp only [List.append_assoc]
  rw [eq] at hreq0
  have hX : '&' ∉ E ++ R ++ ['0'] := by
    simp only [List.mem_append, List.mem_singleton, not_or]
    exact ⟨⟨hE, hR⟩, by decide⟩
  have hrange := stats_range_to_end S (E ++ R ++ ['0']) program_start_time now hS hSe hX
  refine ⟨hreq0, hrange, ?_⟩
  have hpos : 0 < ("GET /stats?start=".toList ++ S ++ "&end=".toList ++ E ++ R).length := by
    simp only [List.length_append]
    have h17 : "GET /stats?start=".toList.length = 17 := rfl
    omega
  have e1 : "GET /stats?start=".toList ++ S ++ "&end=".toList ++ (E ++ R ++ ['0']) =
      "GET /stats?start=".toList ++ (S ++ "&end=".toList ++ (E ++ R ++ ['0'])) := by
    simp only [List.append_assoc]
  obtain ⟨r1, r2⟩ := stats_request_routing (S ++ "&end=".toList ++ (E ++ R ++ ['0']))
  rw [← e1] at r1 r2
  simp only [handle_client, if_pos hpos, hreq0, r1, r2, if_false, if_true, hrange]

/-- C25, amended, for the request line `GET /stats?start=a&end=b HTTP/1.1`. -/
theorem stats_request_end_runs_to_end_of_text_witness :
    (("GET /stats?start=".toList ++ "a".toList ++ "&end=".toList ++ "b".toList ++
          " HTTP/1.1".toList).length < BUFFER_SIZE - 1 ∧
      '&' ∉ "a".toList ∧ '&' ∉ "b".toList ∧ '&' ∉ " HTTP/1.1".toList ∧
      ¬ "end=".toList <:+: "a".toList ∧
      NUL ∉ "a".toList ∧ NUL ∉ "b".toList ∧ NUL ∉ " HTTP/1.1".toList) ∧
    stats_range ("GET /stats?start=".toList ++ "a".toList ++ "&end=".toList ++
        ("b".toList ++ " HTTP/1.1".toList ++ ['0'])) [] sample_clock =
      ("a".toList, "b HTTP/1.10".toList) :=
  ⟨by decide,
    (stats_request_end_runs_to_end_of_text "a".toList "b".toList " HTTP/1.1".toList
      (fun _ => none) [] [] [] sample_clock (by decide) (by decide) (by decide) (by decide)
      (by decide) (by decide) (by decide) (by decide)).2.1⟩

/-- C25 fails as stated: with S = `a`, E = `b` and R = a NUL and `c` (no `&` in them), the
request text ends at the NUL, and the store is queried with `end_time` = `b`, not with E, R and
the character `0`. -/
theorem stats_request_end_is_cut_at_nul :
    ('&' ∉ "a".toList ∧ '&' ∉ "b".toList ∧ '&' ∉ [NUL, 'c'] ∧
      ¬ "end=".toList <:+: "a".toList) ∧
    ("GET /stats?start=".toList ++ "a".toList ++ "&end=".toList ++ "b".toList ++
        [NUL, 'c']).length < BUFFER_SIZE - 1 ∧
    request_text ("GET /stats?start=".toList ++ "a".toList ++ "&end=".toList ++ "b".toList ++
        [NUL, 'c']) = some "GET /stats?start=a&end=b".toList ∧
    stats_range "GET /stats?start=a&end=b".toList [] sample_clock = ("a".toList, "b".toList) ∧
    "b".toList ≠ "b".toList ++ [NUL, 'c'] ++ ['0'] ∧
    handle_client ("GET /stats?start=".toList ++ "a".toList ++ "&end=".toList ++ "b".toList ++
        [NUL, 'c']) (fun _ => none) [] [] [] sample_clock =
      match get_stats_from_db [] "a".toList "b".toList with
      | some body => .sent (http_response body 200 "application/json".toList)
      | none => .outside_model := by
  have hreq : request_text ("GET /stats?start=".toList ++ "a".toList ++ "&end=".toList ++
      "b".toList ++ [NUL, 'c']) = some "GET /stats?start=a&end=b".toList := by decide
  have hrange : stats_range "GET /stats?start=a&end=b".toList [] sample_clock =
      ("a".toList, "b".toList) := by decide
  refine ⟨by decide, by decide, hreq, hrange, by decide, ?_⟩
  have hpos : 0 < ("GET /stats?start=".toList ++ "a".toList ++ "&end=".toList ++ "b".toList ++
      [NUL, 'c']).length := by decide
  have r1 : find "GET /stats?start=a&end=b".toList "GET /current".toList ≠ some 0 := by decide
  have r2 : find "GET /stats?start=a&end=b".toList "GET /stats".toList = some 0 := by decide
  simp only [handle_client, if_pos hpos, hreq, r1, r2, if_false, if_true, hrange]

/-! ### The statement text of a `/stats` query -/

/-- What `get_stats_from_db` does is decided by the statement text alone. -/
theorem get_stats_from_db_prepared (db : Database) (start_time end_time : Str) :
    get_stats_from_db db start_time end_time =
      match sqlite_parse (prepared_text start_time end_time) with
      | .error => some "\x7b\"error\":\"Database error.\"\x7d".toList
      | .ok (.select_between lo hi) =>
        some (((select_between db lo hi).foldl append_row ("[".toList, true)).1 ++ "]".toList)
      | .ok (.insert _ _) => none
      | .other => none := rfl

/-- The range `handle_client` hands to `get_stats_from_db` holds no NUL. -/
theorem no_nul_stats_range (received request program_start_time : Str) (now : ClockReading)
    (hreq : request_text received = some request) (hp : NUL ∉ program_start_time) :
    NUL ∉ (stats_range request program_start_time now).1 ∧
      NUL ∉ (stats_range request program_start_time now).2 := by
  have hn : NUL ∉ request := by
    simp only [request_text] at hreq
    split at hreq
    · rw [Option.some.injEq] at hreq
      rw [← hreq]
      exact no_nul_c_str _
    · simp at hreq
  have hd : ∀ n : ℕ, NUL ∉ request.drop n := fun n h => hn (List.mem_of_mem_drop h)
  have ht : ∀ n k : ℕ, NUL ∉ (request.drop n).take k :=
    fun n k h => hd n (List.mem_of_mem_take h)
  unfold stats_range
  split
  · constructor
    · dsimp only
      split
      · exact hd _
      · exact ht _ _
    · dsimp only
      split
      · exact hd _
      · exact ht _ _
  · exact ⟨hp, (plain_get_current_time now).2⟩

/-- C26, amended: for all strings s and e without NUL the statement text that
`get_stats_from_db` prepares is exactly the `SELECT` text with s and e between single quotes,
nothing escaped, and every range `handle_client` passes is without NUL. For the received
request `GET /stats?start=x' OR '1'='1&end=y` the `start` parameter holds a single quote and
the first string literal of the statement ends at it: the text ` OR '1'='1` after the quote
lies outside the literal. -/
theorem stats_statement_is_spliced_text (s e : Str) (hs : NUL ∉ s) (he : NUL ∉ e) :
    prepared_text s e =
      "SELECT timestamp, temperature FROM logs WHERE timestamp BETWEEN '".toList ++ s ++
        "' AND '".toList ++ e ++ "';".toList ∧
    (∀ (received request program_start_time : Str) (now : ClockReading),
      request_text received = some request → NUL ∉ program_start_time →
      NUL ∉ (stats_range request program_start_time now).1 ∧
        NUL ∉ (stats_range request program_start_time now).2) ∧
    (request_text "GET /stats?start=x' OR '1'='1&end=y".toList =
        some "GET /stats?start=x' OR '1'='1&end=y0".toList ∧
      stats_range "GET /stats?start=x' OR '1'='1&end=y0".toList [] sample_clock =
        ("x' OR '1'='1".toList, "y0".toList) ∧
      QUOTE ∈ "x' OR '1'='1".toList ∧
      prepared_text "x' OR '1'='1".toList "y0".toList =
        "SELECT timestamp, temperature FROM logs WHERE timestamp BETWEEN '".toList ++
          "x' OR '1'='1' AND 'y0';".toList ∧
      lex_literal "x' OR '1'='1' AND 'y0';".toList =
        some ("x".toList, " OR '1'='1' AND 'y0';".toList)) := by
  refine ⟨?_, ?_, ?_⟩
  · unfold prepared_text stats_query
    apply c_str_of_no_nul
    have h1 : NUL ∉
        "SELECT timestamp, temperature FROM logs WHERE timestamp BETWEEN '".toList := by decide
    have h2 : NUL ∉ "' AND '".toList := by decide
    have h3 : NUL ∉ "';".toList := by decide
    simp only [List.mem_append, not_or]
    exact ⟨⟨⟨⟨h1, hs⟩, h2⟩, he⟩, h3⟩
  · intro received request program_start_time now hreq hp
    exact no_nul_stats_range received request program_start_time now hreq hp
  · refine ⟨by decide, by decide, by decide, by decide, by decide⟩

/-- C26, amended, for the range 2024-01-01 00:00:00 to 2024-01-02 00:00:00. -/
theorem stats_statement_is_spliced_text_witness :
    (NUL ∉ "2024-01-01 00:00:00".toList ∧ NUL ∉ "2024-01-02 00:00:00".toList) ∧
    prepared_text "2024-01-01 00:00:00".toList "2024-01-02 00:00:00".toList =
      ("SELECT timestamp, temperature FROM logs WHERE timestamp BETWEEN ".toList ++
        "'2024-01-01 00:00:00' AND '2024-01-02 00:00:00';".toList) :=
  ⟨by decide,
    (stats_statement_is_spliced_text "2024-01-01 00:00:00".toList "2024-01-02 00:00:00".toList
      (by decide) (by decide)).1.trans (by decide)⟩

/-- C26 fails as stated: for s = `a`, NUL, `b` and e = `c` the statement text handed to the SQL
engine ends at the NUL, inside the first literal; it is not the `SELECT` text with s and e
spliced in. -/
theorem stats_statement_is_cut_at_nul :
    prepared_text ['a', NUL, 'b'] "c".toList =
      "SELECT timestamp, temperature FROM logs WHERE timestamp BETWEEN 'a".toList ∧
    prepared_text ['a', NUL, 'b'] "c".toList ≠
      "SELECT timestamp, temperature FROM logs WHERE timestamp BETWEEN '".toList ++
        ['a', NUL, 'b'] ++ "' AND '".toList ++ "c".toList ++ "';".toList ∧
    get_stats_from_db [] ['a', NUL, 'b'] "c".toList =
      some "\x7b\"error\":\"Database error.\"\x7d".toList := by
  decide

/-! ### The sample value of the file logger (Lab_4) -/

theorem c_str_c_str (s : Str) : c_str (c_str s) = c_str s := c_str_of_no_nul (no_nul_c_str s)

/-- `atof` reads the C string: what follows the first NUL does not count. -/
theorem atof_append_nul (a rest : Str) : atof (a ++ NUL :: rest) = atof a := by
  have h : stod (a ++ NUL :: rest) = stod a := by
    unfold stod
    rw [c_str_append_nul]
  unfold atof
  rw [h]

theorem atof_buffer_append_nul (a rest : Str) :
    Lab_4.atof_buffer (a ++ NUL :: rest) = atof a := by
  unfold Lab_4.atof_buffer
  rw [if_pos (by simp), atof_append_nul]

theorem atof_7 : atof "7".toList = some 7 := by
  simp [atof, stod, c_str, split_sign, starts_with_nocase, scan_decimal, isspace, isdigit,
    digits_value, scan_exponent, DecimalLiteral.toRat, DecimalLiteral.magnitude, DBL_OVERFLOW,
    DBL_MIN, NUL]
  norm_num

theorem atof_25_5 : atof "25.5".toList = some (51 / 2) := by
  simp [atof, stod, c_str, split_sign, starts_with_nocase, scan_decimal, isspace, isdigit,
    digits_value, scan_exponent, DecimalLiteral.toRat, DecimalLiteral.magnitude, DBL_OVERFLOW,
    DBL_MIN, NUL]
  norm_num

theorem atof_75_5 : atof "75.5".toList = some (151 / 2) := by
  simp [atof, stod, c_str, split_sign, starts_with_nocase, scan_decimal, isspace, isdigit,
    digits_value, scan_exponent, DecimalLiteral.toRat, DecimalLiteral.magnitude, DBL_OVERFLOW,
    DBL_MIN, NUL]
  norm_num

/-- Reading a chunk into a buffer of NUL bytes that is longer than the chunk. -/
theorem read_into_zeroed (n : ℕ) (chunk : Str) (k : ℕ) (h : n = chunk.length + (k + 1)) :
    Lab_4.read_into (List.replicate n NUL) chunk = chunk ++ NUL :: List.replicate k NUL := by
  subst h
  simp [Lab_4.read_into, List.drop_replicate, List.replicate_succ]

/-- Reading the chunk `7` into a buffer that holds the C string `25.5`. -/
theorem read_into_over_25_5 (rest : Str) :
    Lab_4.read_into ("25.5".toList ++ NUL :: rest) "7".toList =
      "75.5".toList ++ NUL :: rest := by
  have p7 : "7".toList = ['7'] := rfl
  have p25 : "25.5".toList = ['2', '5', '.', '5'] := rfl
  have p75 : "75.5".toList = ['7', '5', '.', '5'] := rfl
  rw [p7, p25, p75]
  simp [Lab_4.read_into]

/-- Adding a sample to the bucket of a `ThreadData`: the counter and the mean afterwards. -/
theorem threadData_add (params : Lab_4.ThreadData) (v : ℚ) :
    (params.add v).recordCounter = params.recordCounter + 1 ∧
    (params.add v).averageValue =
      params.averageValue + (v - params.averageValue) / ((params.recordCounter + 1 : ℤ) : ℚ) := by
  simp [Lab_4.ThreadData.add, accumulate]

/-- A turn of the ingestion loop on a chunk: the buffer afterwards and the two buckets. -/
theorem ingest_turn_sample (now : ClockReading) (currentTimeSec : ℤ) (chunk : Str)
    (s : Lab_4.Logger) (v : ℚ) (hl : 0 < chunk.length)
    (ha : Lab_4.atof_buffer (Lab_4.read_into s.buffer chunk) = some v) :
    ∃ s1 : Lab_4.Logger, Lab_4.ingest_turn now currentTimeSec (.bytes chunk) s = some s1 ∧
      s1.buffer = Lab_4.read_into s.buffer chunk ∧
      s1.params_hour = s.params_hour.add v ∧ s1.params_day = s.params_day.add v ∧
      s1.hourly = s.hourly ∧ s1.daily = s.daily := by
  simp only [Lab_4.ingest_turn, if_pos hl, ha]
  exact ⟨_, rfl, rfl, rfl, rfl, rfl, rfl⟩

theorem ingest_chunks_cons (now : ClockReading) (currentTimeSec : ℤ) (chunk : Str)
    (rest : List Str) (s s1 : Lab_4.Logger)
    (h : Lab_4.ingest_turn now currentTimeSec (.bytes chunk) s = some s1) :
    Lab_4.ingest_chunks now currentTimeSec (chunk :: rest) s =
      Lab_4.ingest_chunks now currentTimeSec rest s1 := by
  simp only [Lab_4.ingest_chunks, h]

/-- C24: the sample value of a chunk depends on the chunks read before it. `atof` reads the
buffer up to its first NUL, and `read` leaves the bytes of earlier, longer chunks behind the
new ones: the chunk `7` read first gives the sample 7, read after the chunk `25.5` it gives
75.5. After the two chunks `25.5` and `7` both means are 50.5 over 2 samples, not 16.25. -/
theorem sample_value_depends_on_earlier_chunks (now : ClockReading)
    (currentTimeSec startTime hourlyStart logYear : ℤ) :
    Lab_4.atof_buffer (Lab_4.read_into (List.replicate 255 NUL) "7".toList) = some 7 ∧
    Lab_4.atof_buffer (Lab_4.read_into
      (Lab_4.read_into (List.replicate 255 NUL) "25.5".toList) "7".toList) = some (151 / 2) ∧
    atof "7".toList = some 7 ∧
    (∃ s1 : Lab_4.Logger,
      Lab_4.ingest_chunks now currentTimeSec ["7".toList]
        (Lab_4.initial_logger startTime hourlyStart logYear) = some s1 ∧
      (s1.params_hour.averageValue = 7 ∧ s1.params_hour.recordCounter = 1) ∧
      (s1.params_day.averageValue = 7 ∧ s1.params_day.recordCounter = 1)) ∧
    (∃ s2 : Lab_4.Logger,
      Lab_4.ingest_chunks now currentTimeSec ["25.5".toList, "7".toList]
        (Lab_4.initial_logger startTime hourlyStart logYear) = some s2 ∧
      (s2.params_hour.averageValue = 101 / 2 ∧ s2.params_hour.recordCounter = 2) ∧
      (s2.params_day.averageValue = 101 / 2 ∧ s2.params_day.recordCounter = 2)) := by
  have b1 : Lab_4.read_into (List.replicate 255 NUL) "7".toList =
      "7".toList ++ NUL :: List.replicate 253 NUL :=
    read_into_zeroed 255 "7".toList 253 (by decide)
  have b2 : Lab_4.read_into (List.replicate 255 NUL) "25.5".toList =
      "25.5".toList ++ NUL :: List.replicate 250 NUL :=
    read_into_zeroed 255 "25.5".toList 250 (by decide)
  have b3 : Lab_4.read_into ("25.5".toList ++ NUL :: List.replicate 250 NUL) "7".toList =
      "75.5".toList ++ NUL :: List.replicate 250 NUL := read_into_over_25_5 _
  have a1 : Lab_4.atof_buffer (Lab_4.read_into (List.replicate 255 NUL) "7".toList) =
      some 7 := by rw [b1, atof_buffer_append_nul, atof_7]
  have a2 : Lab_4.atof_buffer (Lab_4.read_into (List.replicate 255 NUL) "25.5".toList) =
      some (51 / 2) := by rw [b2, atof_buffer_append_nul, atof_25_5]
  have a3 : Lab_4.atof_buffer (Lab_4.read_into
      (Lab_4.read_into (List.replicate 255 NUL) "25.5".toList) "7".toList) =
      some (151 / 2) := by rw [b2, b3, atof_buffer_append_nul, atof_75_5]
  have l1 : 0 < "7".toList.length := by decide
  have l2 : 0 < "25.5".toList.length := by decide
  have hb : (Lab_4.initial_logger startTime hourlyStart logYear).buffer =
      List.replicate 255 NUL := rfl
  have hh0 : (Lab_4.initial_logger startTime hourlyStart logYear).params_hour.averageValue = 0 ∧
      (Lab_4.initial_logger startTime hourlyStart logYear).params_hour.recordCounter = 0 :=
    ⟨rfl, rfl⟩
  have hd0 : (Lab_4.initial_logger startTime hourlyStart logYear).params_day.averageValue = 0 ∧
      (Lab_4.initial_logger startTime hourlyStart logYear).params_day.recordCounter = 0 :=
    ⟨rfl, rfl⟩
  refine ⟨a1, a3, atof_7, ?_, ?_⟩
  · obtain ⟨s1, e1, _, h1, d1, _, _⟩ := ingest_turn_sample now currentTimeSec "7".toList
      (Lab_4.initial_logger startTime hourlyStart logYear) 7 l1 (by rw [hb]; exact a1)
    have e : Lab_4.ingest_chunks now currentTimeSec ["7".toList]
        (Lab_4.initial_logger startTime hourlyStart logYear) = some s1 := by
      rw [ingest_chunks_cons _ _ _ _ _ _ e1]
      rfl
    refine ⟨s1, e, ?_, ?_⟩
    · rw [h1, (threadData_add _ _).1, (threadData_add _ _).2, hh0.1, hh0.2]
      norm_num
    · rw [d1, (threadData_add _ _).1, (threadData_add _ _).2, hd0.1, hd0.2]
      norm_num
  · obtain ⟨s1, e1, f1, h1, d1, _, _⟩ := ingest_turn_sample now currentTimeSec "25.5".toList
      (Lab_4.initial_logger startTime hourlyStart logYear) (51 / 2) l2 (by rw [hb]; exact a2)
    obtain ⟨s2, e2, _, h2, d2, _, _⟩ := ingest_turn_sample now currentTimeSec "7".toList
      s1 (151 / 2) l1 (by rw [f1, hb]; exact a3)
    have e : Lab_4.ingest_chunks now currentTimeSec ["25.5".toList, "7".toList]
        (Lab_4.initial_logger startTime hourlyStart logYear) = some s2 := by
      rw [ingest_chunks_cons _ _ _ _ _ _ e1, ingest_chunks_cons _ _ _ _ _ _ e2]
      rfl
    refine ⟨s2, e, ?_, ?_⟩
    · rw [h2, (threadData_add _ _).1, (threadData_add _ _).2, h1, (threadData_add _ _).1,
        (threadData_add _ _).2, hh0.1, hh0.2]
      norm_num
    · rw [d2, (threadData_add _ _).1, (threadData_add _ _).2, d1, (threadData_add _ _).1,
        (threadData_add _ _).2, hd0.1, hd0.2]
      norm_num

/-! ### The checkpoint at shutdown -/

theorem overwrite_zero (content bytes : Str) :
    Exploration.overwrite content 0 bytes = bytes ++ content.drop bytes.length := by
  simp [Exploration.overwrite]

/-- The text of two positions that fit an `int`, followed by anything, is read back as the two
positions, and the reads leave the stream in a good state. -/
theorem read_checkpoint_text_append (a b : ℤ) (tail : Str) (ha : 0 ≤ a) (hb : 0 ≤ b)
    (ha2 : a ≤ INT_MAX) (hb2 : b ≤ INT_MAX) :
    read_last_positions (checkpoint_text a b ++ tail) = (a, b) ∧
      checkpoint_stream_fails (checkpoint_text a b ++ tail) = false := by
  have ea : to_string_int a = to_string_nat a.toNat := by
    simp [to_string_int, not_lt.mpr ha]
  have eb : to_string_int b = to_string_nat b.toNat := by
    simp [to_string_int, not_lt.mpr hb]
  have hn : "\n".toList = ['\n'] := rfl
  have ca : ((a.toNat : ℕ) : ℤ) = a := Int.toNat_of_nonneg ha
  have cb : ((b.toNat : ℕ) : ℤ) = b := Int.toNat_of_nonneg hb
  have h1 := extract_int_to_string_nat a.toNat (to_string_nat b.toNat ++ '\n' :: tail)
    (by rw [ca]; exact ha2)
  have h2 := extract_int_to_string_nat b.toNat tail (by rw [cb]; exact hb2)
  have e : checkpoint_text a b ++ tail =
      to_string_nat a.toNat ++ '\n' :: (to_string_nat b.toNat ++ '\n' :: tail) := by
    simp [checkpoint_text, ea, eb, hn]
  have hne : checkpoint_text a b ++ tail ≠ [] := by
    have := (to_string_nat_spec a.toNat).1
    rw [e]
    simp [this]
  constructor
  · rw [read_last_positions, if_neg hne, e, h1]
    simp only [extract_int_skip_newline, h2, ca, cb]
  · rw [checkpoint_stream_fails, if_neg hne, e, h1]
    simp only [extract_int_skip_newline, h2]

/-- C28: the text of the positions (a, b), written over any previous content from offset 0,
leaves a file at least as long as before, and reading that file gives (a, b), whatever is left
of the old content behind the new text. This is what the shutdown writes when the checkpoint
stream is good; when the reads at startup left it in the fail state nothing is written, and the
file still reads as the positions loaded from it, which are the positions at shutdown. -/
theorem checkpoint_rewrite_keeps_positions (old : Str) (a b : ℤ) (ha : 0 ≤ a) (hb : 0 ≤ b)
    (ha2 : a ≤ INT_MAX) (hb2 : b ≤ INT_MAX) :
    read_last_positions (Exploration.overwrite old 0 (checkpoint_text a b)) = (a, b) ∧
    (Exploration.overwrite old 0 (checkpoint_text a b)).length =
      max old.length (checkpoint_text a b).length ∧
    (checkpoint_stream_fails old = false →
      write_last_positions old (a, b) =
        (some (checkpoint_text a b), Exploration.overwrite old 0 (checkpoint_text a b))) ∧
    (read_last_positions old = (a, b) →
      read_last_positions (write_last_positions old (a, b)).2 = (a, b)) := by
  have h1 : read_last_positions (Exploration.overwrite old 0 (checkpoint_text a b)) = (a, b) := by
    rw [overwrite_zero]
    exact (read_checkpoint_text_append a b _ ha hb ha2 hb2).1
  refine ⟨h1, ?_, ?_, ?_⟩
  · rw [overwrite_zero]
    simp only [List.length_append, List.length_drop]
    omega
  · intro hgood
    simp [write_last_positions, hgood]
  · intro hold
    unfold write_last_positions
    split
    · exact hold
    · exact h1

/-- C28 for the positions (3, 7) written over a file that held `12`, newline, `345`, newline:
the file then holds `3`, newline, `7`, newline, `45`, newline, and reads as (3, 7). -/
theorem checkpoint_rewrite_keeps_positions_witness :
    ((0 : ℤ) ≤ 3 ∧ (0 : ℤ) ≤ 7 ∧ (3 : ℤ) ≤ INT_MAX ∧ (7 : ℤ) ≤ INT_MAX) ∧
    Exploration.overwrite "12\n345\n".toList 0 (checkpoint_text 3 7) = "3\n7\n45\n".toList ∧
    read_last_positions (Exploration.overwrite "12\n345\n".toList 0 (checkpoint_text 3 7)) =
      (3, 7) :=
  ⟨by decide, by decide,
    (checkpoint_rewrite_keeps_positions "12\n345\n".toList 3 7 (by decide) (by decide)
      (by decide) (by decide)).1⟩

/-! ### The checkpoint positions over a run -/

/-- An assignment through pointers whose counter pointer is not at a checkpoint position
leaves both positions as they are, whatever value it stores. -/
theorem assignment_keeps_positions {D : Type} (params : Pointers)
    (h0 : params.recordCounter ≠ .lastRecordPosition0)
    (h1 : params.recordCounter ≠ .lastRecordPosition1) (a : Assignment D) (v : Variables D) :
    (a.run params v).lastRecordPosition0 = v.lastRecordPosition0 ∧
      (a.run params v).lastRecordPosition1 = v.lastRecordPosition1 := by
  obtain ⟨tv, av, cv⟩ := params
  cases a <;> cases tv <;> cases av <;> cases cv <;>
    simp_all [Assignment.run, Variables.setInt, Variables.setAverage, Variables.setTime]

/-- Workers none of whose counter pointers is at a checkpoint position leave both positions
as they are up to the join. -/
theorem run_workers_keeps_positions {W D : Type} (pointers : W → Pointers)
    (h0 : ∀ w, (pointers w).recordCounter ≠ .lastRecordPosition0)
    (h1 : ∀ w, (pointers w).recordCounter ≠ .lastRecordPosition1)
    (steps : List (WorkerStep W D)) (v v1 : Variables D)
    (h : run_workers pointers steps v = .joined v1) :
    v1.lastRecordPosition0 = v.lastRecordPosition0 ∧
      v1.lastRecordPosition1 = v.lastRecordPosition1 := by
  induction steps generalizing v with
  | nil =>
    simp only [run_workers, WorkersEnd.joined.injEq] at h
    subst h
    exact ⟨rfl, rfl⟩
  | cons s rest ih =>
    cases s with
    | assigns worker a =>
      simp only [run_workers] at h
      have hs := assignment_keeps_positions (pointers worker) (h0 worker) (h1 worker) a v
      have hr := ih _ h
      exact ⟨hr.1.trans hs.1, hr.2.trans hs.2⟩
    | exit code => simp [run_workers] at h
    | terminate => simp [run_workers] at h

/-- Workers that only make assignments are all joined. -/
theorem run_workers_assignments {W D : Type} (pointers : W → Pointers)
    (steps : List (W × Assignment D)) (v : Variables D) :
    ∃ v1, run_workers pointers (steps.map fun s => .assigns s.1 s.2) v = .joined v1 := by
  induction steps generalizing v with
  | nil => exact ⟨v, rfl⟩
  | cons s rest ih => exact ih _

/-- No `ThreadData` object of the daemon has its counter pointer at a checkpoint position. -/
theorem threadDataObject_counter (w : ThreadDataObject) :
    w.pointers.recordCounter ≠ .lastRecordPosition0 ∧
      w.pointers.recordCounter ≠ .lastRecordPosition1 := by
  cases w <;> exact ⟨by decide, by decide⟩

/-- No worker of the file logger writes a checkpoint position. -/
theorem lab4_worker_counter (w : Lab_4.Worker) :
    w.pointers.recordCounter ≠ .lastRecordPosition0 ∧
      w.pointers.recordCounter ≠ .lastRecordPosition1 := by
  cases w <;> exact ⟨by decide, by decide⟩

/-- A run whose workers never write a checkpoint position returns with the loaded positions
written back, unless the process ends inside a worker. -/
theorem run_of_main_positions {W D : Type} (pointers : W → Pointers)
    (h0 : ∀ w, (pointers w).recordCounter ≠ .lastRecordPosition0)
    (h1 : ∀ w, (pointers w).recordCounter ≠ .lastRecordPosition1)
    (zero : D) (content : Str) (startTime : ℤ) (steps : List (WorkerStep W D)) :
    run_of_main pointers zero (some content) startTime steps =
        .returns (write_last_positions content (read_last_positions content)).1
          (write_last_positions content (read_last_positions content)).2 ∨
      (∃ code, run_of_main pointers zero (some content) startTime steps = .exits code) ∨
      run_of_main pointers zero (some content) startTime steps = .terminated := by
  simp only [run_of_main, open_checkpoint_linux]
  cases h : run_workers pointers steps
      (initial_variables zero startTime (read_last_positions content)) with
  | joined v1 =>
    left
    obtain ⟨e0, e1⟩ := run_workers_keeps_positions pointers h0 h1 steps _ v1 h
    simp only [initial_variables] at e0 e1
    simp only [e0, e1]
  | exit code => exact Or.inr (Or.inl ⟨code, rfl⟩)
  | terminate => exact Or.inr (Or.inr rfl)

/-- A run whose workers only make assignments, none to a checkpoint position, returns with the
loaded positions written back. -/
theorem run_of_main_assignments {W D : Type} (pointers : W → Pointers)
    (h0 : ∀ w, (pointers w).recordCounter ≠ .lastRecordPosition0)
    (h1 : ∀ w, (pointers w).recordCounter ≠ .lastRecordPosition1)
    (zero : D) (content : Str) (startTime : ℤ) (steps : List (W × Assignment D)) :
    run_of_main pointers zero (some content) startTime (steps.map fun s => .assigns s.1 s.2) =
      .returns (write_last_positions content (read_last_positions content)).1
        (write_last_positions content (read_last_positions content)).2 := by
  obtain ⟨v1, h⟩ := run_workers_assignments pointers steps
    (initial_variables zero startTime (read_last_positions content))
  obtain ⟨e0, e1⟩ := run_workers_keeps_positions pointers h0 h1 _ _ v1 h
  simp only [initial_variables] at e0 e1
  simp only [run_of_main, open_checkpoint_linux, h, e0, e1]

/-- A fire of a window flusher of the daemon, seen on the variables of `main`: the three
assignments through its pointers, and nothing else. -/
theorem flush_assigns (window : ℤ) (params : ThreadData) (now1 now2 : ClockReading)
    (m : Memory) (p0 p1 : ℤ) :
    ∃ m1, flush window params now1 now2 m = some m1 ∧
      variables_of m1 p0 p1 = run_assignments (Pointers.of params)
        [.nextLogTime (m.time params.nextLogTime + window), .averageValue 0, .recordCounter 0]
        (variables_of m p0 p1) := by
  refine ⟨_, flush_eq window params now1 now2 m, ?_⟩
  obtain ⟨tv, av, cv⟩ := params
  cases tv <;> cases av <;> cases cv <;>
    simp [run_assignments, Assignment.run, Pointers.of, CounterVar.toIntVar, variables_of,
      Variables.setInt, Variables.setAverage, Variables.setTime, Memory.setTime,
      Memory.setAverage, Memory.setCounter]

/-- A turn of the ingestion worker of the daemon that completes, seen on the variables of
`main`: assignments through its pointers, and nothing else. -/
theorem data_processing_turn_assigns (params : ThreadData) (now : ClockReading) (chunk : Str)
    (m m1 : Memory) (h : data_processing_turn params now chunk m = .next m1) :
    ∃ steps : List (Assignment ℚ), ∀ p0 p1 : ℤ,
      variables_of m1 p0 p1 = run_assignments (Pointers.of params) steps (variables_of m p0 p1) := by
  unfold data_processing_turn at h
  split at h
  · split at h
    · simp at h
    · simp at h
    · rename_i currentTemperature _
      dsimp only at h
      split at h
      · simp at h
      · rename_i db _
        simp only [Turn.next.injEq] at h
        subst h
        refine ⟨[.portData (to_string_double currentTemperature),
          .recordCounter (m.counter params.recordCounter + 1),
          .averageValue (m.average params.averageValue +
            (currentTemperature - m.average params.averageValue) /
              ((m.counter params.recordCounter + 1 : ℤ) : ℚ))], fun p0 p1 => ?_⟩
        obtain ⟨tv, av, cv⟩ := params
        cases tv <;> cases av <;> cases cv <;>
          simp [run_assignments, Assignment.run, Pointers.of, CounterVar.toIntVar, variables_of,
            Variables.setInt, Variables.setAverage, Variables.setTime, Memory.setBucket,
            Memory.bucket, Memory.setAverage, Memory.setCounter, Memory.average, Memory.counter,
            accumulate]
  · simp only [Turn.next.injEq] at h
    subst h
    exact ⟨[], fun _ _ => rfl⟩

/-- A turn of the hourly flusher of the daemon, seen on the variables of `main`: assignments
through its pointers, and nothing else. -/
theorem hourly_log_turn_assigns (params : ThreadData) (current_time : ℤ)
    (now1 now2 : ClockReading) (m : Memory) (p0 p1 : ℤ) :
    ∃ m1 steps, hourly_log_turn params current_time now1 now2 m = some m1 ∧
      variables_of m1 p0 p1 = run_assignments (Pointers.of params) steps (variables_of m p0 p1) := by
  unfold hourly_log_turn
  split
  · obtain ⟨m1, e, hv⟩ := flush_assigns SEC_IN_HOUR params now1 now2 m p0 p1
    exact ⟨m1, _, e, hv⟩
  · exact ⟨m, [], rfl, rfl⟩

/-- A turn of the daily flusher of the daemon, seen on the variables of `main`: assignments
through its pointers, and nothing else. -/
theorem daily_log_turn_assigns (params : ThreadData) (current_time : ℤ)
    (now1 now2 : ClockReading) (m : Memory) (p0 p1 : ℤ) :
    ∃ m1 steps, daily_log_turn params current_time now1 now2 m = some m1 ∧
      variables_of m1 p0 p1 = run_assignments (Pointers.of params) steps (variables_of m p0 p1) := by
  unfold daily_log_turn
  split
  · obtain ⟨m1, e, hv⟩ := flush_assigns SEC_IN_DAY params now1 now2 m p0 p1
    exact ⟨m1, _, e, hv⟩
  · exact ⟨m, [], rfl, rfl⟩

/-- A turn of the hourly flusher of the file logger, seen on the variables of `main`:
assignments to the hourly variables, and nothing else. -/
theorem lab4_hourly_log_turn_assigns (current_time : ℤ) (now : ClockReading) (s : Lab_4.Logger)
    (p0 p1 : ℤ) :
    ∃ steps : List (Assignment ℚ),
      Lab_4.variables_of
          { s with
            params_hour := (Lab_4.hourly_log_turn current_time now s.params_hour s.hourly).1
            hourly := (Lab_4.hourly_log_turn current_time now s.params_hour s.hourly).2 } p0 p1 =
        run_assignments Lab_4.Worker.hourly_log_thread.pointers steps
          (Lab_4.variables_of s p0 p1) := by
  by_cases hf : current_time ≥ s.params_hour.nextLogTime
  · exact ⟨[.nextLogTime (s.params_hour.nextLogTime + SEC_IN_HOUR), .averageValue 0,
      .recordCounter 0], by
      simp [Lab_4.hourly_log_turn, hf, run_assignments, Assignment.run, Lab_4.Worker.pointers,
        Lab_4.variables_of, Variables.setInt, Variables.setAverage, Variables.setTime]⟩
  · exact ⟨[], by
      simp [Lab_4.hourly_log_turn, hf, run_assignments, Lab_4.variables_of]⟩

/-- A turn of the daily flusher of the file logger that does not call `exit`, seen on the
variables of `main`: assignments to the daily variables, and nothing else. -/
theorem lab4_daily_log_turn_assigns (current_time currentYear : ℤ) (now : ClockReading)
    (reopen_trunc reopen_out : Bool) (s : Lab_4.Logger) (params : Lab_4.ThreadData)
    (locals : Lab_4.DailyLocals) (p0 p1 : ℤ)
    (h : Lab_4.daily_log_turn current_time currentYear now reopen_trunc reopen_out s.params_day
      s.daily = .next params locals) :
    ∃ steps : List (Assignment ℚ),
      Lab_4.variables_of { s with params_day := params, daily := locals } p0 p1 =
        run_assignments Lab_4.Worker.daily_log_thread.pointers steps
          (Lab_4.variables_of s p0 p1) := by
  by_cases hf : current_time ≥ s.params_day.nextLogTime
  · refine ⟨[.nextLogTime (s.params_day.nextLogTime + SEC_IN_DAY), .averageValue 0,
      .recordCounter 0], ?_⟩
    simp only [Lab_4.daily_log_turn, hf, if_true] at h
    split at h
    · simp at h
    · rename_i params2 locals2 hrot
      simp only [Lab_4.DailyTurn.next.injEq] at h
      obtain ⟨hp, -⟩ := h
      subst hp
      have hn : params2.nextLogTime = s.params_day.nextLogTime := by
        split at hrot
        · simp only [Option.some.injEq, Prod.mk.injEq] at hrot
          rw [← hrot.1]
        · split at hrot
          · split at hrot
            · simp at hrot
            · split at hrot
              · simp at hrot
              · simp only [Option.some.injEq, Prod.mk.injEq] at hrot
                rw [← hrot.1]
          · simp only [Option.some.injEq, Prod.mk.injEq] at hrot
            rw [← hrot.1]
      simp [run_assignments, Assignment.run, Lab_4.Worker.pointers, Lab_4.variables_of,
        Variables.setInt, Variables.setAverage, Variables.setTime, hn]
  · simp only [Lab_4.daily_log_turn, hf, if_false, Lab_4.DailyTurn.next.injEq] at h
    obtain ⟨hp, hl⟩ := h
    subst hp
    exact ⟨[], by simp [run_assignments, Lab_4.variables_of]⟩

/-- A turn of the ingestion loop of the file logger, seen on the variables of `main`:
assignments to the hourly and to the daily variables, and nothing else. -/
theorem lab4_ingest_turn_assigns (now : ClockReading) (currentTimeSec : ℤ) (r : ReadResult)
    (s s1 : Lab_4.Logger) (h : Lab_4.ingest_turn now currentTimeSec r s = some s1) :
    ∃ hourly daily : List (Assignment ℚ), ∀ p0 p1 : ℤ,
      Lab_4.variables_of s1 p0 p1 =
        run_assignments Lab_4.Worker.main_loop_daily.pointers daily
          (run_assignments Lab_4.Worker.main_loop_hourly.pointers hourly
            (Lab_4.variables_of s p0 p1)) := by
  unfold Lab_4.ingest_turn at h
  split at h
  · simp only [Option.some.injEq] at h
    subst h
    exact ⟨[], [], fun _ _ => rfl⟩
  · split at h
    · dsimp only at h
      split at h
      · simp at h
      · rename_i currentTemperature _
        simp only [Option.some.injEq] at h
        subst h
        exact ⟨[.recordCounter (s.params_hour.add currentTemperature).recordCounter,
            .averageValue (s.params_hour.add currentTemperature).averageValue],
          [.recordCounter (s.params_day.add currentTemperature).recordCounter,
            .averageValue (s.params_day.add currentTemperature).averageValue], fun p0 p1 => by
          simp [run_assignments, Assignment.run, Lab_4.Worker.pointers, Lab_4.variables_of,
            Variables.setInt, Variables.setAverage, Lab_4.ThreadData.add]⟩
    · simp only [Option.some.injEq] at h
      subst h
      exact ⟨[], [], fun _ _ => rfl⟩

/-- C27: between the load of the checkpoint and its rewrite the two positions are never
changed. For every run of the daemon (Lab_5) and of the file logger (Lab_4), that is for every
checkpoint file and every sequence of assignments the workers make through their pointers, in
any order and with any values (any samples, any amount of time): if the process does not end
inside a worker, `main` returns and what it puts on the checkpoint stream are the positions as
loaded; a run of assignments only always returns so. The text written, when the stream takes
it, is the two loaded positions, each followed by a newline. The statement depends on where the
counter pointers point: a worker whose counter pointer were at the first position would change
the checkpoint. -/
theorem checkpoint_positions_unchanged_by_workers (D : Type) (zero x : D) (content : Str)
    (startTime : ℤ) :
    (∀ steps : List (WorkerStep ThreadDataObject D),
      main_run zero (some content) startTime steps =
          .returns (write_last_positions content (read_last_positions content)).1
            (write_last_positions content (read_last_positions content)).2 ∨
        (∃ code, main_run zero (some content) startTime steps = .exits code) ∨
        main_run zero (some content) startTime steps = .terminated) ∧
    (∀ steps : List (WorkerStep Lab_4.Worker D),
      Lab_4.main_run zero (some content) startTime steps =
          .returns (write_last_positions content (read_last_positions content)).1
            (write_last_positions content (read_last_positions content)).2 ∨
        (∃ code, Lab_4.main_run zero (some content) startTime steps = .exits code) ∨
        Lab_4.main_run zero (some content) startTime steps = .terminated) ∧
    (∀ steps : List (ThreadDataObject × Assignment D),
      main_run zero (some content) startTime (steps.map fun s => .assigns s.1 s.2) =
        .returns (write_last_positions content (read_last_positions content)).1
          (write_last_positions content (read_last_positions content)).2) ∧
    (∀ steps : List (Lab_4.Worker × Assignment D),
      Lab_4.main_run zero (some content) startTime (steps.map fun s => .assigns s.1 s.2) =
        .returns (write_last_positions content (read_last_positions content)).1
          (write_last_positions content (read_last_positions content)).2) ∧
    ((write_last_positions content (read_last_positions content)).1 = none ∨
      (write_last_positions content (read_last_positions content)).1 =
        some (checkpoint_text (read_last_positions content).1 (read_last_positions content).2)) ∧
    main_run zero (some "3\n7\n".toList) startTime
        [.assigns .params_data (.portData "21.500000".toList),
          .assigns .params_data (.recordCounter 1),
          .assigns .params_data (.averageValue x),
          .assigns .params_hour (.nextLogTime (startTime + 2 * SEC_IN_HOUR)),
          .assigns .params_hour (.averageValue zero),
          .assigns .params_hour (.recordCounter 0)] =
      .returns (some "3\n7\n".toList) "3\n7\n".toList ∧
    Lab_4.main_run zero (some "3\n7\n".toList) startTime
        [.assigns .main_loop_hourly (.recordCounter 1),
          .assigns .main_loop_hourly (.averageValue x),
          .assigns .main_loop_daily (.recordCounter 1),
          .assigns .main_loop_daily (.averageValue x),
          .assigns .daily_log_thread (.nextLogTime (startTime + 2 * SEC_IN_DAY)),
          .assigns .daily_log_thread (.averageValue zero),
          .assigns .daily_log_thread (.recordCounter 0)] =
      .returns (some "3\n7\n".toList) "3\n7\n".toList ∧
    run_of_main (fun _ : Unit => (⟨.nextDayLogTime, .dailyAverageValue, .lastRecordPosition0⟩ :
          Pointers)) zero (some "3\n7\n".toList) startTime
        [.assigns () (.recordCounter 1), .assigns () (.averageValue x)] =
      .returns (some "1\n7\n".toList) "1\n7\n".toList := by
  have e : read_last_positions "3\n7\n".toList = (3, 7) := by decide
  have w37 : write_last_positions "3\n7\n".toList (3, 7) =
      (some "3\n7\n".toList, "3\n7\n".toList) := by decide
  have w17 : write_last_positions "3\n7\n".toList (1, 7) =
      (some "1\n7\n".toList, "1\n7\n".toList) := by decide
  refine ⟨fun steps => ?_, fun steps => ?_, fun steps => ?_, fun steps => ?_, ?_, ?_, ?_, ?_⟩
  · exact run_of_main_positions ThreadDataObject.pointers
      (fun w => (threadDataObject_counter w).1) (fun w => (threadDataObject_counter w).2)
      zero content startTime steps
  · exact run_of_main_positions Lab_4.Worker.pointers
      (fun w => (lab4_worker_counter w).1) (fun w => (lab4_worker_counter w).2)
      zero content startTime steps
  · exact run_of_main_assignments ThreadDataObject.pointers
      (fun w => (threadDataObject_counter w).1) (fun w => (threadDataObject_counter w).2)
      zero content startTime steps
  · exact run_of_main_assignments Lab_4.Worker.pointers
      (fun w => (lab4_worker_counter w).1) (fun w => (lab4_worker_counter w).2)
      zero content startTime steps
  · unfold write_last_positions
    split
    · exact Or.inl rfl
    · exact Or.inr rfl
  · have h := run_of_main_assignments (D := D) ThreadDataObject.pointers
      (fun w => (threadDataObject_counter w).1) (fun w => (threadDataObject_counter w).2)
      zero "3\n7\n".toList startTime
      [(.params_data, .portData "21.500000".toList), (.params_data, .recordCounter 1),
        (.params_data, .averageValue x),
        (.params_hour, .nextLogTime (startTime + 2 * SEC_IN_HOUR)),
        (.params_hour, .averageValue zero), (.params_hour, .recordCounter 0)]
    rw [e, w37] at h
    exact h
  · have h := run_of_main_assignments (D := D) Lab_4.Worker.pointers
      (fun w => (lab4_worker_counter w).1) (fun w => (lab4_worker_counter w).2)
      zero "3\n7\n".toList startTime
      [(.main_loop_hourly, .recordCounter 1), (.main_loop_hourly, .averageValue x),
        (.main_loop_daily, .recordCounter 1), (.main_loop_daily, .averageValue x),
        (.daily_log_thread, .nextLogTime (startTime + 2 * SEC_IN_DAY)),
        (.daily_log_thread, .averageValue zero), (.daily_log_thread, .recordCounter 0)]
    rw [e, w37] at h
    exact h
  · simp only [run_of_main, open_checkpoint_linux, run_workers, Assignment.run,
      Variables.setInt, Variables.setAverage, initial_variables, e, w17]

/-! ### The `/current` request, from the received bytes -/

/-- A text without NUL that starts `s` starts the C string of `s`. -/
theorem prefix_c_str (p s : Str) (hn : NUL ∉ p) (h : p <+: s) : p <+: c_str s := by
  obtain ⟨t, rfl⟩ := h
  induction p with
  | nil => simp
  | cons c p ih =>
    have hc : (c != NUL) = true := by
      simp only [bne_iff_ne, ne_eq]
      rintro rfl
      exact hn (by simp)
    have hp : NUL ∉ p := fun h => hn (List.mem_cons_of_mem _ h)
    have e : c_str (c :: p ++ t) = c :: c_str (p ++ t) := by
      simp [c_str, List.takeWhile, hc]
    rw [e]
    exact (List.prefix_cons_inj c).mpr (ih hp)

/-- For every received request of fewer than `BUFFER_SIZE - 1` bytes that starts with
`GET /current` and every current-value text s, `handle_client` answers with status 200, content
type application/json and the body {"temperature":"s"}. The server passes `portData` as s: it
is empty before any sample, so the body is {"temperature":""}, and later it is the text the
ingestion worker stored there last. -/
theorem current_request_returns_current_value (received : Str) (files : Files)
    (program_start_time : Str) (now : ClockReading)
    (hlen : received.length < BUFFER_SIZE - 1)
    (hget : "GET /current".toList <+: received) :
    (∀ (db : Database) (s : Str),
      handle_client received files db s program_start_time now =
        .sent (http_response ("\x7b\"temperature\":\"".toList ++ s ++ "\"\x7d".toList) 200
          "application/json".toList)) ∧
    (∀ (db : Database) (startTime : ℤ),
      web_server_turn received files program_start_time now (initial_memory db startTime) =
        .sent (http_response "\x7b\"temperature\":\"\"\x7d".toList 200
          "application/json".toList)) ∧
    (∀ m : Memory,
      web_server_turn received files program_start_time now m =
        .sent (http_response
          ("\x7b\"temperature\":\"".toList ++ m.portData ++ "\"\x7d".toList) 200
          "application/json".toList)) := by
  have hreq := request_text_short received hlen
  have hpos : 0 < received.length := by
    obtain ⟨t, ht⟩ := hget
    rw [← ht]
    simp
  have hcur : find (c_str (received ++ ['0'])) "GET /current".toList = some 0 := by
    rw [find_eq_some_zero_iff, List.isPrefixOf_iff_prefix]
    exact prefix_c_str _ _ (by decide) (hget.trans (List.prefix_append _ _))
  have hc : ∀ (db : Database) (s : Str),
      handle_client received files db s program_start_time now =
        .sent (http_response ("\x7b\"temperature\":\"".toList ++ s ++ "\"\x7d".toList) 200
          "application/json".toList) := by
    intro db s
    simp only [handle_client, if_pos hpos, hreq, hcur, if_true]
  refine ⟨hc, ?_, ?_⟩
  · intro db startTime
    rw [web_server_turn, hc]
    rfl
  · intro m
    rw [web_server_turn, hc]

/-- The request `GET /current HTTP/1.1` before any sample: the body is {"temperature":""}. -/
theorem current_request_before_any_sample :
    web_server_turn "GET /current HTTP/1.1\r\n\r\n".toList (fun _ => none) []
        sample_clock (initial_memory [] 0) =
      .sent (http_response "\x7b\"temperature\":\"\"\x7d".toList 200
        "application/json".toList) :=
  (current_request_returns_current_value "GET /current HTTP/1.1\r\n\r\n".toList
    (fun _ => none) [] sample_clock (by decide) (by decide)).2.1 [] 0

set_option maxRecDepth 100000 in
/-- C11: a received request of `BUFFER_SIZE - 1` = 1023 bytes that starts with `GET /current`
(here followed by 1011 times the character `a`) fills the buffer; the digit zero stored behind
it takes the place of the last NUL, and building the request text reads past the end of the
array: the behaviour is undefined, and the response with status 200 and the body
{"temperature":"s"} is not guaranteed, whatever the current value s. -/
theorem full_buffer_current_request_reads_past_buffer :
    "GET /current".toList <+: "GET /current".toList ++ List.replicate 1011 'a' ∧
    ("GET /current".toList ++ List.replicate 1011 'a').length = BUFFER_SIZE - 1 ∧
    request_text ("GET /current".toList ++ List.replicate 1011 'a') = none ∧
    ∀ (files : Files) (db : Database) (s program_start_time : Str) (now : ClockReading),
      handle_client ("GET /current".toList ++ List.replicate 1011 'a') files db s
        program_start_time now = .outside_model := by
  have h : request_text ("GET /current".toList ++ List.replicate 1011 'a') = none := by decide
  have hpos : 0 < ("GET /current".toList ++ List.replicate 1011 'a').length := by decide
  refine ⟨List.prefix_append _ _, by decide, h, ?_⟩
  intro files db s program_start_time now
  simp only [handle_client, if_pos hpos, h]

end OperatingSystems
